import Mathlib

/-!
# Ds-Validator-Toolkit: a model of `dist/index.js`

The library (`STR`, `handlePredefinedPattern`, `validateString`, `NUM`,
`validateNumber`) is embedded as pure functions.

* A JavaScript string is the list of its UTF-16 code units (`JSString`), so
  `value.length` is `List.length` and `value[i]` is the `i`-th element.
* A JavaScript number is `JSNumber`: a finite value (a rational, which covers
  every finite double; `-0` and `0` are one value) or one of `Infinity`,
  `-Infinity`, `NaN`.
* A call ends in an `Outcome`: a returned value or a raised exception.
* Built-ins of the runtime whose behaviour is not repository code
  (`RegExp.prototype.test`, `String.prototype.toLowerCase` and the rendering of
  numbers that are not integers below `2^53` in magnitude) are the fields of `Host`.
* A regular-expression object carries its `lastIndex`: a call is described from the
  state the object has when the call starts.
-/

namespace DsValidator

/-! ## Values of the runtime -/

/-- A JavaScript string, as the sequence of its UTF-16 code units. -/
abbrev JSString := List Nat

/-- The code units of an ASCII literal of the source. -/
def lit (s : String) : JSString := s.toList.map Char.toNat

/-- A JavaScript number. -/
inductive JSNumber where
  | finite (q : ℚ)
  | posInf
  | negInf
  | nan
  deriving DecidableEq

namespace JSNumber

/-- The number that a non-negative integer literal or a `length` denotes. -/
def ofNat (n : Nat) : JSNumber := .finite (n : ℚ)

/-- ToBoolean on a number: `0` and `NaN` are falsy. -/
def truthy : JSNumber → Bool
  | .finite q => decide (q ≠ 0)
  | .posInf => true
  | .negInf => true
  | .nan => false

/-- The relational operator `a < b` on numbers (false when either side is `NaN`). -/
def lt : JSNumber → JSNumber → Bool
  | .finite a, .finite b => decide (a < b)
  | .finite _, .posInf => true
  | .negInf, .finite _ => true
  | .negInf, .posInf => true
  | _, _ => false

/-- The relational operator `a <= b` on numbers (false when either side is `NaN`). -/
def le : JSNumber → JSNumber → Bool
  | .finite a, .finite b => decide (a ≤ b)
  | .finite _, .posInf => true
  | .negInf, .finite _ => true
  | .negInf, .posInf => true
  | .posInf, .posInf => true
  | .negInf, .negInf => true
  | _, _ => false

/-- The relational operator `a > b`. -/
def gt (a b : JSNumber) : Bool := lt b a

/-- The relational operator `a >= b`. -/
def ge (a b : JSNumber) : Bool := le b a

end JSNumber

/-- A value of any type, as far as `typeof` tells values apart. -/
inductive JSValue where
  | undefined
  | null
  | bool (b : Bool)
  | number (n : JSNumber)
  | string (s : JSString)
  | object
  deriving DecidableEq

/-- A regular-expression object when a call starts: the text between the slashes, the flags,
and the property `lastIndex`, which a test with the `g` or `y` flag reads and moves. -/
structure JSRegExp where
  source : String
  flags : String := ""
  lastIndex : Nat := 0
  deriving DecidableEq

/-- An exception raised by the code: an `Error` with its message, or a `TypeError`. -/
inductive JSError where
  | error (message : JSString)
  | typeError
  deriving DecidableEq, Repr

/-- How a call ends: it returns a value or it raises an exception. -/
inductive Outcome (α : Type) where
  | returned (value : α)
  | raised (e : JSError)
  deriving DecidableEq, Repr

/-- Built-ins of the runtime that the library calls and does not define. -/
structure Host where
  /-- The method `RegExp.prototype.test`, as a function of the state of the object when the
  call starts and of the string. With the `g` or `y` flag the call also moves `lastIndex`, so a
  later call on the same object starts from another state. -/
  regExpTest : JSRegExp → JSString → Bool
  /-- The method `String.prototype.toLowerCase`. -/
  toLowerCase : JSString → JSString
  /-- The rendering of a finite number that is not an integer below `2^53` in magnitude. -/
  numberToString : ℚ → JSString

/-- The decimal digits of a natural number. -/
def digitsOf (n : Nat) : JSString := (Nat.toDigits 10 n).map Char.toNat

/-- The text a number contributes to a template literal. An integer below `2^53` in magnitude
is rendered by its decimal digits; from `2^53` on the language prints the shortest digits that
identify the double, padded with zeros, and that rendering is left to the host. -/
def numberToString (H : Host) : JSNumber → JSString
  | .nan => lit "NaN"
  | .posInf => lit "Infinity"
  | .negInf => lit "-Infinity"
  | .finite q =>
    if q.den = 1 ∧ q.num.natAbs < 2 ^ 53 then
      (if q.num < 0 then lit "-" else []) ++ digitsOf q.num.natAbs
    else H.numberToString q

/-- The text an optional number contributes to a template literal. -/
def templateNumber (H : Host) : Option JSNumber → JSString
  | none => lit "undefined"
  | some n => numberToString H n

/-- The text an optional string contributes to a template literal. -/
def templateString : Option JSString → JSString
  | none => lit "undefined"
  | some s => s

/-- The expression `message || fallback` on an optional string: an absent or empty message is falsy. -/
def orDefault (message : Option JSString) (fallback : JSString) : JSString :=
  match message with
  | some (c :: cs) => c :: cs
  | _ => fallback

/-! ## String built-ins -/

/-- White space and line terminators: what `trim` strips and what `\s` matches. -/
def isWhitespace (c : Nat) : Bool :=
  c == 9 || c == 10 || c == 11 || c == 12 || c == 13 || c == 32 || c == 160 ||
  c == 5760 || (8192 ≤ c && c ≤ 8202) || c == 8232 || c == 8233 || c == 8239 ||
  c == 8287 || c == 12288 || c == 65279

/-- The method `String.prototype.trim`. -/
def trim (s : JSString) : JSString :=
  ((s.dropWhile isWhitespace).reverse.dropWhile isWhitespace).reverse

/-- The method `String.prototype.includes`. -/
def includes (value search : JSString) : Bool :=
  value.tails.any (fun t => search.isPrefixOf t)

/-- The method `String.prototype.startsWith`. -/
def startsWith (value search : JSString) : Bool := search.isPrefixOf value

/-- The method `String.prototype.endsWith`. -/
def endsWith (value search : JSString) : Bool := search.isSuffixOf value

/-- The expansion of a replacement template for a pattern without capture groups:
`$$` is a dollar sign, `$&` the match, a dollar sign and a backtick the text before
the match, a dollar sign and an apostrophe the text after it. -/
def getSubstitution (matched before after : JSString) : JSString → JSString
  | [] => []
  | [c] => [c]
  | c :: d :: rest =>
    if c = 36 ∧ d = 36 then 36 :: getSubstitution matched before after rest
    else if c = 36 ∧ d = 38 then matched ++ getSubstitution matched before after rest
    else if c = 36 ∧ d = 96 then before ++ getSubstitution matched before after rest
    else if c = 36 ∧ d = 39 then after ++ getSubstitution matched before after rest
    else c :: getSubstitution matched before after (d :: rest)

/-- The call `s.replace(/\s+/g, replacement)`, scanning the part of `s` after `before`;
`inMatch` says that the unit before the scan position belongs to a match already replaced. -/
def replaceWhitespaceRuns (replacement : JSString) : JSString → Bool → JSString → JSString
  | _, _, [] => []
  | before, inMatch, c :: cs =>
    if isWhitespace c then
      if inMatch then replaceWhitespaceRuns replacement (before ++ [c]) true cs
      else
        getSubstitution (c :: cs.takeWhile isWhitespace) before (cs.dropWhile isWhitespace)
            replacement
          ++ replaceWhitespaceRuns replacement (before ++ [c]) true cs
    else c :: replaceWhitespaceRuns replacement (before ++ [c]) false cs

/-- The call `s.split(/\s+/)`; `inSeparator` says that the unit before the scan position
belongs to a separator already consumed. -/
def splitWhitespaceRuns : Bool → JSString → List JSString
  | _, [] => [[]]
  | inSeparator, c :: cs =>
    if isWhitespace c then
      if inSeparator then splitWhitespaceRuns true cs
      else [] :: splitWhitespaceRuns true cs
    else (splitWhitespaceRuns false cs).modifyHead (fun w => c :: w)

/-! ## The class `STR` -/

namespace STR

/-- Source: `typeof value === "string"`. -/
def isString : JSValue → Bool
  | .string _ => true
  | _ => false

/-- Source: `isStringRequired(value, isRequired)`; `none` is `undefined` or `null`. -/
def isStringRequired (value : Option JSString) (isRequired : Bool) : Bool :=
  if isRequired then
    match value with
    | none => false
    | some s => decide (trim s ≠ [])
  else true

/-- Source: `value.length >= minLength`. -/
def isStringLengthAtLeast (value : JSString) (minLength : JSNumber) : Bool :=
  JSNumber.ge (JSNumber.ofNat value.length) minLength

/-- Source: `value.length <= maxLength`. -/
def isStringLengthAtMost (value : JSString) (maxLength : JSNumber) : Bool :=
  JSNumber.le (JSNumber.ofNat value.length) maxLength

/-- Source: `trimString(value)`. -/
def trimString : JSValue → JSString
  | .string s => trim s
  | _ => []

/-- The expression `found || null` on the result of `Array.prototype.find`. -/
def orNull : Option JSString → Option JSString
  | some (c :: cs) => some (c :: cs)
  | _ => none

/-- Source: `arrayOfChar.find((char) => value.includes(char)) || null`. -/
def containsDisallowedChar (value : JSString) (arrayOfChar : List JSString) : Option JSString :=
  orNull (arrayOfChar.find? (fun char => includes value char))

/-- Source: `arrayOfChar.find((char) => value.includes(char)) || null`. -/
def containsAllowedChar (value : JSString) (arrayOfChar : List JSString) : Option JSString :=
  orNull (arrayOfChar.find? (fun char => includes value char))

/-- Source: `containsBlacklistedWord(value, blacklist)`. -/
def containsBlacklistedWord (H : Host) (value : JSString) (blacklist : List JSString) :
    Option JSString :=
  let lowercasedValue := H.toLowerCase value
  orNull (blacklist.find? (fun word => includes lowercasedValue (H.toLowerCase word)))

/-- Source: `prefix ? value.startsWith(prefix) : true`; `none` is `undefined` or `null`. -/
def doesStringStartsWith (value : JSString) (pfx : Option JSString) : Bool :=
  match pfx with
  | some (c :: cs) => startsWith value (c :: cs)
  | _ => true

/-- Source: `suffix ? value.endsWith(suffix) : true`; `none` is `undefined` or `null`. -/
def doesStringEndsWith (value : JSString) (suffix : Option JSString) : Bool :=
  match suffix with
  | some (c :: cs) => endsWith value (c :: cs)
  | _ => true

/-- Source: `allowSpaces ? true : !value.includes(" ")`. -/
def isSpacesAllowed (value : JSString) (allowSpaces : Bool) : Bool :=
  if allowSpaces then true else !includes value [32]

/-- Source: `value.trim().split(/\s+/).length >= minWords`. -/
def isWordCountAboveThreshold (value : JSString) (minWords : JSNumber) : Bool :=
  let words := splitWhitespaceRuns false (trim value)
  JSNumber.ge (JSNumber.ofNat words.length) minWords

/-- Source: `value.trim().split(/\s+/).length <= maxWords`. -/
def isWordCountBelowThreshold (value : JSString) (maxWords : JSNumber) : Bool :=
  let words := splitWhitespaceRuns false (trim value)
  JSNumber.le (JSNumber.ofNat words.length) maxWords

/-- The inner `while` loop of `hasExcessiveRepetitiveChars`: from the units after
position `i` and the count so far, the final count and the units after the final `i`. -/
def countRun (currentChar : Nat) : JSString → Nat → Nat × JSString
  | [], consecutiveCount => (consecutiveCount, [])
  | c :: cs, consecutiveCount =>
    if c = currentChar then countRun currentChar cs (consecutiveCount + 1)
    else (consecutiveCount, c :: cs)

/-- The outer `for` loop of `hasExcessiveRepetitiveChars` on the units from position `i`
on; each iteration consumes one unit of fuel. -/
def scanRuns (maxRepetitiveChars : JSNumber) : Nat → JSString → Bool
  | 0, _ => false
  | _, [] => false
  | fuel + 1, currentChar :: rest =>
    let r := countRun currentChar rest 1
    if JSNumber.gt (JSNumber.ofNat r.1) maxRepetitiveChars then true
    else scanRuns maxRepetitiveChars fuel r.2

/-- Source: `hasExcessiveRepetitiveChars(value, maxRepetitiveChars)`; the loop runs at
most `value.length` times. -/
def hasExcessiveRepetitiveChars (value : JSString) (maxRepetitiveChars : JSNumber) : Bool :=
  scanRuns maxRepetitiveChars value.length value

end STR


/-! ## The pattern table and `handlePredefinedPattern` -/

/-- The constant `predefinedPatterns`: the own properties of the object literal, in source order. -/
def predefinedPatterns : List (JSString × JSRegExp) := [
  (lit "LETTERS_ONLY", ⟨"^[A-Za-z]+$", "", 0⟩),
  (lit "LETTERS_WITH_SPACES", ⟨"^[A-Za-z\\s]+$", "", 0⟩),
  (lit "LETTERS_NUMBERS_WITH_SPACES", ⟨"^[A-Za-z0-9\\s]+$", "", 0⟩),
  (lit "NUMBERS_ONLY", ⟨"^[0-9]+$", "", 0⟩),
  (lit "ALPHANUMERIC", ⟨"^[A-Za-z0-9]+$", "", 0⟩),
  (lit "EMAIL_ADDRESS", ⟨"^[^\\s@]+@[^\\s@]+\\.[^\\s@]+$", "", 0⟩),
  (lit "PHONE_NUMBER", ⟨"^\\+?[0-9]\x7b1,3\x7d[-. (]?\\d\x7b3\x7d[-. )]?\\d\x7b3\x7d[-. ]?\\d\x7b4\x7d$", "", 0⟩),
  (lit "POSTAL_CODE_US", ⟨"(^\\d\x7b5\x7d$)|(^\\d\x7b5\x7d-\\d\x7b4\x7d$)", "", 0⟩),
  (lit "URL", ⟨"^(https?|ftp):\\/\\/[^\\s/$.?#]+\\.[^\\s]*$", "", 0⟩),
  (lit "HEX_COLOR_CODE", ⟨"^#([A-Fa-f0-9]\x7b6\x7d|[A-Fa-f0-9]\x7b3\x7d)$", "", 0⟩),
  (lit "TIME_24_HOURS_FORMAT", ⟨"^(0[0-9]|1[0-9]|2[0-3]):[0-5][0-9]$", "", 0⟩),
  (lit "DATE_MM_DD_YYYY", ⟨"^(0[1-9]|1[0-2])\\/(0[1-9]|[12]\\d|3[01])\\/\\d\x7b4\x7d$", "", 0⟩),
  (lit "USERNAME", ⟨"^[a-zA-Z0-9_]+$", "", 0⟩),
  (lit "HTML_TAG", ⟨"^<([a-z]+)([^<]+)*(?:>(.*)<\\/\\1>|\\s+\\/>)$", "", 0⟩),
  (lit "IP_ADDRESS", ⟨"^\\b\\d\x7b1,3\x7d\\.\\d\x7b1,3\x7d\\.\\d\x7b1,3\x7d\\.\\d\x7b1,3\x7d\\b$", "", 0⟩),
  (lit "HTML_COLOR_CODE", ⟨"^#([0-9a-fA-F]\x7b3\x7d|[0-9a-fA-F]\x7b6\x7d)$", "", 0⟩),
  (lit "CREDIT_CARD", ⟨"^\\d\x7b4\x7d \\d\x7b4\x7d \\d\x7b4\x7d \\d\x7b4\x7d$", "", 0⟩),
  (lit "US_SSN", ⟨"^(?!000|666|9\\d\x7b2\x7d)\\d\x7b3\x7d-(?!00)\\d\x7b2\x7d-(?!0000)\\d\x7b4\x7d$", "", 0⟩),
  (lit "HTML_HEXADECIMAL_COLOR", ⟨"#(?:[0-9a-fA-F]\x7b3\x7d)\x7b1,2\x7d\\b", "", 0⟩),
  (lit "MAC_ADDRESS", ⟨"^([0-9A-Fa-f]\x7b2\x7d[:-])\x7b5\x7d([0-9A-Fa-f]\x7b2\x7d)$", "", 0⟩),
  (lit "ALPHABET_UPPERCASE_ONLY", ⟨"^[A-Z]+$", "", 0⟩),
  (lit "ALPHABET_LOWERCASE_ONLY", ⟨"^[a-z]+$", "", 0⟩),
  (lit "ALPHABET_MIXED_CASE", ⟨"^[A-Za-z]+$", "", 0⟩),
  (lit "NUMBERS_WITH_DECIMALS", ⟨"^-?\\d+(\\.\\d+)?$", "", 0⟩),
  (lit "DATE_YYYY_MM_DD", ⟨"^\\d\x7b4\x7d-(0[1-9]|1[0-2])-(0[1-9]|[12]\\d|3[01])$", "", 0⟩),
  (lit "DATE_DD_MM_YYYY", ⟨"^(0[1-9]|[12]\\d|3[01])-(0[1-9]|1[0-2])-\\d\x7b4\x7d$", "", 0⟩),
  (lit "TIME_12_HOURS_FORMAT", ⟨"^(0?[1-9]|1[0-2]):[0-5][0-9]\\s?(AM|PM)$", "", 0⟩),
  (lit "HTML_COMMENT", ⟨"<!--[\\s\\S]*?-->", "", 0⟩),
  (lit "US_PHONE_NUMBER", ⟨"^(1\\s?)?(\\([0-9]\x7b3\x7d\\)|[0-9]\x7b3\x7d)[\\s.-]?[0-9]\x7b3\x7d[\\s.-]?[0-9]\x7b4\x7d$", "", 0⟩),
  (lit "INTERNATIONAL_PHONE_NUMBER", ⟨"^\\+(?:[0-9] ?)\x7b6,14\x7d[0-9]$", "", 0⟩),
  (lit "UK_POSTAL_CODE", ⟨"^[A-Za-z]\x7b1,2\x7d\\d\x7b1,2\x7d[A-Za-z]?\\s*\\d[A-Za-z]\x7b2\x7d$", "", 0⟩),
  (lit "ALPHA_NUMERIC_WITH_SPECIAL_CHARACTERS", ⟨"^[a-zA-Z0-9!\"#$%&\x27()*+,\\-./:;<=>?@[\\\\\\]^_\x60\x7b|\x7d~]+$", "", 0⟩),
  (lit "HTML_IMAGE_TAG", ⟨"<img\\s+(?:[^>]*?\\s+)?src=([\"\x27])(.*?)\\1", "", 0⟩),
  (lit "HTML_LINK_TAG", ⟨"<a\\s+(?:[^>]*?\\s+)?href=([\"\x27])(.*?)\\1", "", 0⟩),
  (lit "HTML_SCRIPT_TAG", ⟨"<script[^>]*>[\\s\\S]*?<\\/script>", "i", 0⟩),
  (lit "HTML_STYLE_TAG", ⟨"<style[^>]*>[\\s\\S]*?<\\/style>", "i", 0⟩)]

/-- The property names every plain object inherits from `Object.prototype`; each holds a
function, except `__proto__`, which holds the prototype object. -/
def objectPrototypeKeys : List JSString := [
  lit "constructor", lit "__defineGetter__", lit "__defineSetter__", lit "hasOwnProperty",
  lit "__lookupGetter__", lit "__lookupSetter__", lit "isPrototypeOf",
  lit "propertyIsEnumerable", lit "toString", lit "valueOf", lit "__proto__",
  lit "toLocaleString"]

/-- The value of the option `regexPattern`: a regular expression or a string. -/
inductive RegexPattern where
  | regExp (r : JSRegExp)
  | name (s : JSString)
  deriving DecidableEq

/-- A value that `handlePredefinedPattern` returns: a regular expression, or the member of
`Object.prototype` that the property access found under the given name. -/
inductive PatternValue where
  | regExp (r : JSRegExp)
  | inherited (key : JSString)
  deriving DecidableEq

/-- The property access `table[key]` on an object literal with the own properties `table`:
`none` is `undefined`. -/
def getProperty (table : List (JSString × JSRegExp)) (key : JSString) : Option PatternValue :=
  match table.lookup key with
  | some r => some (.regExp r)
  | none => if objectPrototypeKeys.contains key then some (.inherited key) else none

/-- Source: `handlePredefinedPattern(regexPattern, predefinedPatterns2)`. Every value that
`getProperty` finds is truthy. -/
def handlePredefinedPattern (regexPattern : RegexPattern)
    (predefinedPatterns2 : List (JSString × JSRegExp)) : Outcome PatternValue :=
  match regexPattern with
  | .name s =>
    match getProperty predefinedPatterns2 s with
    | some v => .returned v
    | none =>
      .raised (.error (lit "The regex pattern \x27" ++ s ++
        lit "\x27 is not available in the predefined patterns."))
  | .regExp r => .returned (.regExp r)

/-! ## `validateString` -/

/-- The options object of `validateString`: the twenty-nine keys the function destructures,
typed as the declaration file types them (`none` is an absent or `undefined` key), and the
other own enumerable keys of the object, in `Object.keys` order. -/
structure StringValidatorOptions where
  isRequired : Option Bool := none
  minLength : Option JSNumber := none
  maxLength : Option JSNumber := none
  allowedChars : Option (List JSString) := none
  disallowedChars : Option (List JSString) := none
  blacklistWords : Option (List JSString) := none
  wordSeparator : Option JSString := none
  startsWithPattern : Option JSString := none
  endsWithPattern : Option JSString := none
  allowSpaces : Option Bool := none
  minWordsCount : Option JSNumber := none
  maxWordsCount : Option JSNumber := none
  maxRepetitiveCharsLimit : Option JSNumber := none
  regexPattern : Option RegexPattern := none
  customValidationFn : Option (JSString → Bool) := none
  isStringError : Option JSString := none
  lengthError : Option JSString := none
  customError : Option JSString := none
  allowedCharsError : Option JSString := none
  disallowedCharsError : Option JSString := none
  blacklistWordsError : Option JSString := none
  isRequiredError : Option JSString := none
  startsWithError : Option JSString := none
  endsWithError : Option JSString := none
  allowedSpacesError : Option JSString := none
  minWordsError : Option JSString := none
  maxWordsError : Option JSString := none
  maxRepetitiveCharsError : Option JSString := none
  regexPatternError : Option JSString := none
  otherKeys : List JSString := []

/-- The keys of the object literal `validOptions`, in source order. -/
def validOptionKeys : List JSString := [
  lit "isRequired",
  lit "minLength",
  lit "maxLength",
  lit "allowedChars",
  lit "disallowedChars",
  lit "blacklistWords",
  lit "wordSeparator",
  lit "startsWithPattern",
  lit "endsWithPattern",
  lit "allowSpaces",
  lit "minWordsCount",
  lit "maxWordsCount",
  lit "maxRepetitiveCharsLimit",
  lit "regexPattern",
  lit "customValidationFn",
  lit "isStringError",
  lit "lengthError",
  lit "customError",
  lit "allowedCharsError",
  lit "disallowedCharsError",
  lit "blacklistWordsError",
  lit "isRequiredError",
  lit "startsWithError",
  lit "endsWithError",
  lit "allowedSpacesError",
  lit "minWordsError",
  lit "maxWordsError",
  lit "maxRepetitiveCharsError",
  lit "regexPatternError"]

/-- The destructured keys, in the order of `validOptionKeys`, each with whether the options
object has it. -/
def optionPresence (o : StringValidatorOptions) : List (String × Bool) := [
  ("isRequired", o.isRequired.isSome),
  ("minLength", o.minLength.isSome),
  ("maxLength", o.maxLength.isSome),
  ("allowedChars", o.allowedChars.isSome),
  ("disallowedChars", o.disallowedChars.isSome),
  ("blacklistWords", o.blacklistWords.isSome),
  ("wordSeparator", o.wordSeparator.isSome),
  ("startsWithPattern", o.startsWithPattern.isSome),
  ("endsWithPattern", o.endsWithPattern.isSome),
  ("allowSpaces", o.allowSpaces.isSome),
  ("minWordsCount", o.minWordsCount.isSome),
  ("maxWordsCount", o.maxWordsCount.isSome),
  ("maxRepetitiveCharsLimit", o.maxRepetitiveCharsLimit.isSome),
  ("regexPattern", o.regexPattern.isSome),
  ("customValidationFn", o.customValidationFn.isSome),
  ("isStringError", o.isStringError.isSome),
  ("lengthError", o.lengthError.isSome),
  ("customError", o.customError.isSome),
  ("allowedCharsError", o.allowedCharsError.isSome),
  ("disallowedCharsError", o.disallowedCharsError.isSome),
  ("blacklistWordsError", o.blacklistWordsError.isSome),
  ("isRequiredError", o.isRequiredError.isSome),
  ("startsWithError", o.startsWithError.isSome),
  ("endsWithError", o.endsWithError.isSome),
  ("allowedSpacesError", o.allowedSpacesError.isSome),
  ("minWordsError", o.minWordsError.isSome),
  ("maxWordsError", o.maxWordsError.isSome),
  ("maxRepetitiveCharsError", o.maxRepetitiveCharsError.isSome),
  ("regexPatternError", o.regexPatternError.isSome)]

/-- The call `Object.keys(options)`. -/
def ownKeys (o : StringValidatorOptions) : List JSString :=
  ((optionPresence o).filter (fun e => e.2)).map (fun e => lit e.1) ++ o.otherKeys

/-- The expression `key in validOptions`: an own key of `validOptions` or an inherited one. -/
def inValidOptions (key : JSString) : Bool :=
  validOptionKeys.contains key || objectPrototypeKeys.contains key

/-- The call `Array.prototype.join` on an array of strings. -/
def join (separator : JSString) (xs : List JSString) : JSString :=
  separator.intercalate xs

/-- The message of the error raised for unrecognized option keys. -/
def invalidOptionsMessage (invalidOptions : List JSString) : JSString :=
  lit "Invalid option(s):\n- " ++ join (lit "\n- ") invalidOptions ++
    lit "\n\nAvailable options:\n- " ++ join (lit "\n- ") validOptionKeys


/-- A rule of the pipeline: the truthiness of its condition and its message. -/
structure Rule where
  condition : Bool
  message : JSString

/-- The record `validateString` returns; an absent property is `none`. -/
structure StringValidationResult where
  isValid : Bool
  errorMessage : Option JSString := none
  validatedInput : Option JSString := none
  deriving DecidableEq, Repr

/-- The expression `!updatedRegexPattern.test(trimmedName)` guarded by `updatedRegexPattern &&`:
a value inherited from `Object.prototype` has no method `test`, and calling it raises. -/
def patternCondition (H : Host) (updatedRegexPattern : Option PatternValue)
    (trimmedName : JSString) : Outcome Bool :=
  match updatedRegexPattern with
  | none => .returned false
  | some (.regExp r) => .returned (!H.regExpTest r trimmedName)
  | some (.inherited _) => .raised .typeError

/-- The array `validationRules`, given the outcome of the pattern test. -/
def validationRules (H : Host) (o : StringValidatorOptions) (trimmedName : JSString)
    (patternFails : Bool) : List Rule :=
  let isRequired := o.isRequired.getD true
  let allowSpaces := o.allowSpaces.getD true
  let maxRepetitiveCharsLimit := o.maxRepetitiveCharsLimit.getD .posInf
  [ { condition := isRequired && !STR.isStringRequired (some trimmedName) isRequired,
      message := orDefault o.isRequiredError (lit "Name is required") },
    { condition :=
        match o.allowedChars with
        | some allowedChars => (STR.containsAllowedChar trimmedName allowedChars).isNone
        | none => false,
      message := orDefault o.allowedCharsError (lit "Name contains disallowed characters") },
    { condition :=
        match o.minLength with
        | some minLength => minLength.truthy && !STR.isStringLengthAtLeast trimmedName minLength
        | none => false,
      message := orDefault o.lengthError
        (lit "Name must be at least " ++ templateNumber H o.minLength ++ lit " characters long") },
    { condition :=
        match o.maxLength with
        | some maxLength => maxLength.truthy && !STR.isStringLengthAtMost trimmedName maxLength
        | none => false,
      message := orDefault o.lengthError
        (lit "Name must be at most " ++ templateNumber H o.maxLength ++ lit " characters long") },
    { condition := patternFails,
      message := orDefault o.regexPatternError (lit "Invalid input pattern") },
    { condition :=
        match o.disallowedChars with
        | some disallowedChars =>
          (STR.containsDisallowedChar trimmedName disallowedChars).isSome
        | none => false,
      message := orDefault o.disallowedCharsError (lit "Name contains disallowed characters") },
    { condition :=
        match o.customValidationFn with
        | some customValidationFn => !customValidationFn trimmedName
        | none => false,
      message := orDefault o.customError (lit "Custom validation failed") },
    { condition :=
        match o.blacklistWords with
        | some blacklistWords =>
          (STR.containsBlacklistedWord H trimmedName blacklistWords).isSome
        | none => false,
      message := orDefault o.blacklistWordsError (lit "Name contains blacklisted words") },
    { condition :=
        match o.startsWithPattern with
        | some (c :: cs) => !STR.doesStringStartsWith trimmedName (some (c :: cs))
        | _ => false,
      message := orDefault o.startsWithError
        (lit "Name must start with " ++ templateString o.startsWithPattern) },
    { condition :=
        match o.endsWithPattern with
        | some (c :: cs) => !STR.doesStringEndsWith trimmedName (some (c :: cs))
        | _ => false,
      message := orDefault o.endsWithError
        (lit "Name must end with \x27" ++ templateString o.endsWithPattern ++ lit "\x27") },
    { condition := !STR.isSpacesAllowed trimmedName allowSpaces,
      message := orDefault o.allowedSpacesError (lit "Spaces are not allowed in the name") },
    { condition :=
        match o.minWordsCount with
        | some minWordsCount =>
          minWordsCount.truthy && !STR.isWordCountAboveThreshold trimmedName minWordsCount
        | none => false,
      message := orDefault o.minWordsError
        (lit "Name must contain at least " ++ templateNumber H o.minWordsCount ++ lit " words") },
    { condition :=
        match o.maxWordsCount with
        | some maxWordsCount =>
          maxWordsCount.truthy && !STR.isWordCountBelowThreshold trimmedName maxWordsCount
        | none => false,
      message := orDefault o.maxWordsError
        (lit "Name must contain at most " ++ templateNumber H o.maxLength ++ lit " words") },
    { condition := STR.hasExcessiveRepetitiveChars trimmedName maxRepetitiveCharsLimit,
      message := orDefault o.maxRepetitiveCharsError
        (lit "Name contains consecutive repetitive characters exceeding the limit of " ++
          numberToString H maxRepetitiveCharsLimit) } ]

/-- The loop over `validationRules` and the final `return`. -/
def firstFailure (rules : List Rule) (modifiedName : JSString) : StringValidationResult :=
  match rules.find? (fun rule => rule.condition) with
  | some rule => { isValid := false, errorMessage := some rule.message }
  | none => { isValid := true, validatedInput := some modifiedName }

/-- The statement `if (regexPattern) updatedRegexPattern = handlePredefinedPattern(...)`:
an absent pattern and the empty string are falsy and leave `null` (`none`). -/
def resolvePattern (regexPattern : Option RegexPattern) : Outcome (Option PatternValue) :=
  match regexPattern with
  | none => .returned none
  | some (.name []) => .returned none
  | some p =>
    match handlePredefinedPattern p predefinedPatterns with
    | .returned v => .returned (some v)
    | .raised e => .raised e

/-- Source: `validateString(name, options)`. -/
def validateString (H : Host) (name : JSValue) (options : StringValidatorOptions) :
    Outcome StringValidationResult :=
  if !STR.isString name then
    .returned { isValid := false,
                errorMessage :=
                  some (orDefault options.isStringError (lit "Name must be a string")) }
  else
    let invalidOptions := (ownKeys options).filter (fun key => !inValidOptions key)
    if invalidOptions.length > 0 then
      .raised (.error (invalidOptionsMessage invalidOptions))
    else
      let trimmedName := STR.trimString name
      let modifiedName :=
        replaceWhitespaceRuns (options.wordSeparator.getD (lit " ")) [] false trimmedName
      match resolvePattern options.regexPattern with
      | .raised e => .raised e
      | .returned updatedRegexPattern =>
        match patternCondition H updatedRegexPattern trimmedName with
        | .raised e => .raised e
        | .returned patternFails =>
          .returned
            (firstFailure (validationRules H options trimmedName patternFails) modifiedName)

/-- The options object `{}`. -/
def noOptions : StringValidatorOptions := {}

/-- A host for concrete evaluations: regular expressions are not interpreted (every test
answers `true`), lower-casing maps `A`-`Z` to `a`-`z`, and other numbers render as `?`. -/
def sampleHost : Host where
  regExpTest := fun _ _ => true
  toLowerCase := fun s => s.map (fun c => if 65 ≤ c ∧ c ≤ 90 then c + 32 else c)
  numberToString := fun _ => lit "?"


/-! ## The class `NUM` and `validateNumber` -/

/-- The function `Number.isInteger`. -/
def JSNumber.isInteger : JSNumber → Bool
  | .finite q => decide (q.den = 1)
  | _ => false

/-- The operator `a !== b` on numbers: `NaN` differs from every number, itself included. -/
def JSNumber.strictNe : JSNumber → JSNumber → Bool
  | .nan, _ => true
  | _, .nan => true
  | a, b => decide (a ≠ b)

namespace NUM

/-- Source: `typeof value === "number"`. -/
def isNumber : JSValue → Bool
  | .number _ => true
  | _ => false

/-- Source: `isNumberRequired(value, isRequired)`; `none` is `undefined` or `null`. -/
def isNumberRequired (value : Option JSNumber) (isRequired : Bool) : Bool :=
  if isRequired then value.isSome else true

/-- Source: `value >= minValue`. -/
def isMinValue (value minValue : JSNumber) : Bool := JSNumber.ge value minValue

/-- Source: `value <= maxValue`. -/
def isMaxValue (value maxValue : JSNumber) : Bool := JSNumber.le value maxValue

/-- Source: `isInteger ? Number.isInteger(value) : !Number.isInteger(value)`. -/
def isInteger (value : JSNumber) (isInteger : Bool) : Bool :=
  if isInteger then value.isInteger else !value.isInteger

/-- Source: `allowZero ? true : value !== 0`; an absent flag defaults to `true`. -/
def allowZero (value : JSNumber) (allowZero : Option Bool) : Bool :=
  if allowZero.getD true then true else JSNumber.strictNe value (.ofNat 0)

/-- Source: `allowNegative ? true : value >= 0`; an absent flag defaults to `true`. -/
def allowNegative (value : JSNumber) (allowNegative : Option Bool) : Bool :=
  if allowNegative.getD true then true else JSNumber.ge value (.ofNat 0)

/-- Source: `allowPositive ? true : value <= 0`; an absent flag defaults to `true`. -/
def allowPositive (value : JSNumber) (allowPositive : Option Bool) : Bool :=
  if allowPositive.getD true then true else JSNumber.le value (.ofNat 0)

end NUM

/-- The options object of `validateNumber`: the fourteen keys the function destructures
(`none` is an absent or `undefined` key) and the other own enumerable keys of the object, in
`Object.keys` order. -/
structure NumberValidatorOptions where
  isRequired : Option Bool := none
  maxValue : Option JSNumber := none
  minValue : Option JSNumber := none
  isInteger : Option Bool := none
  allowNegative : Option Bool := none
  allowPositive : Option Bool := none
  allowZero : Option Bool := none
  requiredError : Option JSString := none
  minValueError : Option JSString := none
  maxValueError : Option JSString := none
  negativeError : Option JSString := none
  positiveError : Option JSString := none
  integerError : Option JSString := none
  zeroError : Option JSString := none
  otherKeys : List JSString := []

/-- The keys of the object literal `validOptions` of `validateNumber`, in source order. -/
def numberValidOptionKeys : List JSString := [
  lit "isRequired",
  lit "minValue",
  lit "maxValue",
  lit "isInteger",
  lit "allowNegative",
  lit "allowPositive",
  lit "allowZero",
  lit "requiredError",
  lit "minValueError",
  lit "maxValueError",
  lit "negativeError",
  lit "positiveError",
  lit "integerError",
  lit "zeroError"]

/-- The destructured keys of `validateNumber`, in the order of `numberValidOptionKeys`, each
with whether the options object has it. -/
def numberOptionPresence (o : NumberValidatorOptions) : List (String × Bool) := [
  ("isRequired", o.isRequired.isSome),
  ("minValue", o.minValue.isSome),
  ("maxValue", o.maxValue.isSome),
  ("isInteger", o.isInteger.isSome),
  ("allowNegative", o.allowNegative.isSome),
  ("allowPositive", o.allowPositive.isSome),
  ("allowZero", o.allowZero.isSome),
  ("requiredError", o.requiredError.isSome),
  ("minValueError", o.minValueError.isSome),
  ("maxValueError", o.maxValueError.isSome),
  ("negativeError", o.negativeError.isSome),
  ("positiveError", o.positiveError.isSome),
  ("integerError", o.integerError.isSome),
  ("zeroError", o.zeroError.isSome)]

/-- The call `Object.keys(options)` in `validateNumber`. -/
def numberOwnKeys (o : NumberValidatorOptions) : List JSString :=
  ((numberOptionPresence o).filter (fun e => e.2)).map (fun e => lit e.1) ++ o.otherKeys

/-- The expression `key in validOptions` in `validateNumber`: an own key of `validOptions` or
an inherited one. -/
def inNumberValidOptions (key : JSString) : Bool :=
  numberValidOptionKeys.contains key || objectPrototypeKeys.contains key

/-- The message of the error `validateNumber` raises for unrecognized option keys. -/
def invalidNumberOptionsMessage (invalidOptions : List JSString) : JSString :=
  lit "Invalid option(s):\n- " ++ join (lit "\n- ") invalidOptions ++
    lit "\n\nAvailable options:\n- " ++ join (lit "\n- ") numberValidOptionKeys

/-- The record `validateNumber` returns; an absent property is `none`. -/
structure NumberValidationResult where
  isValid : Bool
  errorMessage : Option JSString := none
  returnedNumber : Option JSNumber := none
  deriving DecidableEq

/-- The array `validationRules` of `validateNumber`. -/
def numberValidationRules (o : NumberValidatorOptions) (value : JSNumber) : List Rule :=
  let allowNegative := o.allowNegative.getD true
  let allowPositive := o.allowPositive.getD true
  let allowZero := o.allowZero.getD true
  [ { condition :=
        match o.isRequired with
        | some isRequired => isRequired && !NUM.isNumberRequired (some value) isRequired
        | none => false,
      message := orDefault o.requiredError (lit "Number is required") },
    { condition :=
        match o.minValue with
        | some minValue => !NUM.isMinValue value minValue
        | none => false,
      message := orDefault o.minValueError
        (lit "Number should not be less than the minimum value") },
    { condition :=
        match o.maxValue with
        | some maxValue => !NUM.isMaxValue value maxValue
        | none => false,
      message := orDefault o.maxValueError (lit "Number should not exceed the maximum value") },
    { condition :=
        match o.isInteger with
        | some isInteger => isInteger && !NUM.isInteger value isInteger
        | none => false,
      message := orDefault o.integerError (lit "Number should be an integer") },
    { condition := !NUM.allowNegative value (some allowNegative),
      message := orDefault o.negativeError (lit "Negative numbers are not allowed") },
    { condition := !NUM.allowZero value (some allowZero),
      message := orDefault o.zeroError (lit "Zero is not allowed") },
    { condition := !NUM.allowPositive value (some allowPositive),
      message := orDefault o.positiveError (lit "Positive numbers are not allowed") } ]

/-- The loop over `validationRules` and the final `return` of `validateNumber`. -/
def firstNumberFailure (rules : List Rule) (value : JSNumber) : NumberValidationResult :=
  match rules.find? (fun rule => rule.condition) with
  | some rule => { isValid := false, errorMessage := some rule.message }
  | none => { isValid := true, returnedNumber := some value }

/-- Source: `validateNumber(value, options)`; the `match` is the test `NUM.isNumber(value)`. -/
def validateNumber (value : JSValue) (options : NumberValidatorOptions) :
    Outcome NumberValidationResult :=
  match value with
  | .number n =>
    let invalidOptions := (numberOwnKeys options).filter (fun key => !inNumberValidOptions key)
    if invalidOptions.length > 0 then
      .raised (.error (invalidNumberOptionsMessage invalidOptions))
    else
      .returned (firstNumberFailure (numberValidationRules options n) n)
  | _ =>
    .returned { isValid := false, errorMessage := some (lit "Value must be a number.") }

/-! ## Notions of the specification -/

/-- The string `s` has a maximal run of `n` consecutive copies of the unit `c`: the run is not
empty, the unit before it (if any) and the unit after it (if any) differ from `c`. -/
def IsMaximalRun (s : JSString) (c n : Nat) : Prop :=
  0 < n ∧ ∃ before after : JSString,
    s = before ++ List.replicate n c ++ after ∧
    before.getLast? ≠ some c ∧ after.head? ≠ some c

/-- The string contains a unit that is not whitespace. -/
def hasNonWhitespace (s : JSString) : Bool := s.any (fun c => !isWhitespace c)

/-- The maximal runs of non-whitespace units of a string, from left to right. -/
def nonWhitespaceRuns (s : JSString) : List JSString :=
  (s.splitOnP isWhitespace).filter (fun w => !w.isEmpty)

/-- The string without its leading and trailing whitespace and with every internal run of
whitespace replaced by a single space: its non-whitespace runs joined by single spaces. -/
def spaceNormalized (s : JSString) : JSString :=
  [32].intercalate (nonWhitespaceRuns s)

/-- The rules of the string pipeline, named as the specification names them. -/
inductive RuleName where
  | required
  | allowedCharacters
  | minimumLength
  | maximumLength
  | pattern
  | disallowedCharacters
  | customPredicate
  | blacklist
  | startsWith
  | endsWith
  | spacePolicy
  | minimumWords
  | maximumWords
  | repetition
  deriving DecidableEq, Repr

/-- The fixed order in which the specification lists the rules. -/
def ruleOrder : List RuleName :=
  [.required, .allowedCharacters, .minimumLength, .maximumLength, .pattern,
   .disallowedCharacters, .customPredicate, .blacklist, .startsWith, .endsWith, .spacePolicy,
   .minimumWords, .maximumWords, .repetition]

/-- The pattern option is resolvable: absent, a regular expression, the empty string, or the
name of an entry of the pattern table. -/
def Resolvable : Option RegexPattern → Bool
  | some (.name (c :: cs)) => (predefinedPatterns.lookup (c :: cs)).isSome
  | _ => true

/-- The regular expression a resolvable pattern option stands for, if any. -/
def resolvedRegExp : Option RegexPattern → Option JSRegExp
  | some (.regExp r) => some r
  | some (.name key) => predefinedPatterns.lookup key
  | none => none

/-- Whether the condition of a rule holds for the trimmed input `t`: the rule is configured
(its option is present and truthy) and its predicate fails. -/
def ruleHolds (H : Host) (o : StringValidatorOptions) (t : JSString) : RuleName → Bool
  | .required => o.isRequired.getD true && !STR.isStringRequired (some t) true
  | .allowedCharacters =>
    match o.allowedChars with
    | some chars => (STR.containsAllowedChar t chars).isNone
    | none => false
  | .minimumLength =>
    match o.minLength with
    | some n => n.truthy && !STR.isStringLengthAtLeast t n
    | none => false
  | .maximumLength =>
    match o.maxLength with
    | some n => n.truthy && !STR.isStringLengthAtMost t n
    | none => false
  | .pattern =>
    match resolvedRegExp o.regexPattern with
    | some r => !H.regExpTest r t
    | none => false
  | .disallowedCharacters =>
    match o.disallowedChars with
    | some chars => (STR.containsDisallowedChar t chars).isSome
    | none => false
  | .customPredicate =>
    match o.customValidationFn with
    | some f => !f t
    | none => false
  | .blacklist =>
    match o.blacklistWords with
    | some words => (STR.containsBlacklistedWord H t words).isSome
    | none => false
  | .startsWith =>
    match o.startsWithPattern with
    | some (c :: cs) => !startsWith t (c :: cs)
    | _ => false
  | .endsWith =>
    match o.endsWithPattern with
    | some (c :: cs) => !endsWith t (c :: cs)
    | _ => false
  | .spacePolicy => !STR.isSpacesAllowed t (o.allowSpaces.getD true)
  | .minimumWords =>
    match o.minWordsCount with
    | some n => n.truthy && !STR.isWordCountAboveThreshold t n
    | none => false
  | .maximumWords =>
    match o.maxWordsCount with
    | some n => n.truthy && !STR.isWordCountBelowThreshold t n
    | none => false
  | .repetition =>
    STR.hasExcessiveRepetitiveChars t (o.maxRepetitiveCharsLimit.getD .posInf)

/-- The message of a rule: the override of the caller when it is a non-empty string, else
the default text. -/
def ruleMessage (H : Host) (o : StringValidatorOptions) : RuleName → JSString
  | .required => orDefault o.isRequiredError (lit "Name is required")
  | .allowedCharacters =>
    orDefault o.allowedCharsError (lit "Name contains disallowed characters")
  | .minimumLength =>
    orDefault o.lengthError
      (lit "Name must be at least " ++ templateNumber H o.minLength ++ lit " characters long")
  | .maximumLength =>
    orDefault o.lengthError
      (lit "Name must be at most " ++ templateNumber H o.maxLength ++ lit " characters long")
  | .pattern => orDefault o.regexPatternError (lit "Invalid input pattern")
  | .disallowedCharacters =>
    orDefault o.disallowedCharsError (lit "Name contains disallowed characters")
  | .customPredicate => orDefault o.customError (lit "Custom validation failed")
  | .blacklist => orDefault o.blacklistWordsError (lit "Name contains blacklisted words")
  | .startsWith =>
    orDefault o.startsWithError (lit "Name must start with " ++ templateString o.startsWithPattern)
  | .endsWith =>
    orDefault o.endsWithError
      (lit "Name must end with \x27" ++ templateString o.endsWithPattern ++ lit "\x27")
  | .spacePolicy => orDefault o.allowedSpacesError (lit "Spaces are not allowed in the name")
  | .minimumWords =>
    orDefault o.minWordsError
      (lit "Name must contain at least " ++ templateNumber H o.minWordsCount ++ lit " words")
  | .maximumWords =>
    orDefault o.maxWordsError
      (lit "Name must contain at most " ++ templateNumber H o.maxLength ++ lit " words")
  | .repetition =>
    orDefault o.maxRepetitiveCharsError
      (lit "Name contains consecutive repetitive characters exceeding the limit of " ++
        numberToString H (o.maxRepetitiveCharsLimit.getD .posInf))

/-- The option that overrides the message of a rule. -/
def ruleOverride (o : StringValidatorOptions) : RuleName → Option JSString
  | .required => o.isRequiredError
  | .allowedCharacters => o.allowedCharsError
  | .minimumLength => o.lengthError
  | .maximumLength => o.lengthError
  | .pattern => o.regexPatternError
  | .disallowedCharacters => o.disallowedCharsError
  | .customPredicate => o.customError
  | .blacklist => o.blacklistWordsError
  | .startsWith => o.startsWithError
  | .endsWith => o.endsWithError
  | .spacePolicy => o.allowedSpacesError
  | .minimumWords => o.minWordsError
  | .maximumWords => o.maxWordsError
  | .repetition => o.maxRepetitiveCharsError

/-- The default text of a rule: the text the source falls back to, with the option values it
interpolates. -/
def ruleDefaultText (H : Host) (o : StringValidatorOptions) : RuleName → JSString
  | .required => lit "Name is required"
  | .allowedCharacters => lit "Name contains disallowed characters"
  | .minimumLength =>
    lit "Name must be at least " ++ templateNumber H o.minLength ++ lit " characters long"
  | .maximumLength =>
    lit "Name must be at most " ++ templateNumber H o.maxLength ++ lit " characters long"
  | .pattern => lit "Invalid input pattern"
  | .disallowedCharacters => lit "Name contains disallowed characters"
  | .customPredicate => lit "Custom validation failed"
  | .blacklist => lit "Name contains blacklisted words"
  | .startsWith => lit "Name must start with " ++ templateString o.startsWithPattern
  | .endsWith => lit "Name must end with \x27" ++ templateString o.endsWithPattern ++ lit "\x27"
  | .spacePolicy => lit "Spaces are not allowed in the name"
  | .minimumWords =>
    lit "Name must contain at least " ++ templateNumber H o.minWordsCount ++ lit " words"
  | .maximumWords =>
    lit "Name must contain at most " ++ templateNumber H o.maxLength ++ lit " words"
  | .repetition =>
    lit "Name contains consecutive repetitive characters exceeding the limit of " ++
      numberToString H (o.maxRepetitiveCharsLimit.getD .posInf)

/-- The reported message follows the override: it is the override when the caller supplied a
non-empty one, and the default text when the caller supplied none. -/
def FollowsOverride (override : Option JSString) (defaultText : JSString)
    (errorMessage : Option JSString) : Prop :=
  (∀ m, override = some m → m ≠ [] → errorMessage = some m) ∧
  (override = none → errorMessage = some defaultText)

/-- The unit is one of the decimal digits `0` to `9`. -/
def isDecimalDigit (c : Nat) : Bool := decide (48 ≤ c ∧ c ≤ 57)

/-- The regular expression `/^[0-9]+$/` of the pattern table. -/
def numbersOnlyRegExp : JSRegExp := ⟨"^[0-9]+$", "", 0⟩

/-- The host tests `/^[0-9]+$/` as the language defines it: without the `m` flag the anchors
are the two ends of the input, so the test holds exactly for a non-empty input made of the
units `0` to `9`. -/
def Host.TestsNumbersOnly (H : Host) : Prop :=
  ∀ t : JSString, H.regExpTest numbersOnlyRegExp t = (!t.isEmpty && t.all isDecimalDigit)

/-- A host for concrete evaluations that tests `/^[0-9]+$/` as the language defines it and is
`sampleHost` otherwise. -/
def digitHost : Host where
  regExpTest := fun r t =>
    if r = numbersOnlyRegExp then !t.isEmpty && t.all isDecimalDigit
    else sampleHost.regExpTest r t
  toLowerCase := sampleHost.toLowerCase
  numberToString := sampleHost.numberToString

/-- The entry `a` is the first entry of the array `A`, in array order, that satisfies `P`. -/
def IsFirstEntry (P : JSString → Prop) (A : List JSString) (a : JSString) : Prop :=
  ∃ before after, A = before ++ a :: after ∧ P a ∧ ∀ b ∈ before, ¬ P b

/-- The rules of the number pipeline that the specification orders after the type check and the
required rule. -/
inductive NumberRuleName where
  | minimumValue
  | maximumValue
  | integerPolicy
  | negativePolicy
  | zeroPolicy
  | positivePolicy
  deriving DecidableEq, Repr

/-- The order in which the specification lists the rules of the number pipeline. -/
def numberRuleOrder : List NumberRuleName :=
  [.minimumValue, .maximumValue, .integerPolicy, .negativePolicy, .zeroPolicy, .positivePolicy]

/-- Whether the condition of a rule of the number pipeline holds for the value `v`. -/
def numberRuleHolds (o : NumberValidatorOptions) (v : JSNumber) : NumberRuleName → Bool
  | .minimumValue =>
    match o.minValue with
    | some a => !JSNumber.ge v a
    | none => false
  | .maximumValue =>
    match o.maxValue with
    | some b => !JSNumber.le v b
    | none => false
  | .integerPolicy => o.isInteger = some true && !v.isInteger
  | .negativePolicy => o.allowNegative = some false && !JSNumber.ge v (.ofNat 0)
  | .zeroPolicy => o.allowZero = some false && !JSNumber.strictNe v (.ofNat 0)
  | .positivePolicy => o.allowPositive = some false && !JSNumber.le v (.ofNat 0)

/-- The message of a rule of the number pipeline: the override of the caller when it is a
non-empty string, else the default text. -/
def numberRuleMessage (o : NumberValidatorOptions) : NumberRuleName → JSString
  | .minimumValue =>
    orDefault o.minValueError (lit "Number should not be less than the minimum value")
  | .maximumValue =>
    orDefault o.maxValueError (lit "Number should not exceed the maximum value")
  | .integerPolicy => orDefault o.integerError (lit "Number should be an integer")
  | .negativePolicy => orDefault o.negativeError (lit "Negative numbers are not allowed")
  | .zeroPolicy => orDefault o.zeroError (lit "Zero is not allowed")
  | .positivePolicy => orDefault o.positiveError (lit "Positive numbers are not allowed")

/-- The number `-2.5`. -/
def minusTwoAndAHalf : JSNumber := .finite (Rat.mk' (-5) 2 (by decide) (by decide))

/-- The option keys that the published type `NumberValidatorOptions` declares and
`validateNumber` does not destructure. -/
def declaredOnlyNumberKeys : List JSString :=
  [lit "onlyDecimal", lit "maxDecimalPlaces", lit "minDecimalPlaces", lit "onlyBinary",
   lit "decimalError", lit "maxDecimalError", lit "minDecimalError", lit "binaryError"]

/-- The regular expression `/\t/`. -/
def tabRegExp : JSRegExp := ⟨"\\t", "", 0⟩

/-- A host for concrete evaluations that tests `/\t/` as the language defines it (the test holds
exactly for an input with a tab) and is `sampleHost` otherwise. -/
def tabHost : Host where
  regExpTest := fun r t =>
    if r = tabRegExp then decide (9 ∈ t)
    else sampleHost.regExpTest r t
  toLowerCase := sampleHost.toLowerCase
  numberToString := sampleHost.numberToString

/-- The options configure none of the rules whose outcome the whitespace replacement can change:
they set none of `minLength`, `allowedChars`, `disallowedChars`, `blacklistWords`,
`startsWithPattern`, `endsWithPattern`, `regexPattern`, `customValidationFn` and
`wordSeparator`, and they do not set `allowSpaces` to `false`. -/
def setsOnlyPreservedRules (o : StringValidatorOptions) : Bool :=
  o.minLength.isNone && o.allowedChars.isNone && o.disallowedChars.isNone &&
    o.blacklistWords.isNone && o.startsWithPattern.isNone && o.endsWithPattern.isNone &&
    o.regexPattern.isNone && o.customValidationFn.isNone && o.wordSeparator.isNone &&
    (o.allowSpaces.getD true)

/-! ## Auxiliary definitions for the proofs -/

/-- The state of a left-to-right scan that joins words by single spaces: before the first
word, inside a word, or after whitespace that follows a word. -/
inductive ScanState where
  | skip
  | word
  | pending
  deriving DecidableEq

/-- The state after a whitespace unit. -/
def ScanState.afterWhitespace : ScanState → ScanState
  | .word => .pending
  | other => other

/-- The output for a non-whitespace unit: a word that starts after whitespace following an
earlier word is preceded by a space. -/
def ScanState.emit : ScanState → Nat → JSString
  | .pending, c => [32, c]
  | _, c => [c]

/-- A one-pass description of `spaceNormalized`. -/
def normalizeFrom : ScanState → JSString → JSString
  | _, [] => []
  | st, c :: cs =>
    if isWhitespace c then normalizeFrom st.afterWhitespace cs
    else st.emit c ++ normalizeFrom .word cs

/-! # Theorems -/

/-! ## Runs of identical units -/

theorem countRun_eq (c : Nat) (cs : JSString) (k : Nat) :
    STR.countRun c cs k =
      (k + (cs.takeWhile (fun x => decide (x = c))).length,
        cs.dropWhile (fun x => decide (x = c))) := by
  induction cs generalizing k with
  | nil => simp [STR.countRun]
  | cons x xs ih =>
    by_cases h : x = c
    · simp [STR.countRun, h, ih, List.takeWhile_cons, List.dropWhile_cons]; omega
    · simp [STR.countRun, h, List.takeWhile_cons, List.dropWhile_cons]

theorem takeWhile_eq_replicate (c : Nat) (cs : JSString) :
    cs.takeWhile (fun x => decide (x = c)) =
      List.replicate (cs.takeWhile (fun x => decide (x = c))).length c := by
  rw [List.eq_replicate_iff]
  refine ⟨rfl, ?_⟩
  intro b hb
  simpa using List.mem_takeWhile_imp hb

theorem head?_dropWhile_ne (c : Nat) (cs : JSString) :
    (cs.dropWhile (fun x => decide (x = c))).head? ≠ some c := by
  have h := List.head?_dropWhile_not (fun x => decide (x = c)) cs
  intro hc
  rw [hc] at h
  simp at h

/-- The first run of a non-empty string and what follows it. -/
theorem cons_eq_run_append (c : Nat) (cs : JSString) :
    c :: cs = List.replicate ((STR.countRun c cs 1).1) c ++ (STR.countRun c cs 1).2 ∧
      0 < (STR.countRun c cs 1).1 ∧ (STR.countRun c cs 1).2.head? ≠ some c ∧
      (STR.countRun c cs 1).2.length ≤ cs.length := by
  rw [countRun_eq]
  refine ⟨?_, by simp, head?_dropWhile_ne c cs, ?_⟩
  · simp only [Nat.add_comm 1, List.replicate_succ, List.cons_append]
    congr 1
    rw [← takeWhile_eq_replicate, List.takeWhile_append_dropWhile]
  · simpa using (List.dropWhile_sublist _).length_le

theorem replicate_append_inj (x : Nat) :
    ∀ (k n : Nat) (a b : JSString), List.replicate k x ++ a = List.replicate n x ++ b →
      a.head? ≠ some x → b.head? ≠ some x → k = n ∧ a = b := by
  intro k
  induction k with
  | zero =>
    intro n a b h ha hb
    cases n with
    | zero => simpa using h
    | succ n => simp at h; subst h; simp [List.replicate_succ] at ha
  | succ k ih =>
    intro n a b h ha hb
    cases n with
    | zero => simp [List.replicate_succ] at h; subst h; simp at hb
    | succ n =>
      simp only [List.replicate_succ, List.cons_append, List.cons.injEq, true_and] at h
      obtain ⟨h1, h2⟩ := ih n a b h ha hb
      exact ⟨by omega, h2⟩

theorem run_after_first (x c : Nat) (n : Nat) (hn : 0 < n) (rest after : JSString) :
    ∀ (k : Nat) (before : JSString), (before ≠ [] ∨ k = 0) →
      List.replicate k x ++ rest = before ++ List.replicate n c ++ after →
      before.getLast? ≠ some c →
      ∃ before2, before = List.replicate k x ++ before2 ∧
        rest = before2 ++ List.replicate n c ++ after ∧ before2.getLast? ≠ some c := by
  intro k
  induction k with
  | zero =>
    intro before _ h hb
    exact ⟨before, by simp, by simpa using h, hb⟩
  | succ k ih =>
    intro before hne h hb
    cases before with
    | nil => simp at hne
    | cons p ps =>
      simp only [List.replicate_succ, List.cons_append, List.cons.injEq] at h
      obtain ⟨hp, h⟩ := h
      subst hp
      by_cases hps : ps = []
      · subst hps
        have hxc : x ≠ c := by
          intro e; apply hb; simp [e]
        cases k with
        | zero => exact ⟨[], by simp, by simpa using h, by simp⟩
        | succ k =>
          exfalso
          obtain ⟨m, rfl⟩ : ∃ m, n = m + 1 := ⟨n - 1, by omega⟩
          simp [List.replicate_succ] at h
          exact hxc h.1
      · have hb2 : ps.getLast? ≠ some c := by
          obtain ⟨q, qs, rfl⟩ := List.exists_cons_of_ne_nil hps
          simpa using hb
        obtain ⟨b2, e1, e2, e3⟩ := ih ps (Or.inl hps) h hb2
        exact ⟨b2, by simp [List.replicate_succ, e1], e2, e3⟩

theorem not_isMaximalRun_nil (c n : Nat) : ¬ IsMaximalRun [] c n := by
  rintro ⟨hn, before, after, h, -, -⟩
  obtain ⟨m, rfl⟩ : ∃ m, n = m + 1 := ⟨n - 1, by omega⟩
  have := congrArg List.length h
  simp at this
  omega

theorem scanRuns_iff (L : JSNumber) :
    ∀ (fuel : Nat) (t : JSString), t.length ≤ fuel →
      (STR.scanRuns L fuel t = true ↔
        ∃ c n, IsMaximalRun t c n ∧ JSNumber.gt (JSNumber.ofNat n) L = true) := by
  intro fuel
  induction fuel with
  | zero =>
    intro t ht
    have : t = [] := List.length_eq_zero.mp (by omega)
    subst this
    simp [STR.scanRuns, not_isMaximalRun_nil]
  | succ fuel ih =>
    intro t ht
    cases t with
    | nil => simp [STR.scanRuns, not_isMaximalRun_nil]
    | cons x rest =>
      obtain ⟨hsplit, hpos, hhead, hlen⟩ := cons_eq_run_append x rest
      simp only [STR.scanRuns]
      by_cases hgt : JSNumber.gt (JSNumber.ofNat (STR.countRun x rest 1).1) L = true
      · simp only [hgt, if_true, true_iff]
        exact ⟨x, _, ⟨hpos, [], _, by simpa using hsplit, by simp, hhead⟩, hgt⟩
      · simp only [hgt, Bool.false_eq_true, if_false]
        have hlen2 : (STR.countRun x rest 1).2.length ≤ fuel := by
          simp at ht; omega
        rw [ih _ hlen2]
        constructor
        · rintro ⟨c, n, ⟨hn, before, after, h, hb, ha⟩, hL⟩
          refine ⟨c, n, ⟨hn, List.replicate (STR.countRun x rest 1).1 x ++ before, after, ?_, ?_, ha⟩,
            hL⟩
          · rw [hsplit, h]; simp
          · by_cases hbn : before = []
            · subst hbn
              obtain ⟨m, hm⟩ : ∃ m, n = m + 1 := ⟨n - 1, by omega⟩
              obtain ⟨j, hj⟩ : ∃ j, (STR.countRun x rest 1).1 = j + 1 :=
                ⟨(STR.countRun x rest 1).1 - 1, by omega⟩
              have hcx : c ≠ x := by
                intro e
                apply hhead
                rw [h, hm, e]
                simp [List.replicate_succ]
              rw [hj]
              simp only [List.append_nil]
              rw [List.getLast?_replicate]
              simp
              exact fun e => hcx e.symm
            · rw [List.getLast?_append_of_ne_nil _ hbn]
              exact hb
        · rintro ⟨c, n, ⟨hn, before, after, h, hb, ha⟩, hL⟩
          rw [hsplit] at h
          by_cases hbn : before = []
          · exfalso
            subst hbn
            obtain ⟨m, hm⟩ : ∃ m, n = m + 1 := ⟨n - 1, by omega⟩
            obtain ⟨j, hj⟩ : ∃ j, (STR.countRun x rest 1).1 = j + 1 :=
              ⟨(STR.countRun x rest 1).1 - 1, by omega⟩
            have hxc : x = c := by
              have h2 := h
              rw [hm, hj] at h2
              simp only [List.replicate_succ, List.nil_append, List.cons_append,
                List.cons.injEq] at h2
              exact h2.1
            subst hxc
            simp only [List.nil_append] at h
            obtain ⟨e, -⟩ := replicate_append_inj x _ _ _ _ h hhead ha
            rw [e] at hgt
            exact hgt hL
          · obtain ⟨b2, -, e2, e3⟩ :=
              run_after_first x c n hn _ after _ before (Or.inl hbn) h hb
            exact ⟨c, n, ⟨hn, b2, after, e2, e3, ha⟩, hL⟩

/-- C1. `STR.hasExcessiveRepetitiveChars(s, L)` returns true exactly when `s` has a maximal run
of identical consecutive units whose length is greater than `L`. -/
theorem hasExcessiveRepetitiveChars_iff_maximalRun (s : JSString) (L : JSNumber) :
    STR.hasExcessiveRepetitiveChars s L = true ↔
      ∃ c n, IsMaximalRun s c n ∧ JSNumber.gt (JSNumber.ofNat n) L = true :=
  scanRuns_iff L s.length s (Nat.le_refl _)

/-! ## Trimming and space normalization -/

theorem trim_eq (s : JSString) :
    trim s = (s.dropWhile isWhitespace).rdropWhile isWhitespace := rfl

theorem rdropWhile_cons (p : Nat → Bool) (c : Nat) (cs : JSString) :
    (c :: cs).rdropWhile p =
      if (∀ x ∈ cs, p x = true) ∧ p c = true then [] else c :: cs.rdropWhile p := by
  by_cases hall : ∀ x ∈ cs, p x = true
  · have h1 : cs.rdropWhile p = [] := List.rdropWhile_eq_nil_iff.mpr hall
    by_cases hc : p c = true
    · have : (c :: cs).rdropWhile p = [] := by
        apply List.rdropWhile_eq_nil_iff.mpr
        intro x hx
        rcases List.mem_cons.mp hx with rfl | hx
        · exact hc
        · exact hall x hx
      rw [this, if_pos ⟨hall, hc⟩]
    · have h2 : ∀ x ∈ cs.reverse, p x = true := fun x hx => hall x (List.mem_reverse.mp hx)
      have h3 : cs.reverse.dropWhile p = [] := List.dropWhile_eq_nil_iff.mpr h2
      simp only [List.rdropWhile, List.reverse_cons, List.dropWhile_append, h3,
        List.isEmpty_nil, if_true] at h1 ⊢
      simp [List.dropWhile_cons, hc]
  · have h2 : cs.reverse.dropWhile p ≠ [] := by
      intro h
      apply hall
      intro x hx
      exact List.dropWhile_eq_nil_iff.mp h x (List.mem_reverse.mpr hx)
    have h3 : (cs.reverse.dropWhile p).isEmpty = false := by
      cases h : cs.reverse.dropWhile p with
      | nil => exact absurd h h2
      | cons a l => rfl
    simp [List.rdropWhile, List.dropWhile_append, h3, hall]

theorem normalizeFrom_of_all_whitespace (d : JSString) (hall : ∀ x ∈ d, isWhitespace x = true) :
    ∀ st, normalizeFrom st d = [] := by
  induction d with
  | nil => intro st; rfl
  | cons c cs ih =>
    intro st
    have hc : isWhitespace c = true := hall c (List.mem_cons_self _ _)
    simp only [normalizeFrom, ScanState.afterWhitespace, ScanState.emit, hc, if_true]
    exact ih (fun x hx => hall x (List.mem_cons_of_mem _ hx)) _

theorem getSubstitution_space (m b a : JSString) : getSubstitution m b a [32] = [32] := by
  rfl

theorem replace_rdropWhile (d : JSString) :
    (∀ b, replaceWhitespaceRuns [32] b false (d.rdropWhile isWhitespace) =
        normalizeFrom .word d) ∧
    (∀ b, ¬ (∀ x ∈ d, isWhitespace x = true) →
        32 :: replaceWhitespaceRuns [32] b true (d.rdropWhile isWhitespace) =
          normalizeFrom .pending d) := by
  induction d with
  | nil => exact ⟨fun b => by simp [replaceWhitespaceRuns, normalizeFrom, ScanState.afterWhitespace, ScanState.emit], fun b h => by simp at h⟩
  | cons c cs ih =>
    obtain ⟨ih1, ih2⟩ := ih
    by_cases hc : isWhitespace c = true
    · by_cases hall : ∀ x ∈ cs, isWhitespace x = true
      · refine ⟨fun b => ?_, fun b h => ?_⟩
        · rw [rdropWhile_cons, if_pos ⟨hall, hc⟩, normalizeFrom_of_all_whitespace]
          · rfl
          · intro x hx
            rcases List.mem_cons.mp hx with rfl | hx
            · exact hc
            · exact hall x hx
        · exfalso
          apply h
          intro x hx
          rcases List.mem_cons.mp hx with rfl | hx
          · exact hc
          · exact hall x hx
      · have hr : (c :: cs).rdropWhile isWhitespace = c :: cs.rdropWhile isWhitespace := by
          rw [rdropWhile_cons]; simp [hall]
        refine ⟨fun b => ?_, fun b _ => ?_⟩
        · rw [hr]
          simp only [replaceWhitespaceRuns, hc, if_true, getSubstitution_space, normalizeFrom, ScanState.afterWhitespace, ScanState.emit]
          simpa using ih2 (b ++ [c]) hall
        · rw [hr]
          simp only [replaceWhitespaceRuns, hc, if_true, normalizeFrom, ScanState.afterWhitespace, ScanState.emit]
          exact ih2 (b ++ [c]) hall
    · have hr : (c :: cs).rdropWhile isWhitespace = c :: cs.rdropWhile isWhitespace := by
        rw [rdropWhile_cons]; simp [hc]
      refine ⟨fun b => ?_, fun b _ => ?_⟩
      · rw [hr]
        simp only [replaceWhitespaceRuns, hc, normalizeFrom, ScanState.afterWhitespace, ScanState.emit]
        simpa using ih1 (b ++ [c])
      · rw [hr]
        simp only [replaceWhitespaceRuns, hc, normalizeFrom, ScanState.afterWhitespace, ScanState.emit]
        simpa using ih1 (b ++ [c])

theorem normalizeFrom_skip (s : JSString) :
    normalizeFrom .skip s = normalizeFrom .word (s.dropWhile isWhitespace) := by
  induction s with
  | nil => rfl
  | cons c cs ih =>
    by_cases hc : isWhitespace c = true
    · simp only [normalizeFrom, ScanState.afterWhitespace, ScanState.emit, hc, if_true, List.dropWhile_cons]
      exact ih
    · simp [normalizeFrom, ScanState.afterWhitespace, ScanState.emit, hc, List.dropWhile_cons]

/-- The words of a list of words, each preceded by a space. -/
theorem intercalate_cons (w : JSString) (l : List JSString) :
    [32].intercalate (w :: l) = w ++ (l.map (fun v => 32 :: v)).flatten := by
  induction l generalizing w with
  | nil => simp [List.intercalate]
  | cons v l ih =>
    have := ih v
    simp only [List.intercalate, List.intersperse_cons_cons, List.flatten_cons, List.map_cons] at this ⊢
    rw [this]
    simp

theorem normalizeFrom_splitOnP (s : JSString) :
    ∀ p0 ps, s.splitOnP isWhitespace = p0 :: ps →
      normalizeFrom .pending s =
          (((p0 :: ps).filter (fun w => !w.isEmpty)).map (fun v => 32 :: v)).flatten ∧
      normalizeFrom .skip s = [32].intercalate ((p0 :: ps).filter (fun w => !w.isEmpty)) ∧
      normalizeFrom .word s =
          p0 ++ ((ps.filter (fun w => !w.isEmpty)).map (fun v => 32 :: v)).flatten := by
  induction s with
  | nil =>
    intro p0 ps h
    simp only [List.splitOnP_nil, List.cons.injEq] at h
    obtain ⟨rfl, rfl⟩ := h
    simp [normalizeFrom, ScanState.afterWhitespace, ScanState.emit, List.intercalate]
  | cons c cs ih =>
    intro p0 ps h
    obtain ⟨q0, qs, hq⟩ : ∃ q0 qs, cs.splitOnP isWhitespace = q0 :: qs := by
      cases hsp : cs.splitOnP isWhitespace with
      | nil => exact absurd hsp (List.splitOnP_ne_nil _ _)
      | cons a l => exact ⟨a, l, rfl⟩
    obtain ⟨i1, i2, i3⟩ := ih q0 qs hq
    rw [List.splitOnP_cons, hq] at h
    by_cases hc : isWhitespace c = true
    · simp only [hc, if_true, List.cons.injEq] at h
      obtain ⟨rfl, rfl⟩ := h
      simp only [normalizeFrom, ScanState.afterWhitespace, ScanState.emit, hc, if_true]
      refine ⟨?_, ?_, ?_⟩
      · rw [i1]; simp
      · rw [i2]; simp
      · rw [i1]; simp
    · simp only [hc, List.modifyHead_cons, List.cons.injEq] at h
      obtain ⟨rfl, rfl⟩ := h
      simp only [normalizeFrom, ScanState.afterWhitespace, ScanState.emit, hc]
      refine ⟨?_, ?_, ?_⟩
      · rw [i3]; simp
      · rw [i3, List.filter_cons]; simp [intercalate_cons]
      · rw [i3]; simp

/-- The value `validateString` computes as `modifiedName` under the default separator is the
space-normalized input. -/
theorem replace_trim_eq_spaceNormalized (s : JSString) :
    replaceWhitespaceRuns [32] [] false (trim s) = spaceNormalized s := by
  rw [trim_eq, (replace_rdropWhile _).1, ← normalizeFrom_skip]
  obtain ⟨q0, qs, hq⟩ : ∃ q0 qs, s.splitOnP isWhitespace = q0 :: qs := by
    cases hsp : s.splitOnP isWhitespace with
    | nil => exact absurd hsp (List.splitOnP_ne_nil _ _)
    | cons a l => exact ⟨a, l, rfl⟩
  rw [(normalizeFrom_splitOnP s q0 qs hq).2.1, spaceNormalized, nonWhitespaceRuns, hq]

theorem trim_eq_nil_iff (s : JSString) : trim s = [] ↔ hasNonWhitespace s = false := by
  rw [trim_eq, List.rdropWhile_eq_nil_iff]
  constructor
  · intro h
    have h2 : s.dropWhile isWhitespace = [] := by
      cases hd : s.dropWhile isWhitespace with
      | nil => rfl
      | cons a l =>
        have h3 := List.head?_dropWhile_not isWhitespace s
        rw [hd] at h3 h
        simp only [List.head?_cons] at h3
        have := h a (List.mem_cons_self _ _)
        simp [h3] at this
    rw [List.dropWhile_eq_nil_iff] at h2
    simp only [hasNonWhitespace, List.any_eq_false, Bool.not_eq_true', Bool.not_eq_false]
    simpa using h2
  · intro h
    simp only [hasNonWhitespace, List.any_eq_false] at h
    have h2 : s.dropWhile isWhitespace = [] := by
      rw [List.dropWhile_eq_nil_iff]
      intro x hx
      simpa using h x hx
    rw [h2]
    simp

theorem trim_trim (s : JSString) : trim (trim s) = trim s := by
  have h1 : ∀ d : JSString, d.head?.all (fun c => !isWhitespace c) = true →
      (d.rdropWhile isWhitespace).head?.all (fun c => !isWhitespace c) = true := by
    intro d hd
    cases d with
    | nil => simp
    | cons a l =>
      simp only [List.head?_cons, Option.all_some, Bool.not_eq_true'] at hd
      rw [rdropWhile_cons]
      simp [hd]
  have h2 : (s.dropWhile isWhitespace).head?.all (fun c => !isWhitespace c) = true := by
    have h3 := List.head?_dropWhile_not isWhitespace s
    cases hd : (s.dropWhile isWhitespace).head? with
    | none => rfl
    | some a => rw [hd] at h3; simpa using h3
  have h4 := h1 _ h2
  rw [← trim_eq] at h4
  have h5 : (trim s).dropWhile isWhitespace = trim s := by
    cases ht : trim s with
    | nil => rfl
    | cons a l =>
      rw [ht] at h4
      simp only [List.head?_cons, Option.all_some, Bool.not_eq_true'] at h4
      simp [List.dropWhile_cons, h4]
  rw [trim_eq (trim s), h5, trim_eq s]
  exact List.rdropWhile_idempotent _ _

/-! ## Evaluating `validateString` -/

theorem scanRuns_posInf (fuel : Nat) : ∀ t : JSString, STR.scanRuns .posInf fuel t = false := by
  induction fuel with
  | zero => intro t; simp [STR.scanRuns]
  | succ fuel ih =>
    intro t
    cases t with
    | nil => simp [STR.scanRuns]
    | cons x rest => simp [STR.scanRuns, JSNumber.gt, JSNumber.lt, JSNumber.ofNat, ih]

theorem hasExcessiveRepetitiveChars_posInf (t : JSString) :
    STR.hasExcessiveRepetitiveChars t .posInf = false :=
  scanRuns_posInf _ _

/-- A string input whose options pass the key check and carry no pattern goes through the
rule pipeline. -/
theorem validateString_of_no_pattern (H : Host) (s : JSString) (o : StringValidatorOptions)
    (hk : (ownKeys o).filter (fun key => !inValidOptions key) = [])
    (hp : o.regexPattern = none) :
    validateString H (.string s) o =
      .returned (firstFailure (validationRules H o (trim s) false)
        (replaceWhitespaceRuns (o.wordSeparator.getD (lit " ")) [] false (trim s))) := by
  simp only [validateString, STR.isString, Bool.not_true, Bool.false_eq_true, if_false, hk,
    List.length_nil, Nat.lt_irrefl, STR.trimString, hp, resolvePattern, patternCondition]

theorem isStringRequired_trim (s : JSString) :
    STR.isStringRequired (some (trim s)) true = hasNonWhitespace s := by
  have ht := trim_eq_nil_iff s
  simp only [STR.isStringRequired, if_true, trim_trim]
  cases h : hasNonWhitespace s with
  | true =>
    have h2 : trim s ≠ [] := by
      intro e; rw [ht.mp e] at h; exact absurd h (by simp)
    simp [h2]
  | false => simp [ht.mpr h]

/-- C2. With no options, `validateString(s)` succeeds exactly when `s` has a non-whitespace
unit; on success `validatedInput` is `s` without leading and trailing whitespace and with each
internal whitespace run replaced by one space, and otherwise the result is the failure
`Name is required`. -/
theorem validateString_noOptions (H : Host) (s : JSString) :
    validateString H (.string s) noOptions =
      if hasNonWhitespace s = true then
        .returned { isValid := true, validatedInput := some (spaceNormalized s) }
      else
        .returned { isValid := false, errorMessage := some (lit "Name is required") } := by
  rw [validateString_of_no_pattern H s noOptions (by decide) rfl]
  simp only [validationRules, firstFailure, noOptions, Option.getD_none, isStringRequired_trim,
    STR.isSpacesAllowed, hasExcessiveRepetitiveChars_posInf, orDefault, Bool.true_and,
    List.find?, if_true, Bool.not_true]
  have hl : lit " " = [32] := by decide
  cases h : hasNonWhitespace s with
  | true => simp [hl, replace_trim_eq_spaceNormalized]
  | false => simp

/-! ## The order of the rules -/

theorem map_optionPresence (o : StringValidatorOptions) :
    (optionPresence o).map (fun e => lit e.1) = validOptionKeys := rfl

theorem mem_validOptionKeys_of_presence (o : StringValidatorOptions) :
    ∀ e ∈ optionPresence o, lit e.1 ∈ validOptionKeys := by
  intro e he
  rw [← map_optionPresence o]
  exact List.mem_map_of_mem (fun e => lit e.1) he

/-- The keys the key check rejects are among the keys that are not destructured. -/
theorem invalidOptions_eq (o : StringValidatorOptions) :
    (ownKeys o).filter (fun key => !inValidOptions key) =
      o.otherKeys.filter (fun key => !inValidOptions key) := by
  have h : (((optionPresence o).filter (fun e => e.2)).map (fun e => lit e.1)).filter
      (fun key => !inValidOptions key) = [] := by
    rw [List.filter_eq_nil_iff]
    intro k hk
    obtain ⟨e, he, rfl⟩ := List.mem_map.mp hk
    have hm := mem_validOptionKeys_of_presence o e (List.mem_of_mem_filter he)
    simp [inValidOptions, hm]
  rw [ownKeys, List.filter_append, h, List.nil_append]

/-- A string input whose options pass the key check and carry a resolvable pattern goes
through the rule pipeline. -/
theorem validateString_of_resolvable (H : Host) (s : JSString) (o : StringValidatorOptions)
    (hk : (ownKeys o).filter (fun key => !inValidOptions key) = [])
    (hres : Resolvable o.regexPattern = true) :
    validateString H (.string s) o =
      .returned (firstFailure
        (validationRules H o (trim s) (ruleHolds H o (trim s) .pattern))
        (replaceWhitespaceRuns (o.wordSeparator.getD (lit " ")) [] false (trim s))) := by
  simp only [validateString, STR.isString, Bool.not_true, Bool.false_eq_true, if_false, hk,
    List.length_nil, Nat.lt_irrefl, STR.trimString, ruleHolds, resolvedRegExp]
  cases hp : o.regexPattern with
  | none => simp [resolvePattern, patternCondition]
  | some p =>
    cases p with
    | regExp r => simp [resolvePattern, handlePredefinedPattern, patternCondition]
    | name key =>
      cases key with
      | nil =>
        have : predefinedPatterns.lookup [] = none := by decide
        simp [resolvePattern, patternCondition, this]
      | cons c cs =>
        rw [hp] at hres
        simp only [Resolvable, Option.isSome_iff_exists] at hres
        obtain ⟨r, hr⟩ := hres
        simp [resolvePattern, handlePredefinedPattern, getProperty, hr, patternCondition]

/-- The array `validationRules` lists the rules in the order of the specification. -/
theorem validationRules_eq_map (H : Host) (o : StringValidatorOptions) (t : JSString) :
    validationRules H o t (ruleHolds H o t .pattern) =
      ruleOrder.map (fun rule => ⟨ruleHolds H o t rule, ruleMessage H o rule⟩) := by
  have h1 : (o.isRequired.getD true &&
      !STR.isStringRequired (some t) (o.isRequired.getD true)) =
      (o.isRequired.getD true && !STR.isStringRequired (some t) true) := by
    cases o.isRequired.getD true <;> rfl
  simp only [validationRules, ruleOrder, List.map_cons, List.map_nil, ruleHolds, ruleMessage, h1]
  rfl

theorem firstFailure_map (H : Host) (o : StringValidatorOptions) (t m : JSString) :
    firstFailure (ruleOrder.map (fun rule => ⟨ruleHolds H o t rule, ruleMessage H o rule⟩)) m =
      match ruleOrder.find? (ruleHolds H o t) with
      | some rule => { isValid := false, errorMessage := some (ruleMessage H o rule) }
      | none => { isValid := true, validatedInput := some m } := by
  simp only [firstFailure, List.find?_map]
  cases h : List.find? ((fun rule : Rule => rule.condition) ∘
      fun rule => ⟨ruleHolds H o t rule, ruleMessage H o rule⟩) ruleOrder with
  | none =>
    have : List.find? (ruleHolds H o t) ruleOrder = none := h
    simp [this]
  | some rule =>
    have : List.find? (ruleHolds H o t) ruleOrder = some rule := h
    simp [this]

/-- The result of the pipeline: the failure of the first rule, in the order of the
specification, whose condition holds, and success when there is none. -/
theorem validateString_eq_first_rule (H : Host) (s : JSString) (o : StringValidatorOptions)
    (hkeys : o.otherKeys = []) (hres : Resolvable o.regexPattern = true) :
    validateString H (.string s) o =
      .returned
        (match ruleOrder.find? (ruleHolds H o (trim s)) with
        | some rule => { isValid := false, errorMessage := some (ruleMessage H o rule) }
        | none =>
          { isValid := true,
            validatedInput := some
              (replaceWhitespaceRuns (o.wordSeparator.getD (lit " ")) [] false (trim s)) }) := by
  have hk : (ownKeys o).filter (fun key => !inValidOptions key) = [] := by
    rw [invalidOptions_eq, hkeys]; rfl
  rw [validateString_of_resolvable H s o hk hres, validationRules_eq_map, firstFailure_map]

/-- C3. For a string input and options with only recognized keys and a resolvable pattern,
`validateString` returns a record, and when that record is a failure its message is the message
of the earliest rule, in the fixed order of the specification, whose condition holds: every
rule before the reported one does not hold. -/
theorem validateString_reports_earliest_rule (H : Host) (s : JSString)
    (o : StringValidatorOptions)
    (hkeys : o.otherKeys = []) (hres : Resolvable o.regexPattern = true) :
    ∃ r, validateString H (.string s) o = .returned r ∧
      (r.isValid = false →
        ∃ earlier rule later, ruleOrder = earlier ++ rule :: later ∧
          ruleHolds H o (trim s) rule = true ∧
          (∀ e ∈ earlier, ruleHolds H o (trim s) e = false) ∧
          r.errorMessage = some (ruleMessage H o rule)) := by
  rw [validateString_eq_first_rule H s o hkeys hres]
  refine ⟨_, rfl, ?_⟩
  cases hf : ruleOrder.find? (ruleHolds H o (trim s)) with
  | none => simp
  | some rule =>
    intro _
    obtain ⟨hrule, earlier, later, hsplit, hearlier⟩ := List.find?_eq_some.mp hf
    refine ⟨earlier, rule, later, hsplit, hrule, ?_, rfl⟩
    intro e he
    simpa using hearlier e he

/-- C3, at a concrete input: `"a b"` is shorter than `minLength: 5` and has a space that
`allowSpaces: false` forbids; the call fails with the message of the minimum-length rule,
which comes first. -/
theorem validateString_reports_earliest_rule_witness :
    (StringValidatorOptions.otherKeys
        { minLength := some (.ofNat 5), allowSpaces := some false } = [] ∧
      Resolvable (StringValidatorOptions.regexPattern
        { minLength := some (.ofNat 5), allowSpaces := some false }) = true ∧
      validateString sampleHost (.string (lit "a b"))
          { minLength := some (.ofNat 5), allowSpaces := some false } =
        .returned ⟨false, some (lit "Name must be at least 5 characters long"), none⟩) ∧
    ∃ r, validateString sampleHost (.string (lit "a b"))
        { minLength := some (.ofNat 5), allowSpaces := some false } = .returned r ∧
      (r.isValid = false →
        ∃ earlier rule later, ruleOrder = earlier ++ rule :: later ∧
          ruleHolds sampleHost { minLength := some (.ofNat 5), allowSpaces := some false }
            (trim (lit "a b")) rule = true ∧
          (∀ e ∈ earlier,
            ruleHolds sampleHost { minLength := some (.ofNat 5), allowSpaces := some false }
              (trim (lit "a b")) e = false) ∧
          r.errorMessage = some
            (ruleMessage sampleHost { minLength := some (.ofNat 5), allowSpaces := some false }
              rule)) :=
  ⟨⟨rfl, by decide, by decide⟩,
    validateString_reports_earliest_rule sampleHost (lit "a b")
      { minLength := some (.ofNat 5), allowSpaces := some false } rfl (by decide)⟩

/-! ## Raised errors and returned failures -/

/-- C4, at the failing input `validateString("x", {toString: 1})`: the key `toString` is not a
recognized option, yet `"toString" in validOptions` is true through `Object.prototype`, so no
error is raised and the call returns a success. -/
theorem validateString_inherited_key_not_rejected (H : Host) :
    validateString H (.string (lit "x")) { otherKeys := [lit "toString"] } =
      .returned { isValid := true, validatedInput := some (lit "x") } := by
  rw [validateString_of_no_pattern H _ _ (by decide) rfl]
  rfl

/-- C5. For a value that is not a string, `validateString` returns the failure whose message is
the supplied `isStringError` when that is a non-empty string and `Name must be a string`
otherwise, whatever the options are: the type check comes before the key check and before the
pattern is resolved. -/
theorem validateString_non_string (H : Host) (v : JSValue) (o : StringValidatorOptions)
    (hv : STR.isString v = false) :
    validateString H v o =
      .returned
        { isValid := false,
          errorMessage := some
            (match o.isStringError with
            | some (c :: cs) => c :: cs
            | _ => lit "Name must be a string") } := by
  simp only [validateString, hv, Bool.not_false, if_true, orDefault]

/-- C5, at a concrete input: a number, with an unrecognized key and an unknown pattern name. -/
theorem validateString_non_string_witness :
    STR.isString (.number (.ofNat 5)) = false ∧
    validateString sampleHost (.number (.ofNat 5))
        { otherKeys := [lit "bogus"], regexPattern := some (.name (lit "NOT_A_KEY")) } =
      .returned { isValid := false, errorMessage := some (lit "Name must be a string") } :=
  ⟨rfl, validateString_non_string sampleHost (.number (.ofNat 5))
    { otherKeys := [lit "bogus"], regexPattern := some (.name (lit "NOT_A_KEY")) } rfl⟩

/-- C6 fails for an input that is not a string: `validateString(5, {foo: 1})` has an
unrecognized key and returns a failure instead of raising. -/
theorem validateString_unrecognized_key_non_string :
    validateString sampleHost (.number (.ofNat 5)) { otherKeys := [lit "foo"] } =
        .returned { isValid := false, errorMessage := some (lit "Name must be a string") } ∧
    ¬ ∃ e, validateString sampleHost (.number (.ofNat 5)) { otherKeys := [lit "foo"] } =
        .raised e := by
  refine ⟨by decide, ?_⟩
  rintro ⟨e, he⟩
  have h : validateString sampleHost (.number (.ofNat 5)) { otherKeys := [lit "foo"] } =
      .returned { isValid := false, errorMessage := some (lit "Name must be a string") } := by
    decide
  rw [h] at he
  cases he

/-- C6, amended. For a string input and options that have a key which is neither a recognized
option nor a property name inherited from `Object.prototype`, `validateString` raises the
configuration error that lists the rejected keys, whatever the other options are. -/
theorem validateString_unrecognized_key_raises (H : Host) (s : JSString)
    (o : StringValidatorOptions) (k : JSString) (hk : k ∈ ownKeys o)
    (hrec : k ∉ validOptionKeys) (hinh : k ∉ objectPrototypeKeys) :
    validateString H (.string s) o =
      .raised (.error (invalidOptionsMessage
        ((ownKeys o).filter (fun key => !inValidOptions key)))) := by
  have hmem : k ∈ (ownKeys o).filter (fun key => !inValidOptions key) := by
    rw [List.mem_filter]
    refine ⟨hk, ?_⟩
    simp [inValidOptions, hrec, hinh]
  have hpos : 0 < ((ownKeys o).filter (fun key => !inValidOptions key)).length :=
    List.length_pos_of_mem hmem
  simp only [validateString, STR.isString, Bool.not_true, Bool.false_eq_true, if_false]
  rw [if_pos (by simpa using hpos)]

/-- C6, amended, at a concrete input: the key `foo` next to a `minLength` that the input
meets. -/
theorem validateString_unrecognized_key_raises_witness :
    lit "foo" ∈ ownKeys { minLength := some (.ofNat 1), otherKeys := [lit "foo"] } ∧
    lit "foo" ∉ validOptionKeys ∧ lit "foo" ∉ objectPrototypeKeys ∧
    validateString sampleHost (.string (lit "ab"))
        { minLength := some (.ofNat 1), otherKeys := [lit "foo"] } =
      .raised (.error (invalidOptionsMessage
        ((ownKeys { minLength := some (.ofNat 1), otherKeys := [lit "foo"] }).filter
          (fun key => !inValidOptions key)))) :=
  ⟨by decide, by decide, by decide,
    validateString_unrecognized_key_raises sampleHost (lit "ab")
      { minLength := some (.ofNat 1), otherKeys := [lit "foo"] } (lit "foo")
      (by decide) (by decide) (by decide)⟩

/-- A regular expression is returned unchanged. -/
theorem handlePredefinedPattern_regExp (r : JSRegExp) (table : List (JSString × JSRegExp)) :
    handlePredefinedPattern (.regExp r) table = .returned (.regExp r) := rfl

/-- The name of an entry of the table resolves to that entry. -/
theorem handlePredefinedPattern_entry (key : JSString) (r : JSRegExp)
    (table : List (JSString × JSRegExp)) (h : table.lookup key = some r) :
    handlePredefinedPattern (.name key) table = .returned (.regExp r) := by
  simp [handlePredefinedPattern, getProperty, h]

/-- A name that is neither an entry of the table nor inherited from `Object.prototype` raises
the error that names it. -/
theorem handlePredefinedPattern_unknown (key : JSString) (table : List (JSString × JSRegExp))
    (h : table.lookup key = none) (hinh : key ∉ objectPrototypeKeys) :
    handlePredefinedPattern (.name key) table =
      .raised (.error (lit "The regex pattern \x27" ++ key ++
        lit "\x27 is not available in the predefined patterns.")) := by
  simp [handlePredefinedPattern, getProperty, h, hinh]

/-- C7, at the failing input `handlePredefinedPattern("toString", predefinedPatterns)`: the name
is no entry of the table, yet the property access finds `Object.prototype.toString`, which is
truthy, and the function returns it instead of raising. -/
theorem handlePredefinedPattern_inherited_name :
    predefinedPatterns.lookup (lit "toString") = none ∧
    handlePredefinedPattern (.name (lit "toString")) predefinedPatterns =
      .returned (.inherited (lit "toString")) := by
  decide

/-- What the code does for a string input: it raises exactly when the key check rejects a key
(one that is neither a key of `validOptions` nor inherited from `Object.prototype`) or the
pattern is a non-empty string that names no entry of the pattern table. -/
theorem validateString_raises_iff (H : Host) (s : JSString) (o : StringValidatorOptions) :
    (∃ e, validateString H (.string s) o = .raised e) ↔
      (∃ k ∈ ownKeys o, inValidOptions k = false) ∨
      (∃ c cs, o.regexPattern = some (.name (c :: cs)) ∧
        predefinedPatterns.lookup (c :: cs) = none) := by
  by_cases hk : (ownKeys o).filter (fun key => !inValidOptions key) = []
  · have hleft : ¬ ∃ k ∈ ownKeys o, inValidOptions k = false := by
      rintro ⟨k, hk1, hk2⟩
      have : k ∈ (ownKeys o).filter (fun key => !inValidOptions key) :=
        List.mem_filter.mpr ⟨hk1, by simp [hk2]⟩
      rw [hk] at this
      cases this
    by_cases hres : Resolvable o.regexPattern = true
    · rw [validateString_of_resolvable H s o hk hres]
      constructor
      · rintro ⟨e, he⟩; cases he
      · rintro (h | ⟨c, cs, hp, hl⟩)
        · exact absurd h hleft
        · rw [hp] at hres
          simp [Resolvable, hl] at hres
    · have hp : ∃ c cs, o.regexPattern = some (.name (c :: cs)) ∧
          predefinedPatterns.lookup (c :: cs) = none := by
        cases hp : o.regexPattern with
        | none => rw [hp] at hres; simp [Resolvable] at hres
        | some p =>
          cases p with
          | regExp r => rw [hp] at hres; simp [Resolvable] at hres
          | name key =>
            cases key with
            | nil => rw [hp] at hres; simp [Resolvable] at hres
            | cons c cs =>
              rw [hp] at hres
              refine ⟨c, cs, rfl, ?_⟩
              cases hl : predefinedPatterns.lookup (c :: cs) with
              | none => rfl
              | some r => simp [Resolvable, hl] at hres
      refine ⟨fun _ => Or.inr hp, fun _ => ?_⟩
      obtain ⟨c, cs, hp1, hp2⟩ := hp
      simp only [validateString, STR.isString, Bool.not_true, Bool.false_eq_true, if_false, hk,
        List.length_nil, Nat.lt_irrefl, STR.trimString, hp1, resolvePattern,
        handlePredefinedPattern, getProperty, hp2]
      by_cases hinh : c :: cs ∈ objectPrototypeKeys
      · simp [hinh, patternCondition]
      · simp [hinh]
  · have hpos : 0 < ((ownKeys o).filter (fun key => !inValidOptions key)).length :=
      List.length_pos.mpr hk
    constructor
    · intro _
      obtain ⟨k, hk1⟩ := List.exists_mem_of_ne_nil _ hk
      rw [List.mem_filter] at hk1
      exact Or.inl ⟨k, hk1.1, by simpa using hk1.2⟩
    · intro _
      simp only [validateString, STR.isString, Bool.not_true, Bool.false_eq_true, if_false]
      rw [if_pos (by simpa using hpos)]
      exact ⟨_, rfl⟩

/-! ## The length rules -/

/-- A non-negative integer below `2^53` is rendered by its decimal digits. -/
theorem numberToString_ofNat (H : Host) (n : Nat) (hn : n < 2 ^ 53) :
    numberToString H (.ofNat n) = digitsOf n := by
  have h1 : ¬ ((n : ℤ) < 0) := by omega
  have h2 : n < 9007199254740992 := by norm_num at hn; exact hn
  simp [numberToString, JSNumber.ofNat, h1, h2]

theorem truthy_ofNat (n : Nat) : (JSNumber.ofNat n).truthy = decide (0 < n) := by
  simp [JSNumber.truthy, JSNumber.ofNat, Nat.pos_iff_ne_zero]

theorem isStringLengthAtLeast_ofNat (t : JSString) (n : Nat) :
    STR.isStringLengthAtLeast t (.ofNat n) = decide (n ≤ t.length) := by
  simp [STR.isStringLengthAtLeast, JSNumber.ge, JSNumber.le, JSNumber.ofNat]

theorem isStringLengthAtMost_ofNat (t : JSString) (n : Nat) :
    STR.isStringLengthAtMost t (.ofNat n) = decide (t.length ≤ n) := by
  simp [STR.isStringLengthAtMost, JSNumber.le, JSNumber.ofNat]

/-- C8. For a positive integer `n` and a string `s` with a non-whitespace unit,
`validateString(s, {minLength: n})` fails exactly when the trimmed input has fewer than `n`
units, with the message `Name must be at least n characters long` (`n` interpolated, in
decimal digits below `2^53`); at length `n` and above it succeeds. -/
theorem validateString_minLength (H : Host) (n : Nat) (s : JSString) (hn : 0 < n)
    (hs : hasNonWhitespace s = true) :
    validateString H (.string s) { minLength := some (.ofNat n) } =
      (if (trim s).length < n then
        .returned
          { isValid := false,
            errorMessage := some (lit "Name must be at least " ++ numberToString H (.ofNat n) ++
              lit " characters long") }
      else .returned { isValid := true, validatedInput := some (spaceNormalized s) }) ∧
    (n < 2 ^ 53 → numberToString H (.ofNat n) = digitsOf n) := by
  refine ⟨?_, numberToString_ofNat H n⟩
  rw [validateString_of_no_pattern H s _ (by rw [invalidOptions_eq]; rfl) rfl]
  have hl : lit " " = [32] := by decide
  simp only [validationRules, firstFailure, Option.getD_none, isStringRequired_trim, hs,
    STR.isSpacesAllowed, hasExcessiveRepetitiveChars_posInf, orDefault, Bool.true_and,
    List.find?, if_true, Bool.not_true, truthy_ofNat, isStringLengthAtLeast_ofNat, hn,
    decide_True, templateNumber, hl, replace_trim_eq_spaceNormalized]
  by_cases h : (trim s).length < n
  · have h2 : ¬ n ≤ (trim s).length := by omega
    simp [h, h2]
  · have h2 : n ≤ (trim s).length := by omega
    simp [h, h2]

/-- C8, at a concrete input: `"ab"` against `minLength: 3`. -/
theorem validateString_minLength_witness :
    0 < 3 ∧ hasNonWhitespace (lit "ab") = true ∧
    (validateString sampleHost (.string (lit "ab")) { minLength := some (.ofNat 3) } =
      (if (trim (lit "ab")).length < 3 then
        .returned
          { isValid := false,
            errorMessage := some (lit "Name must be at least " ++
              numberToString sampleHost (.ofNat 3) ++ lit " characters long") }
      else .returned { isValid := true, validatedInput := some (spaceNormalized (lit "ab")) }) ∧
    (3 < 2 ^ 53 → numberToString sampleHost (.ofNat 3) = digitsOf 3)) :=
  ⟨by decide, by decide, validateString_minLength sampleHost 3 (lit "ab") (by decide) (by decide)⟩

/-- C9, at the failing input `validateString("ab", {minStringLength: 3})`: the key
`minStringLength`, which the doc comment of the declaration file documents, is not a key of
`validOptions`, and the call raises the configuration error instead of returning the length
failure. -/
theorem validateString_minStringLength_raises (H : Host) :
    validateString H (.string (lit "ab")) { otherKeys := [lit "minStringLength"] } =
      .raised (.error (invalidOptionsMessage [lit "minStringLength"])) := by
  rfl

/-- C10, at the failing input `validateString("abc", {maxLength: 0})`: the trimmed input is
longer than `0`, yet the guard `maxLength && ...` takes `0` for an absent bound, the rule is
skipped and the call succeeds. -/
theorem validateString_maxLength_zero_passes (H : Host) :
    STR.isStringLengthAtMost (trim (lit "abc")) (.ofNat 0) = false ∧
    validateString H (.string (lit "abc")) { maxLength := some (.ofNat 0) } =
      .returned { isValid := true, validatedInput := some (lit "abc") } := by
  refine ⟨by decide, ?_⟩
  rw [validateString_of_no_pattern H _ _ (by decide) rfl]
  rfl

/-! ## Messages and results -/

/-- A string call that returns went through the rule pipeline: its record is the failure of
the first rule, in the order of the specification, whose condition holds, or the success. -/
theorem validateString_returned_eq (H : Host) (s : JSString) (o : StringValidatorOptions)
    (r : StringValidationResult) (hr : validateString H (.string s) o = .returned r) :
    r = (match ruleOrder.find? (ruleHolds H o (trim s)) with
        | some rule => { isValid := false, errorMessage := some (ruleMessage H o rule) }
        | none =>
          { isValid := true,
            validatedInput := some
              (replaceWhitespaceRuns (o.wordSeparator.getD (lit " ")) [] false (trim s)) }) := by
  have hnr : ¬ ∃ e, validateString H (.string s) o = .raised e := by
    rw [hr]
    rintro ⟨e, he⟩
    cases he
  rw [validateString_raises_iff] at hnr
  have hk : (ownKeys o).filter (fun key => !inValidOptions key) = [] := by
    rw [List.filter_eq_nil_iff]
    intro k hk1 hk2
    apply hnr
    exact Or.inl ⟨k, hk1, by simpa using hk2⟩
  have hres : Resolvable o.regexPattern = true := by
    cases hp : o.regexPattern with
    | none => rfl
    | some p =>
      cases p with
      | regExp re => rfl
      | name key =>
        cases key with
        | nil => rfl
        | cons c cs =>
          cases hl : predefinedPatterns.lookup (c :: cs) with
          | none => exact absurd (Or.inr ⟨c, cs, hp, hl⟩) hnr
          | some re => simp [Resolvable, hl]
  rw [validateString_of_resolvable H s o hk hres, validationRules_eq_map, firstFailure_map] at hr
  simp only [Outcome.returned.injEq] at hr
  exact hr.symm

theorem ruleMessage_eq (H : Host) (o : StringValidatorOptions) (rule : RuleName) :
    ruleMessage H o rule = orDefault (ruleOverride o rule) (ruleDefaultText H o rule) := by
  cases rule <;> rfl

theorem followsOverride_orDefault (override : Option JSString) (defaultText : JSString) :
    FollowsOverride override defaultText (some (orDefault override defaultText)) := by
  refine ⟨?_, ?_⟩
  · intro m hm hne
    subst hm
    cases m with
    | nil => exact absurd rfl hne
    | cons c cs => rfl
  · intro hn
    subst hn
    rfl

/-- C11. Whatever rule a failure of `validateString` reports (the type check, or the earliest
rule of the pipeline whose condition holds), its message is the override the caller supplied
for that rule when that is a non-empty string, and the default text of the rule when no
override is supplied. -/
theorem validateString_message_follows_override (H : Host) (name : JSValue)
    (o : StringValidatorOptions) (r : StringValidationResult)
    (hr : validateString H name o = .returned r) (hfail : r.isValid = false) :
    (STR.isString name = false ∧
      FollowsOverride o.isStringError (lit "Name must be a string") r.errorMessage) ∨
    (∃ s earlier rule later, name = .string s ∧ ruleOrder = earlier ++ rule :: later ∧
      ruleHolds H o (trim s) rule = true ∧
      (∀ e ∈ earlier, ruleHolds H o (trim s) e = false) ∧
      FollowsOverride (ruleOverride o rule) (ruleDefaultText H o rule) r.errorMessage) := by
  cases hname : STR.isString name with
  | false =>
    left
    refine ⟨rfl, ?_⟩
    simp only [validateString, hname, Bool.not_false, if_true, Outcome.returned.injEq] at hr
    rw [← hr]
    exact followsOverride_orDefault _ _
  | true =>
    right
    obtain ⟨s, rfl⟩ : ∃ s, name = .string s := by
      cases name <;> simp [STR.isString] at hname
      exact ⟨_, rfl⟩
    have h := validateString_returned_eq H s o r hr
    cases hf : ruleOrder.find? (ruleHolds H o (trim s)) with
    | none =>
      rw [hf] at h
      rw [h] at hfail
      simp at hfail
    | some rule =>
      rw [hf] at h
      obtain ⟨hrule, earlier, later, hsplit, hearlier⟩ := List.find?_eq_some.mp hf
      refine ⟨s, earlier, rule, later, rfl, hsplit, hrule, ?_, ?_⟩
      · intro e he
        simpa using hearlier e he
      · rw [h]
        show FollowsOverride _ _ (some (ruleMessage H o rule))
        rw [ruleMessage_eq]
        exact followsOverride_orDefault _ _

/-- C11, at a concrete input: `"ab"` against `minLength: 5` with the override
`lengthError: "too short"` reports the override. -/
theorem validateString_message_follows_override_witness :
    (validateString sampleHost (.string (lit "ab"))
        { minLength := some (.ofNat 5), lengthError := some (lit "too short") } =
      .returned ⟨false, some (lit "too short"), none⟩) ∧
    ((STR.isString (.string (lit "ab")) = false ∧
      FollowsOverride
        (StringValidatorOptions.isStringError
          { minLength := some (.ofNat 5), lengthError := some (lit "too short") })
        (lit "Name must be a string")
        (StringValidationResult.mk false (some (lit "too short")) none).errorMessage) ∨
    (∃ s earlier rule later, JSValue.string (lit "ab") = .string s ∧
      ruleOrder = earlier ++ rule :: later ∧
      ruleHolds sampleHost { minLength := some (.ofNat 5), lengthError := some (lit "too short") }
        (trim s) rule = true ∧
      (∀ e ∈ earlier,
        ruleHolds sampleHost
          { minLength := some (.ofNat 5), lengthError := some (lit "too short") }
          (trim s) e = false) ∧
      FollowsOverride
        (ruleOverride { minLength := some (.ofNat 5), lengthError := some (lit "too short") } rule)
        (ruleDefaultText sampleHost
          { minLength := some (.ofNat 5), lengthError := some (lit "too short") } rule)
        (StringValidationResult.mk false (some (lit "too short")) none).errorMessage)) :=
  ⟨by decide,
    validateString_message_follows_override sampleHost (.string (lit "ab"))
      { minLength := some (.ofNat 5), lengthError := some (lit "too short") }
      ⟨false, some (lit "too short"), none⟩ (by decide) rfl⟩

/-- C12. Every record that `validateString` or `validateNumber` returns populates exactly one
side: a valid record has its value field (`validatedInput`, resp. `returnedNumber`) and no
`errorMessage`; an invalid record has an `errorMessage` and no value field. -/
theorem returned_record_populates_one_side (H : Host) (name : JSValue)
    (o : StringValidatorOptions) (value : JSValue) (p : NumberValidatorOptions) :
    (∀ r, validateString H name o = .returned r →
      (r.isValid = true → r.validatedInput ≠ none ∧ r.errorMessage = none) ∧
      (r.isValid = false → r.errorMessage ≠ none ∧ r.validatedInput = none)) ∧
    (∀ r, validateNumber value p = .returned r →
      (r.isValid = true → r.returnedNumber ≠ none ∧ r.errorMessage = none) ∧
      (r.isValid = false → r.errorMessage ≠ none ∧ r.returnedNumber = none)) := by
  constructor
  · intro r hr
    cases hname : STR.isString name with
    | false =>
      simp only [validateString, hname, Bool.not_false, if_true, Outcome.returned.injEq] at hr
      rw [← hr]
      simp
    | true =>
      obtain ⟨s, rfl⟩ : ∃ s, name = .string s := by
        cases name <;> simp [STR.isString] at hname
        exact ⟨_, rfl⟩
      have h := validateString_returned_eq H s o r hr
      cases hf : ruleOrder.find? (ruleHolds H o (trim s)) with
      | none => rw [hf] at h; rw [h]; simp
      | some rule => rw [hf] at h; rw [h]; simp
  · intro r hr
    cases value with
    | number n =>
      simp only [validateNumber] at hr
      split at hr
      · cases hr
      · simp only [Outcome.returned.injEq] at hr
        rw [← hr]
        simp only [firstNumberFailure]
        cases (numberValidationRules p n).find? (fun rule => rule.condition) <;> simp
    | undefined => simp only [validateNumber, Outcome.returned.injEq] at hr; rw [← hr]; simp
    | null => simp only [validateNumber, Outcome.returned.injEq] at hr; rw [← hr]; simp
    | bool b => simp only [validateNumber, Outcome.returned.injEq] at hr; rw [← hr]; simp
    | string s => simp only [validateNumber, Outcome.returned.injEq] at hr; rw [← hr]; simp
    | object => simp only [validateNumber, Outcome.returned.injEq] at hr; rw [← hr]; simp

/-! ## Validating the output again -/

/-- The result depends on the input string through its trimmed form only. -/
theorem validateString_trim (H : Host) (s : JSString) (o : StringValidatorOptions) :
    validateString H (.string (trim s)) o = validateString H (.string s) o := by
  simp only [validateString, STR.isString, STR.trimString, trim_trim]

theorem spaceNormalized_eq_normalizeFrom (s : JSString) :
    spaceNormalized s = normalizeFrom .skip s := by
  obtain ⟨q0, qs, hq⟩ : ∃ q0 qs, s.splitOnP isWhitespace = q0 :: qs := by
    cases hsp : s.splitOnP isWhitespace with
    | nil => exact absurd hsp (List.splitOnP_ne_nil _ _)
    | cons a l => exact ⟨a, l, rfl⟩
  rw [(normalizeFrom_splitOnP s q0 qs hq).2.1, spaceNormalized, nonWhitespaceRuns, hq]

theorem normalizeFrom_fixed (s : JSString) :
    normalizeFrom .word (normalizeFrom .word s) = normalizeFrom .word s ∧
    normalizeFrom .word (normalizeFrom .pending s) = normalizeFrom .pending s := by
  have h32 : isWhitespace 32 = true := by decide
  induction s with
  | nil => exact ⟨rfl, rfl⟩
  | cons c cs ih =>
    obtain ⟨ih1, ih2⟩ := ih
    by_cases hc : isWhitespace c = true
    · simp only [normalizeFrom, hc, if_true, ScanState.afterWhitespace]
      exact ⟨ih2, ih2⟩
    · simp only [normalizeFrom, hc, ScanState.emit, List.cons_append, List.nil_append,
        List.singleton_append, if_false, Bool.false_eq_true, h32, if_true,
        ScanState.afterWhitespace]
      simp only [ih1, and_self]

theorem normalizeFrom_skip_fixed (s : JSString) :
    normalizeFrom .skip (normalizeFrom .skip s) = normalizeFrom .skip s := by
  induction s with
  | nil => rfl
  | cons c cs ih =>
    by_cases hc : isWhitespace c = true
    · simp only [normalizeFrom, hc, if_true, ScanState.afterWhitespace]
      exact ih
    · simp only [normalizeFrom, hc, ScanState.emit, List.cons_append, List.nil_append,
        List.singleton_append, if_false, Bool.false_eq_true]
      rw [(normalizeFrom_fixed cs).1]

theorem hasNonWhitespace_normalizeFrom (s : JSString) :
    ∀ st, hasNonWhitespace (normalizeFrom st s) = hasNonWhitespace s := by
  induction s with
  | nil => intro st; rfl
  | cons c cs ih =>
    intro st
    by_cases hc : isWhitespace c = true
    · simp only [normalizeFrom, hc, if_true]
      rw [ih]
      simp [hasNonWhitespace, hc]
    · cases st <;>
        simp [normalizeFrom, hc, ScanState.emit, hasNonWhitespace]

/-- Space normalization is idempotent. -/
theorem spaceNormalized_idem (s : JSString) :
    spaceNormalized (spaceNormalized s) = spaceNormalized s := by
  rw [spaceNormalized_eq_normalizeFrom (spaceNormalized s), spaceNormalized_eq_normalizeFrom s]
  exact normalizeFrom_skip_fixed s

/-- With no options a string with a non-whitespace unit succeeds with its space-normalized
form. -/
theorem validateString_default_of_hasNonWhitespace (H : Host) (s : JSString)
    (hs : hasNonWhitespace s = true) :
    validateString H (.string s) noOptions =
      .returned { isValid := true, validatedInput := some (spaceNormalized s) } := by
  have hl : lit " " = [32] := by decide
  rw [validateString_of_no_pattern H s noOptions (by decide) rfl]
  simp only [validationRules, firstFailure, noOptions, Option.getD_none, isStringRequired_trim,
    hs, STR.isSpacesAllowed, hasExcessiveRepetitiveChars_posInf, orDefault, Bool.true_and,
    List.find?, if_true, Bool.not_true, hl, replace_trim_eq_spaceNormalized]

/-- With no options a string must have a non-whitespace unit to succeed. -/
theorem hasNonWhitespace_of_default_valid (H : Host) (s : JSString)
    (r : StringValidationResult)
    (hr : validateString H (.string s) noOptions = .returned r) (hvalid : r.isValid = true) :
    hasNonWhitespace s = true := by
  cases hs : hasNonWhitespace s with
  | true => rfl
  | false =>
    rw [validateString_of_no_pattern H s noOptions (by decide) rfl] at hr
    simp only [validationRules, firstFailure, noOptions, Option.getD_none,
      isStringRequired_trim, hs, Bool.not_false, Bool.true_and, Bool.and_self, List.find?,
      Outcome.returned.injEq] at hr
    rw [← hr] at hvalid
    simp at hvalid

/-- C14. With no options the output is a fixed point: if `validateString(s)` succeeds with
`validatedInput` `v`, then `validateString(v)` succeeds with `validatedInput` `v`. -/
theorem validateString_noOptions_fixed_point (H : Host) (s v : JSString)
    (r : StringValidationResult)
    (hr : validateString H (.string s) noOptions = .returned r)
    (hvalid : r.isValid = true) (hv : r.validatedInput = some v) :
    validateString H (.string v) noOptions =
      .returned { isValid := true, validatedInput := some v } := by
  have hs := hasNonWhitespace_of_default_valid H s r hr hvalid
  rw [validateString_default_of_hasNonWhitespace H s hs] at hr
  simp only [Outcome.returned.injEq] at hr
  rw [← hr] at hv
  simp only [Option.some.injEq] at hv
  subst hv
  have hs2 : hasNonWhitespace (spaceNormalized s) = true := by
    rw [spaceNormalized_eq_normalizeFrom, hasNonWhitespace_normalizeFrom, hs]
  rw [validateString_default_of_hasNonWhitespace H _ hs2, spaceNormalized_idem]

/-- C14, at a concrete input: the output `"John Doe"` of `"  John   Doe  "`. -/
theorem validateString_noOptions_fixed_point_witness :
    validateString sampleHost (.string (lit "  John   Doe  ")) noOptions =
        .returned ⟨true, none, some (lit "John Doe")⟩ ∧
    validateString sampleHost (.string (lit "John Doe")) noOptions =
        .returned { isValid := true, validatedInput := some (lit "John Doe") } :=
  ⟨by decide,
    validateString_noOptions_fixed_point sampleHost (lit "  John   Doe  ") (lit "John Doe")
      ⟨true, none, some (lit "John Doe")⟩ (by decide) rfl rfl⟩

/-! ## The pattern rule -/

theorem trim_ne_nil_of_hasNonWhitespace (s : JSString) (hs : hasNonWhitespace s = true) :
    trim s ≠ [] := by
  intro e
  rw [(trim_eq_nil_iff s).mp e] at hs
  exact absurd hs (by simp)

/-- C15. On a host that tests `/^[0-9]+$/` as the language defines it, for a string `s` with a
non-whitespace unit `validateString(s, {regexPattern: "NUMBERS_ONLY"})` succeeds exactly when
every unit of the trimmed input is a decimal digit, and otherwise returns the failure
`Invalid input pattern`. -/
theorem validateString_numbersOnly (H : Host) (s : JSString) (hH : H.TestsNumbersOnly)
    (hs : hasNonWhitespace s = true) :
    validateString H (.string s) { regexPattern := some (.name (lit "NUMBERS_ONLY")) } =
      if (trim s).all isDecimalDigit = true then
        .returned { isValid := true, validatedInput := some (spaceNormalized s) }
      else
        .returned { isValid := false, errorMessage := some (lit "Invalid input pattern") } := by
  have hk : (ownKeys { regexPattern := some (.name (lit "NUMBERS_ONLY")) }).filter
      (fun key => !inValidOptions key) = [] := by decide
  have hl : resolvedRegExp (some (.name (lit "NUMBERS_ONLY"))) = some numbersOnlyRegExp := by
    decide
  have hne : (trim s).isEmpty = false := by
    cases ht : trim s with
    | nil => exact absurd ht (trim_ne_nil_of_hasNonWhitespace s hs)
    | cons a l => rfl
  have hsp : lit " " = [32] := by decide
  rw [validateString_of_resolvable H s _ hk (by decide)]
  simp only [validationRules, firstFailure, ruleHolds, hl, hH (trim s), hne, Bool.not_false,
    Bool.true_and, Option.getD_none, isStringRequired_trim, hs, Bool.not_true,
    STR.isSpacesAllowed, hasExcessiveRepetitiveChars_posInf, orDefault, List.find?, if_true,
    hsp, replace_trim_eq_spaceNormalized]
  cases hd : (trim s).all isDecimalDigit with
  | true => simp
  | false => simp

/-- C15, at a concrete input: `"hello"` is not made of digits and fails with the default
pattern message. -/
theorem validateString_numbersOnly_witness :
    digitHost.TestsNumbersOnly ∧ hasNonWhitespace (lit "hello") = true ∧
    validateString digitHost (.string (lit "hello"))
        { regexPattern := some (.name (lit "NUMBERS_ONLY")) } =
      (if (trim (lit "hello")).all isDecimalDigit = true then
        .returned { isValid := true, validatedInput := some (spaceNormalized (lit "hello")) }
      else
        .returned { isValid := false, errorMessage := some (lit "Invalid input pattern") }) :=
  ⟨fun t => by simp [digitHost], by decide,
    validateString_numbersOnly digitHost (lit "hello") (fun t => by simp [digitHost])
      (by decide)⟩

/-- C16 fails for a name that is not in the pattern table: the pattern is resolved before the
rules are built, so `validateString("", {regexPattern: "NOT_A_KEY"})` raises instead of
returning the failure `Name is required`. -/
theorem validateString_blank_unknown_pattern_raises :
    hasNonWhitespace (lit "") = false ∧
    validateString sampleHost (.string (lit ""))
        { regexPattern := some (.name (lit "NOT_A_KEY")) } =
      .raised (.error (lit "The regex pattern \x27NOT_A_KEY\x27 is not available in the predefined patterns.")) := by
  decide

/-- C16, amended. For a blank string `s` (empty or all whitespace) and a resolvable
`regexPattern` (absent, a regular expression, the empty string or the name of an entry of the
pattern table), `validateString(s, {regexPattern})` returns the failure `Name is required`. -/
theorem validateString_blank_resolvable_pattern (H : Host) (s : JSString)
    (p : Option RegexPattern) (hblank : hasNonWhitespace s = false)
    (hres : Resolvable p = true) :
    validateString H (.string s) { regexPattern := p } =
      .returned { isValid := false, errorMessage := some (lit "Name is required") } := by
  have hk : (ownKeys { regexPattern := p }).filter (fun key => !inValidOptions key) = [] := by
    rw [invalidOptions_eq]; rfl
  rw [validateString_of_resolvable H s _ hk hres]
  simp only [validationRules, firstFailure, Option.getD_none, isStringRequired_trim, hblank,
    Bool.not_false, Bool.true_and, Bool.and_self, List.find?, orDefault]

/-- C16, amended, at a concrete input: three spaces with the pattern name `NUMBERS_ONLY`. -/
theorem validateString_blank_resolvable_pattern_witness :
    hasNonWhitespace (lit "   ") = false ∧
    Resolvable (some (.name (lit "NUMBERS_ONLY"))) = true ∧
    validateString sampleHost (.string (lit "   "))
        { regexPattern := some (.name (lit "NUMBERS_ONLY")) } =
      .returned { isValid := false, errorMessage := some (lit "Name is required") } :=
  ⟨by decide, by decide,
    validateString_blank_resolvable_pattern sampleHost (lit "   ")
      (some (.name (lit "NUMBERS_ONLY"))) (by decide) (by decide)⟩

/-! ## Membership predicates -/

/-- The method `includes` is the substring test. -/
theorem includes_iff (value search : JSString) :
    includes value search = true ↔ search <:+: value := by
  simp only [includes, List.any_eq_true, List.mem_tails, List.isPrefixOf_iff_prefix]
  rw [List.infix_iff_prefix_suffix]
  constructor
  · rintro ⟨t, h1, h2⟩; exact ⟨t, h2, h1⟩
  · rintro ⟨t, h1, h2⟩; exact ⟨t, h2, h1⟩

theorem orNull_find? (p : JSString → Bool) (A : List JSString) (hA : ∀ a ∈ A, a ≠ []) :
    STR.orNull (A.find? p) = A.find? p := by
  cases h : A.find? p with
  | none => rfl
  | some a =>
    have ha : a ∈ A := List.mem_of_find?_eq_some h
    cases a with
    | nil => exact absurd rfl (hA [] ha)
    | cons c cs => rfl

/-- The result of `find(...) || null` on an array of non-empty strings: the first entry that
satisfies the test, and `null` when there is none. -/
theorem orNull_find?_spec (p : JSString → Bool) (P : JSString → Prop)
    (hp : ∀ x, p x = true ↔ P x) (A : List JSString) (hA : ∀ a ∈ A, a ≠ []) :
    (∀ a, STR.orNull (A.find? p) = some a ↔ IsFirstEntry P A a) ∧
    (STR.orNull (A.find? p) = none ↔ ∀ a ∈ A, ¬ P a) := by
  rw [orNull_find? p A hA]
  constructor
  · intro a
    rw [List.find?_eq_some]
    constructor
    · rintro ⟨h1, before, after, h2, h3⟩
      refine ⟨before, after, h2, (hp a).mp h1, ?_⟩
      intro b hb hPb
      have := h3 b hb
      rw [(hp b).mpr hPb] at this
      simp at this
    · rintro ⟨before, after, h2, h1, h3⟩
      refine ⟨(hp a).mpr h1, before, after, h2, ?_⟩
      intro b hb
      cases hpb : p b with
      | false => rfl
      | true => exact absurd ((hp b).mp hpb) (h3 b hb)
  · rw [List.find?_eq_none]
    constructor
    · intro h a ha hPa
      exact h a ha ((hp a).mpr hPa)
    · intro h a ha hpa
      exact h a ha ((hp a).mp hpa)

/-- C17. For a string `s` with a non-whitespace unit and a list `A` of non-empty strings,
`validateString(s, {allowedChars: A})` fails, with the allowed-characters message, exactly
when no entry of `A` occurs in the trimmed input; one occurring entry is enough to pass. -/
theorem validateString_allowedChars (H : Host) (s : JSString) (A : List JSString)
    (hs : hasNonWhitespace s = true) (hA : ∀ a ∈ A, a ≠ []) :
    (validateString H (.string s) { allowedChars := some A } =
      if A.any (fun a => includes (trim s) a) = true then
        .returned { isValid := true, validatedInput := some (spaceNormalized s) }
      else
        .returned
          { isValid := false,
            errorMessage := some (lit "Name contains disallowed characters") }) ∧
    (A.any (fun a => includes (trim s) a) = true ↔ ∃ a ∈ A, a <:+: trim s) := by
  constructor
  · have hk : (ownKeys { allowedChars := some A }).filter
        (fun key => !inValidOptions key) = [] := by
      rw [invalidOptions_eq]; rfl
    have hsp : lit " " = [32] := by decide
    have hnone : (STR.containsAllowedChar (trim s) A).isNone =
        !A.any (fun a => includes (trim s) a) := by
      rw [STR.containsAllowedChar, orNull_find? _ A hA]
      cases hf : A.find? (fun char => includes (trim s) char) with
      | none =>
        rw [List.find?_eq_none] at hf
        have : A.any (fun a => includes (trim s) a) = false := by
          rw [List.any_eq_false]
          intro a ha
          exact hf a ha
        simp [this]
      | some a =>
        have h1 := List.find?_some hf
        have h2 := List.mem_of_find?_eq_some hf
        have : A.any (fun a => includes (trim s) a) = true :=
          List.any_eq_true.mpr ⟨a, h2, h1⟩
        simp [this]
    rw [validateString_of_no_pattern H s _ hk rfl]
    simp only [validationRules, firstFailure, Option.getD_none, isStringRequired_trim, hs,
      Bool.not_true, Bool.and_false, STR.isSpacesAllowed, hasExcessiveRepetitiveChars_posInf,
      orDefault, List.find?, if_true, hsp, replace_trim_eq_spaceNormalized, hnone]
    cases hany : A.any (fun a => includes (trim s) a) with
    | true => simp
    | false => simp
  · simp only [List.any_eq_true, includes_iff]

/-- C17, at a concrete input: `"a1"` has the allowed entry `a` and the unit `1` outside the
list, and passes. -/
theorem validateString_allowedChars_witness :
    hasNonWhitespace (lit "a1") = true ∧ (∀ a ∈ [lit "a", lit "b"], a ≠ []) ∧
    (validateString sampleHost (.string (lit "a1")) { allowedChars := some [lit "a", lit "b"] } =
      (if [lit "a", lit "b"].any (fun a => includes (trim (lit "a1")) a) = true then
        .returned { isValid := true, validatedInput := some (spaceNormalized (lit "a1")) }
      else
        .returned
          { isValid := false,
            errorMessage := some (lit "Name contains disallowed characters") })) ∧
    ([lit "a", lit "b"].any (fun a => includes (trim (lit "a1")) a) = true ↔
      ∃ a ∈ [lit "a", lit "b"], a <:+: trim (lit "a1")) :=
  ⟨by decide, by decide,
    validateString_allowedChars sampleHost (lit "a1") [lit "a", lit "b"] (by decide)
      (by decide)⟩

/-- C18. On an array of non-empty strings `STR.containsDisallowedChar` and
`STR.containsAllowedChar` each return the first entry of the array, in array order, that
occurs in the value, and `null` when no entry occurs; both return `null` on the empty
array. -/
theorem containsChar_first_entry (value : JSString) (A : List JSString)
    (hA : ∀ a ∈ A, a ≠ []) :
    ((∀ a, STR.containsDisallowedChar value A = some a ↔
        IsFirstEntry (fun x => x <:+: value) A a) ∧
      (STR.containsDisallowedChar value A = none ↔ ∀ a ∈ A, ¬ a <:+: value)) ∧
    ((∀ a, STR.containsAllowedChar value A = some a ↔
        IsFirstEntry (fun x => x <:+: value) A a) ∧
      (STR.containsAllowedChar value A = none ↔ ∀ a ∈ A, ¬ a <:+: value)) ∧
    STR.containsDisallowedChar value [] = none ∧ STR.containsAllowedChar value [] = none :=
  ⟨orNull_find?_spec _ _ (fun x => includes_iff value x) A hA,
    orNull_find?_spec _ _ (fun x => includes_iff value x) A hA, rfl, rfl⟩

/-- C18, at a concrete input: in `"Hello#$"` the unit `#` comes before `$`, yet on the array
`["$", "#"]` the result is `$`, the first entry of the array that occurs. -/
theorem containsChar_first_entry_witness :
    (∀ a ∈ [lit "$", lit "#"], a ≠ []) ∧
    STR.containsDisallowedChar (lit "Hello#$") [lit "$", lit "#"] = some (lit "$") ∧
    (((∀ a, STR.containsDisallowedChar (lit "Hello#$") [lit "$", lit "#"] = some a ↔
        IsFirstEntry (fun x => x <:+: lit "Hello#$") [lit "$", lit "#"] a) ∧
      (STR.containsDisallowedChar (lit "Hello#$") [lit "$", lit "#"] = none ↔
        ∀ a ∈ [lit "$", lit "#"], ¬ a <:+: lit "Hello#$")) ∧
    ((∀ a, STR.containsAllowedChar (lit "Hello#$") [lit "$", lit "#"] = some a ↔
        IsFirstEntry (fun x => x <:+: lit "Hello#$") [lit "$", lit "#"] a) ∧
      (STR.containsAllowedChar (lit "Hello#$") [lit "$", lit "#"] = none ↔
        ∀ a ∈ [lit "$", lit "#"], ¬ a <:+: lit "Hello#$")) ∧
    STR.containsDisallowedChar (lit "Hello#$") [] = none ∧
    STR.containsAllowedChar (lit "Hello#$") [] = none) :=
  ⟨by decide, by decide,
    containsChar_first_entry (lit "Hello#$") [lit "$", lit "#"] (by decide)⟩

/-- C19. On a blacklist of non-empty strings `STR.containsBlacklistedWord` returns the first
entry, in the order of the blacklist and in its original casing, whose lower-cased form is a
substring of the lower-cased value, and `null` when no entry matches. -/
theorem containsBlacklistedWord_first_entry (H : Host) (value : JSString)
    (blacklist : List JSString) (hB : ∀ w ∈ blacklist, w ≠ []) :
    (∀ w, STR.containsBlacklistedWord H value blacklist = some w ↔
      IsFirstEntry (fun x => H.toLowerCase x <:+: H.toLowerCase value) blacklist w) ∧
    (STR.containsBlacklistedWord H value blacklist = none ↔
      ∀ w ∈ blacklist, ¬ H.toLowerCase w <:+: H.toLowerCase value) :=
  orNull_find?_spec _ _ (fun x => includes_iff (H.toLowerCase value) (H.toLowerCase x))
    blacklist hB

/-- C19, at a concrete input: the entry `WORLD` matches `Hello World` whatever the case and is
returned in its original casing. -/
theorem containsBlacklistedWord_first_entry_witness :
    (∀ w ∈ [lit "WORLD", lit "hello"], w ≠ []) ∧
    STR.containsBlacklistedWord sampleHost (lit "Hello World") [lit "WORLD", lit "hello"] =
      some (lit "WORLD") ∧
    ((∀ w, STR.containsBlacklistedWord sampleHost (lit "Hello World")
          [lit "WORLD", lit "hello"] = some w ↔
      IsFirstEntry
        (fun x => sampleHost.toLowerCase x <:+: sampleHost.toLowerCase (lit "Hello World"))
        [lit "WORLD", lit "hello"] w) ∧
    (STR.containsBlacklistedWord sampleHost (lit "Hello World") [lit "WORLD", lit "hello"] =
        none ↔
      ∀ w ∈ [lit "WORLD", lit "hello"],
        ¬ sampleHost.toLowerCase w <:+: sampleHost.toLowerCase (lit "Hello World"))) :=
  ⟨by decide, by decide,
    containsBlacklistedWord_first_entry sampleHost (lit "Hello World")
      [lit "WORLD", lit "hello"] (by decide)⟩

/-- C20. An absent prefix or suffix is vacuously satisfied: `STR.doesStringStartsWith(s,
undefined)` and `STR.doesStringEndsWith(s, undefined)` return true for every string `s`. -/
theorem doesString_absent_pattern (s : JSString) :
    STR.doesStringStartsWith s none = true ∧ STR.doesStringEndsWith s none = true :=
  ⟨rfl, rfl⟩

/-! ## Prefixes, suffixes and words -/

/-- C21, at the failing input `STR.doesStringStartsWith("Hello", undefined)` (and `null`, and
the suffix counterpart): the tests assert `false`, the code returns `true`. -/
theorem doesString_undefined_pattern_returns_true :
    STR.doesStringStartsWith (lit "Hello") none = true ∧
    STR.doesStringEndsWith (lit "Hello") none = true := by
  decide

/-- C22. For a non-empty `p`, `STR.doesStringStartsWith(s, p)` is true exactly when `p` is a
prefix of `s` and `STR.doesStringEndsWith(s, p)` exactly when `p` is a suffix of `s`; for the
empty string both return true. -/
theorem doesString_startsWith_endsWith (s p : JSString) (hp : p ≠ []) :
    (STR.doesStringStartsWith s (some p) = true ↔ p <+: s) ∧
    (STR.doesStringEndsWith s (some p) = true ↔ p <:+ s) ∧
    STR.doesStringStartsWith s (some []) = true ∧
    STR.doesStringEndsWith s (some []) = true := by
  cases p with
  | nil => exact absurd rfl hp
  | cons c cs =>
    refine ⟨?_, ?_, rfl, rfl⟩
    · simp only [STR.doesStringStartsWith, startsWith, List.isPrefixOf_iff_prefix]
    · simp only [STR.doesStringEndsWith, endsWith, List.isSuffixOf_iff_suffix]

/-- C22, at a concrete input: `He` is a prefix of `Hello` and not a suffix. -/
theorem doesString_startsWith_endsWith_witness :
    lit "He" ≠ [] ∧ STR.doesStringStartsWith (lit "Hello") (some (lit "He")) = true ∧
    STR.doesStringEndsWith (lit "Hello") (some (lit "He")) = false ∧
    ((STR.doesStringStartsWith (lit "Hello") (some (lit "He")) = true ↔
        lit "He" <+: lit "Hello") ∧
      (STR.doesStringEndsWith (lit "Hello") (some (lit "He")) = true ↔
        lit "He" <:+ lit "Hello") ∧
      STR.doesStringStartsWith (lit "Hello") (some []) = true ∧
      STR.doesStringEndsWith (lit "Hello") (some []) = true) :=
  ⟨by decide, by decide, by decide,
    doesString_startsWith_endsWith (lit "Hello") (lit "He") (by decide)⟩

theorem ge_ofNat_ofNat (a b : Nat) :
    JSNumber.ge (JSNumber.ofNat a) (JSNumber.ofNat b) = decide (b ≤ a) := by
  simp [JSNumber.ge, JSNumber.le, JSNumber.ofNat]

theorem le_ofNat_ofNat (a b : Nat) :
    JSNumber.le (JSNumber.ofNat a) (JSNumber.ofNat b) = decide (a ≤ b) := by
  simp [JSNumber.le, JSNumber.ofNat]

/-- C24. A blank string counts as exactly one (empty) word: for a string that is empty or
all whitespace the word count meets the minimum `1` and not `2`, and the maximum `1` and
not `0`. -/
theorem wordCount_blank (s : JSString) (hblank : hasNonWhitespace s = false) :
    STR.isWordCountAboveThreshold s (.ofNat 1) = true ∧
    STR.isWordCountAboveThreshold s (.ofNat 2) = false ∧
    STR.isWordCountBelowThreshold s (.ofNat 1) = true ∧
    STR.isWordCountBelowThreshold s (.ofNat 0) = false := by
  have ht : trim s = [] := (trim_eq_nil_iff s).mpr hblank
  simp only [STR.isWordCountAboveThreshold, STR.isWordCountBelowThreshold, ht,
    splitWhitespaceRuns, List.length_singleton, ge_ofNat_ofNat, le_ofNat_ofNat]
  decide

/-- C24, at a concrete input: the string of two spaces. -/
theorem wordCount_blank_witness :
    hasNonWhitespace (lit "  ") = false ∧
    (STR.isWordCountAboveThreshold (lit "  ") (.ofNat 1) = true ∧
      STR.isWordCountAboveThreshold (lit "  ") (.ofNat 2) = false ∧
      STR.isWordCountBelowThreshold (lit "  ") (.ofNat 1) = true ∧
      STR.isWordCountBelowThreshold (lit "  ") (.ofNat 0) = false) :=
  ⟨by decide, wordCount_blank (lit "  ") (by decide)⟩

/-- C25, at the failing input `STR.isWordCountAboveThreshold("", 1)`: the test asserts
`false`, the code splits the empty string into the one word `""` and returns `true`. -/
theorem isWordCountAboveThreshold_empty_one :
    splitWhitespaceRuns false (trim (lit "")) = [[]] ∧
    STR.isWordCountAboveThreshold (lit "") (.ofNat 1) = true := by
  decide

/-- C26. With the limit `0` every non-empty string has excessive repetition, and the empty
string has none whatever the limit is. -/
theorem hasExcessiveRepetitiveChars_zero_and_empty (s : JSString) (hs : s ≠ []) :
    STR.hasExcessiveRepetitiveChars s (.ofNat 0) = true ∧
    ∀ L, STR.hasExcessiveRepetitiveChars [] L = false := by
  refine ⟨?_, fun L => rfl⟩
  cases s with
  | nil => exact absurd rfl hs
  | cons c cs =>
    have h : JSNumber.gt (JSNumber.ofNat (STR.countRun c cs 1).1) (JSNumber.ofNat 0) = true := by
      rw [countRun_eq]
      simp only [JSNumber.gt, JSNumber.lt, JSNumber.ofNat, decide_eq_true_eq]
      push_cast
      positivity
    simp only [STR.hasExcessiveRepetitiveChars, List.length_cons, STR.scanRuns, h, if_true]

/-- C26, at a concrete input: the string `ab`. -/
theorem hasExcessiveRepetitiveChars_zero_and_empty_witness :
    lit "ab" ≠ [] ∧
    (STR.hasExcessiveRepetitiveChars (lit "ab") (.ofNat 0) = true ∧
      ∀ L, STR.hasExcessiveRepetitiveChars [] L = false) :=
  ⟨by decide, hasExcessiveRepetitiveChars_zero_and_empty (lit "ab") (by decide)⟩

/-- C27, at the failing input `validateString("a b c", {maxWordsCount: 2})`: the default
message of the maximum-words rule interpolates `maxLength`, which is absent, instead of
`maxWordsCount`. -/
theorem validateString_maxWords_message (H : Host) :
    validateString H (.string (lit "a b c")) { maxWordsCount := some (.ofNat 2) } =
      .returned
        { isValid := false,
          errorMessage := some (lit "Name must contain at most undefined words") } := by
  rw [validateString_of_no_pattern H _ _ (by decide) rfl]
  rfl

theorem splitOnP_of_all_whitespace (d : JSString) (hall : ∀ x ∈ d, isWhitespace x = true) :
    ∀ p ∈ d.splitOnP isWhitespace, p = [] := by
  induction d with
  | nil => simp
  | cons c cs ih =>
    have hc : isWhitespace c = true := hall c (List.mem_cons_self _ _)
    rw [List.splitOnP_cons]
    simp only [hc, if_true, List.mem_cons]
    rintro p (rfl | hp)
    · rfl
    · exact ih (fun x hx => hall x (List.mem_cons_of_mem _ hx)) p hp

theorem splitWhitespaceRuns_rdropWhile (d : JSString) :
    ∀ p0 ps, d.splitOnP isWhitespace = p0 :: ps → ¬ (∀ x ∈ d, isWhitespace x = true) →
      splitWhitespaceRuns false (d.rdropWhile isWhitespace) =
          p0 :: ps.filter (fun w => !w.isEmpty) ∧
      splitWhitespaceRuns true (d.rdropWhile isWhitespace) =
          (p0 :: ps).filter (fun w => !w.isEmpty) := by
  induction d with
  | nil => intro p0 ps _ h; simp at h
  | cons c cs ih =>
    intro p0 ps h hnot
    obtain ⟨q0, qs, hq⟩ : ∃ q0 qs, cs.splitOnP isWhitespace = q0 :: qs := by
      cases hsp : cs.splitOnP isWhitespace with
      | nil => exact absurd hsp (List.splitOnP_ne_nil _ _)
      | cons a l => exact ⟨a, l, rfl⟩
    rw [List.splitOnP_cons, hq] at h
    by_cases hc : isWhitespace c = true
    · have hcs : ¬ (∀ x ∈ cs, isWhitespace x = true) := by
        intro hall
        apply hnot
        intro x hx
        rcases List.mem_cons.mp hx with rfl | hx
        · exact hc
        · exact hall x hx
      have hr : (c :: cs).rdropWhile isWhitespace = c :: cs.rdropWhile isWhitespace := by
        rw [rdropWhile_cons]; simp [hcs]
      simp only [hc, if_true, List.cons.injEq] at h
      obtain ⟨rfl, rfl⟩ := h
      obtain ⟨-, i2⟩ := ih q0 qs hq hcs
      rw [hr]
      simp only [splitWhitespaceRuns, hc, if_true, i2]
      simp
    · have hr : (c :: cs).rdropWhile isWhitespace = c :: cs.rdropWhile isWhitespace := by
        rw [rdropWhile_cons]; simp [hc]
      simp only [hc, List.modifyHead_cons, List.cons.injEq] at h
      obtain ⟨rfl, rfl⟩ := h
      rw [hr]
      simp only [splitWhitespaceRuns, hc]
      by_cases hall : ∀ x ∈ cs, isWhitespace x = true
      · have h1 : cs.rdropWhile isWhitespace = [] := List.rdropWhile_eq_nil_iff.mpr hall
        have h2 := splitOnP_of_all_whitespace cs hall
        rw [hq] at h2
        have hq0 : q0 = [] := h2 q0 (List.mem_cons_self _ _)
        have hqs : ps.filter (fun w => !w.isEmpty) = [] := by
          rw [List.filter_eq_nil_iff]
          intro p hp
          rw [h2 p (List.mem_cons_of_mem _ hp)]
          simp
        subst hq0
        simp [h1, splitWhitespaceRuns, hqs]
      · obtain ⟨i1, -⟩ := ih q0 ps hq hall
        simp [i1]

theorem nonWhitespaceRuns_dropWhile (s : JSString) :
    nonWhitespaceRuns (s.dropWhile isWhitespace) = nonWhitespaceRuns s := by
  induction s with
  | nil => rfl
  | cons c cs ih =>
    by_cases hc : isWhitespace c = true
    · rw [List.dropWhile_cons, if_pos hc, ih]
      simp [nonWhitespaceRuns, List.splitOnP_cons, hc]
    · simp [List.dropWhile_cons, hc]

/-- The words `split` finds in the trimmed form of a string with a non-whitespace unit are its
maximal runs of non-whitespace units. -/
theorem splitWhitespaceRuns_trim (s : JSString) (hs : hasNonWhitespace s = true) :
    splitWhitespaceRuns false (trim s) = nonWhitespaceRuns s := by
  have hne : trim s ≠ [] := trim_ne_nil_of_hasNonWhitespace s hs
  rw [trim_eq] at hne ⊢
  have hnot : ¬ (∀ x ∈ s.dropWhile isWhitespace, isWhitespace x = true) := by
    intro hall
    exact hne (List.rdropWhile_eq_nil_iff.mpr hall)
  obtain ⟨q0, qs, hq⟩ : ∃ q0 qs, (s.dropWhile isWhitespace).splitOnP isWhitespace = q0 :: qs := by
    cases hsp : (s.dropWhile isWhitespace).splitOnP isWhitespace with
    | nil => exact absurd hsp (List.splitOnP_ne_nil _ _)
    | cons a l => exact ⟨a, l, rfl⟩
  have hq0 : q0 ≠ [] := by
    cases hd : s.dropWhile isWhitespace with
    | nil => rw [hd] at hnot; simp at hnot
    | cons a l =>
      have h3 := List.head?_dropWhile_not isWhitespace s
      rw [hd] at h3 hq
      simp only [List.head?_cons] at h3
      rw [List.splitOnP_cons] at hq
      simp only [h3, Bool.false_eq_true, if_false] at hq
      cases hl : l.splitOnP isWhitespace with
      | nil => exact absurd hl (List.splitOnP_ne_nil _ _)
      | cons b m =>
        rw [hl] at hq
        simp only [List.modifyHead_cons, List.cons.injEq] at hq
        rw [← hq.1]
        simp
  rw [(splitWhitespaceRuns_rdropWhile _ q0 qs hq hnot).1, ← nonWhitespaceRuns_dropWhile s,
    nonWhitespaceRuns, hq, List.filter_cons]
  cases q0 with
  | nil => exact absurd rfl hq0
  | cons a l => simp

/-- C23. For a string `s` with a non-whitespace unit, whose number of maximal runs of
non-whitespace units is `k`, and an integer `n`: `STR.isWordCountAboveThreshold(s, n)` is true
exactly when `k >= n`, and `STR.isWordCountBelowThreshold(s, n)` exactly when `k <= n`. -/
theorem wordCount_thresholds (s : JSString) (n : Int) (hs : hasNonWhitespace s = true) :
    (STR.isWordCountAboveThreshold s (.finite n) = true ↔
      n ≤ ((nonWhitespaceRuns s).length : Int)) ∧
    (STR.isWordCountBelowThreshold s (.finite n) = true ↔
      ((nonWhitespaceRuns s).length : Int) ≤ n) := by
  simp only [STR.isWordCountAboveThreshold, STR.isWordCountBelowThreshold,
    splitWhitespaceRuns_trim s hs, JSNumber.ge, JSNumber.le, JSNumber.ofNat,
    decide_eq_true_eq]
  constructor
  · rw [← Int.cast_natCast, Int.cast_le]
  · rw [← Int.cast_natCast, Int.cast_le]

/-- C23, at a concrete input: `" Hello   World "` has two words. -/
theorem wordCount_thresholds_witness :
    hasNonWhitespace (lit " Hello   World ") = true ∧
    (nonWhitespaceRuns (lit " Hello   World ")).length = 2 ∧
    ((STR.isWordCountAboveThreshold (lit " Hello   World ") (.finite (2 : Int)) = true ↔
      (2 : Int) ≤ ((nonWhitespaceRuns (lit " Hello   World ")).length : Int)) ∧
    (STR.isWordCountBelowThreshold (lit " Hello   World ") (.finite (2 : Int)) = true ↔
      ((nonWhitespaceRuns (lit " Hello   World ")).length : Int) ≤ (2 : Int))) :=
  ⟨by decide, by decide, wordCount_thresholds (lit " Hello   World ") 2 (by decide)⟩

/-! ## `validateNumber` -/

theorem map_numberOptionPresence (o : NumberValidatorOptions) :
    (numberOptionPresence o).map (fun e => lit e.1) = numberValidOptionKeys := rfl

/-- The keys the key check of `validateNumber` rejects are among the keys that are not
destructured. -/
theorem invalidNumberOptions_eq (o : NumberValidatorOptions) :
    (numberOwnKeys o).filter (fun key => !inNumberValidOptions key) =
      o.otherKeys.filter (fun key => !inNumberValidOptions key) := by
  have h : (((numberOptionPresence o).filter (fun e => e.2)).map (fun e => lit e.1)).filter
      (fun key => !inNumberValidOptions key) = [] := by
    rw [List.filter_eq_nil_iff]
    intro k hk
    obtain ⟨e, he, rfl⟩ := List.mem_map.mp hk
    have hm : lit e.1 ∈ numberValidOptionKeys := by
      rw [← map_numberOptionPresence o]
      exact List.mem_map_of_mem (fun e => lit e.1) (List.mem_of_mem_filter he)
    simp [inNumberValidOptions, hm]
  rw [numberOwnKeys, List.filter_append, h, List.nil_append]

/-- A number whose options pass the key check goes through the rule pipeline. -/
theorem validateNumber_of_keys (v : JSNumber) (o : NumberValidatorOptions)
    (hk : (numberOwnKeys o).filter (fun key => !inNumberValidOptions key) = []) :
    validateNumber (.number v) o =
      .returned (firstNumberFailure (numberValidationRules o v) v) := by
  simp only [validateNumber, hk, List.length_nil, Nat.lt_irrefl, if_false]

/-- The array `validationRules` of `validateNumber`: the required rule, whose condition never
holds for a number, followed by the rules in the order of the specification. -/
theorem numberValidationRules_eq (o : NumberValidatorOptions) (v : JSNumber) :
    numberValidationRules o v =
      ⟨false, orDefault o.requiredError (lit "Number is required")⟩ ::
        numberRuleOrder.map (fun rule => ⟨numberRuleHolds o v rule, numberRuleMessage o rule⟩) := by
  simp only [numberValidationRules, numberRuleOrder, List.map_cons, List.map_nil,
    numberRuleHolds, numberRuleMessage, NUM.isNumberRequired, NUM.isMinValue, NUM.isMaxValue,
    NUM.isInteger, NUM.allowNegative, NUM.allowZero, NUM.allowPositive, Option.getD_some]
  have h1 : (match o.isRequired with
      | some isRequired => isRequired && !if isRequired = true then (some v).isSome else true
      | none => false) = false := by
    rcases o.isRequired with _ | _ | _ <;> rfl
  have h2 : (match o.isInteger with
      | some isInteger => isInteger && !if isInteger = true then v.isInteger else !v.isInteger
      | none => false) = (decide (o.isInteger = some true) && !v.isInteger) := by
    rcases o.isInteger with _ | _ | _ <;> simp
  have h3 : ∀ (f : Option Bool) (x : Bool),
      (!if f.getD true = true then true else x) = (decide (f = some false) && !x) := by
    intro f x
    rcases f with _ | _ | _ <;> simp
  rw [h1, h2, h3, h3, h3]

theorem firstNumberFailure_cons_false (m : JSString) (rest : List Rule) (v : JSNumber) :
    firstNumberFailure (⟨false, m⟩ :: rest) v = firstNumberFailure rest v := rfl

theorem firstNumberFailure_map (o : NumberValidatorOptions) (v : JSNumber) :
    firstNumberFailure
        (numberRuleOrder.map (fun rule => ⟨numberRuleHolds o v rule, numberRuleMessage o rule⟩))
        v =
      match numberRuleOrder.find? (numberRuleHolds o v) with
      | some rule => { isValid := false, errorMessage := some (numberRuleMessage o rule) }
      | none => { isValid := true, returnedNumber := some v } := by
  simp only [firstNumberFailure, List.find?_map]
  cases h : List.find? ((fun rule : Rule => rule.condition) ∘
      fun rule => ⟨numberRuleHolds o v rule, numberRuleMessage o rule⟩) numberRuleOrder with
  | none =>
    have : List.find? (numberRuleHolds o v) numberRuleOrder = none := h
    simp [this]
  | some rule =>
    have : List.find? (numberRuleHolds o v) numberRuleOrder = some rule := h
    simp [this]

/-- The result of the number pipeline: the failure of the first rule, in the order of the
specification, whose condition holds, and success with the value when there is none. -/
theorem validateNumber_eq_first_rule (v : JSNumber) (o : NumberValidatorOptions)
    (hkeys : o.otherKeys = []) :
    validateNumber (.number v) o =
      .returned
        (match numberRuleOrder.find? (numberRuleHolds o v) with
        | some rule => { isValid := false, errorMessage := some (numberRuleMessage o rule) }
        | none => { isValid := true, returnedNumber := some v }) := by
  have hk : (numberOwnKeys o).filter (fun key => !inNumberValidOptions key) = [] := by
    rw [invalidNumberOptions_eq, hkeys]; rfl
  rw [validateNumber_of_keys v o hk, numberValidationRules_eq, firstNumberFailure_cons_false,
    firstNumberFailure_map]

/-- C30. For a number and options with only recognized keys, `validateNumber` returns a
record, and when that record is a failure its message is the message of the earliest rule, in
the order minimum value, maximum value, integer policy, negative policy, zero policy, positive
policy, whose condition holds. -/
theorem validateNumber_reports_earliest_rule (v : JSNumber) (o : NumberValidatorOptions)
    (hkeys : o.otherKeys = []) :
    ∃ r, validateNumber (.number v) o = .returned r ∧
      (r.isValid = false →
        ∃ earlier rule later, numberRuleOrder = earlier ++ rule :: later ∧
          numberRuleHolds o v rule = true ∧
          (∀ e ∈ earlier, numberRuleHolds o v e = false) ∧
          r.errorMessage = some (numberRuleMessage o rule)) := by
  rw [validateNumber_eq_first_rule v o hkeys]
  refine ⟨_, rfl, ?_⟩
  cases hf : numberRuleOrder.find? (numberRuleHolds o v) with
  | none => simp
  | some rule =>
    intro _
    obtain ⟨hrule, earlier, later, hsplit, hearlier⟩ := List.find?_eq_some.mp hf
    refine ⟨earlier, rule, later, hsplit, hrule, ?_, rfl⟩
    intro e he
    simpa using hearlier e he

/-- C30, at a concrete input: `-2.5` is below `minValue: 0`, is not an integer while
`isInteger` is true, and is negative while `allowNegative` is false; the minimum-value rule
comes first and is the one reported. -/
theorem validateNumber_reports_earliest_rule_witness :
    (NumberValidatorOptions.otherKeys
        { minValue := some (.ofNat 0), isInteger := some true, allowNegative := some false } =
        [] ∧
      validateNumber (.number minusTwoAndAHalf)
          { minValue := some (.ofNat 0), isInteger := some true, allowNegative := some false } =
        .returned
          ⟨false, some (lit "Number should not be less than the minimum value"), none⟩ ∧
      numberRuleHolds
          { minValue := some (.ofNat 0), isInteger := some true, allowNegative := some false }
          minusTwoAndAHalf .integerPolicy = true ∧
      numberRuleHolds
          { minValue := some (.ofNat 0), isInteger := some true, allowNegative := some false }
          minusTwoAndAHalf .negativePolicy = true) ∧
    ∃ r, validateNumber (.number minusTwoAndAHalf)
        { minValue := some (.ofNat 0), isInteger := some true, allowNegative := some false } =
        .returned r ∧
      (r.isValid = false →
        ∃ earlier rule later, numberRuleOrder = earlier ++ rule :: later ∧
          numberRuleHolds
            { minValue := some (.ofNat 0), isInteger := some true, allowNegative := some false }
            minusTwoAndAHalf rule = true ∧
          (∀ e ∈ earlier,
            numberRuleHolds
              { minValue := some (.ofNat 0), isInteger := some true,
                allowNegative := some false }
              minusTwoAndAHalf e = false) ∧
          r.errorMessage = some
            (numberRuleMessage
              { minValue := some (.ofNat 0), isInteger := some true,
                allowNegative := some false }
              rule)) :=
  ⟨⟨rfl, by decide, by decide, by decide⟩,
    validateNumber_reports_earliest_rule minusTwoAndAHalf
      { minValue := some (.ofNat 0), isInteger := some true, allowNegative := some false } rfl⟩

theorem not_ge_zero (v : JSNumber) (hv : v ≠ .nan) :
    (!JSNumber.ge v (.ofNat 0)) = JSNumber.lt v (.ofNat 0) := by
  cases v with
  | finite q =>
    simp only [JSNumber.ge, JSNumber.le, JSNumber.lt, JSNumber.ofNat]
    by_cases h : q < 0
    · have : ¬ ((0 : ℕ) : ℚ) ≤ q := by push_cast; exact not_le.mpr h
      simp [h]
    · have : ((0 : ℕ) : ℚ) ≤ q := by push_cast; exact not_lt.mp h
      simp [h, not_lt.mp h]
  | posInf => rfl
  | negInf => rfl
  | nan => exact absurd rfl hv

theorem not_le_zero (v : JSNumber) (hv : v ≠ .nan) :
    (!JSNumber.le v (.ofNat 0)) = JSNumber.gt v (.ofNat 0) := by
  cases v with
  | finite q =>
    simp only [JSNumber.gt, JSNumber.le, JSNumber.lt, JSNumber.ofNat]
    by_cases h : 0 < q
    · simp [h]
    · simp [h, not_lt.mp h]
  | posInf => rfl
  | negInf => rfl
  | nan => exact absurd rfl hv

theorem not_strictNe_zero (v : JSNumber) (hv : v ≠ .nan) :
    (!JSNumber.strictNe v (.ofNat 0)) = decide (v = .ofNat 0) := by
  cases v with
  | finite q => simp [JSNumber.strictNe, JSNumber.ofNat]
  | posInf => simp [JSNumber.strictNe, JSNumber.ofNat]
  | negInf => simp [JSNumber.strictNe, JSNumber.ofNat]
  | nan => exact absurd rfl hv

/-- C28 fails for `NaN`, which is a number: `validateNumber(NaN, {allowNegative: false})`
fails with the negative message although `NaN < 0` is false. -/
theorem validateNumber_nan_allowNegative_false :
    JSNumber.lt .nan (.ofNat 0) = false ∧
    validateNumber (.number .nan) { allowNegative := some false } =
      .returned
        { isValid := false, errorMessage := some (lit "Negative numbers are not allowed") } := by
  decide

/-- C28, amended. For a number `v` other than `NaN` and flags `allowNegative`, `allowZero`,
`allowPositive` (each defaulting to true) with no other option, `validateNumber` fails exactly
when `v < 0` and `allowNegative` is false, or `v = 0` and `allowZero` is false, or `v > 0` and
`allowPositive` is false, with the default negative, zero or positive message respectively. -/
theorem validateNumber_sign_flags (v : JSNumber) (allowNegative allowZero allowPositive :
    Option Bool) (hv : v ≠ .nan) :
    validateNumber (.number v)
        { allowNegative := allowNegative, allowZero := allowZero,
          allowPositive := allowPositive } =
      if (JSNumber.lt v (.ofNat 0) && !allowNegative.getD true) = true then
        .returned
          { isValid := false, errorMessage := some (lit "Negative numbers are not allowed") }
      else if (decide (v = .ofNat 0) && !allowZero.getD true) = true then
        .returned { isValid := false, errorMessage := some (lit "Zero is not allowed") }
      else if (JSNumber.gt v (.ofNat 0) && !allowPositive.getD true) = true then
        .returned
          { isValid := false, errorMessage := some (lit "Positive numbers are not allowed") }
      else .returned { isValid := true, returnedNumber := some v } := by
  rw [validateNumber_eq_first_rule v _ rfl]
  simp only [numberRuleOrder, List.find?, numberRuleHolds, not_ge_zero v hv, not_le_zero v hv,
    not_strictNe_zero v hv, numberRuleMessage, orDefault]
  rcases allowNegative with _ | _ | _ <;> rcases allowZero with _ | _ | _ <;>
    rcases allowPositive with _ | _ | _ <;>
    cases JSNumber.lt v (.ofNat 0) <;> cases decide (v = .ofNat 0) <;>
    cases JSNumber.gt v (.ofNat 0) <;> simp

/-- C28, amended, at a concrete input: `-5` with `allowNegative: false`. -/
theorem validateNumber_sign_flags_witness :
    JSNumber.finite (-5) ≠ .nan ∧
    validateNumber (.number (.finite (-5))) { allowNegative := some false } =
      .returned
        { isValid := false, errorMessage := some (lit "Negative numbers are not allowed") } ∧
    validateNumber (.number (.finite (-5)))
        { allowNegative := some false, allowZero := none, allowPositive := none } =
      (if (JSNumber.lt (.finite (-5)) (.ofNat 0) && !(some false).getD true) = true then
        .returned
          { isValid := false, errorMessage := some (lit "Negative numbers are not allowed") }
      else if (decide (JSNumber.finite (-5) = .ofNat 0) && !(none : Option Bool).getD true) =
          true then
        .returned { isValid := false, errorMessage := some (lit "Zero is not allowed") }
      else if (JSNumber.gt (.finite (-5)) (.ofNat 0) && !(none : Option Bool).getD true) =
          true then
        .returned
          { isValid := false, errorMessage := some (lit "Positive numbers are not allowed") }
      else .returned { isValid := true, returnedNumber := some (.finite (-5)) }) :=
  ⟨by decide, by decide,
    validateNumber_sign_flags (.finite (-5)) (some false) none none (by decide)⟩

theorem isInteger_iff (v : JSNumber) :
    v.isInteger = true ↔ ∃ z : Int, v = .finite (z : ℚ) := by
  cases v with
  | finite q =>
    simp only [JSNumber.isInteger, decide_eq_true_eq, JSNumber.finite.injEq]
    constructor
    · intro h
      exact ⟨q.num, (Rat.coe_int_num_of_den_eq_one h).symm⟩
    · rintro ⟨z, rfl⟩
      rfl
  | posInf => simp [JSNumber.isInteger]
  | negInf => simp [JSNumber.isInteger]
  | nan => simp [JSNumber.isInteger]

/-- C29. `validateNumber(v, {minValue: a, maxValue: b, isInteger: true})` returns a record,
and it returns `{isValid: true, returnedNumber: v}` exactly when `v` is an integer and
`a <= v <= b`; so it does at `v = 42`, `a = 0`, `b = 100`. -/
theorem validateNumber_bounded_integer (v a b : JSNumber) :
    (∃ r, validateNumber (.number v)
        { minValue := some a, maxValue := some b, isInteger := some true } = .returned r) ∧
    (validateNumber (.number v)
        { minValue := some a, maxValue := some b, isInteger := some true } =
        .returned { isValid := true, returnedNumber := some v } ↔
      (∃ z : Int, v = .finite (z : ℚ)) ∧ JSNumber.le a v = true ∧ JSNumber.le v b = true) ∧
    validateNumber (.number (.ofNat 42))
        { minValue := some (.ofNat 0), maxValue := some (.ofNat 100), isInteger := some true } =
      .returned { isValid := true, returnedNumber := some (.ofNat 42) } := by
  refine ⟨?_, ?_, by decide⟩
  · rw [validateNumber_eq_first_rule v _ rfl]
    exact ⟨_, rfl⟩
  · rw [validateNumber_eq_first_rule v _ rfl, ← isInteger_iff]
    simp only [numberRuleOrder, List.find?, numberRuleHolds, JSNumber.ge]
    cases JSNumber.le a v <;> cases JSNumber.le v b <;> cases v.isInteger <;> simp

/-! ## `validateNumber`: results, errors and bounds -/

/-- A number call that returns went through the rule pipeline. -/
theorem validateNumber_returned_eq (v : JSNumber) (o : NumberValidatorOptions)
    (r : NumberValidationResult) (hr : validateNumber (.number v) o = .returned r) :
    r = (match numberRuleOrder.find? (numberRuleHolds o v) with
        | some rule => { isValid := false, errorMessage := some (numberRuleMessage o rule) }
        | none => { isValid := true, returnedNumber := some v }) := by
  by_cases hk : (numberOwnKeys o).filter (fun key => !inNumberValidOptions key) = []
  · rw [validateNumber_of_keys v o hk, numberValidationRules_eq, firstNumberFailure_cons_false,
      firstNumberFailure_map] at hr
    simp only [Outcome.returned.injEq] at hr
    exact hr.symm
  · have hpos : 0 < ((numberOwnKeys o).filter (fun key => !inNumberValidOptions key)).length :=
      List.length_pos.mpr hk
    simp only [validateNumber] at hr
    rw [if_pos (by simpa using hpos)] at hr
    cases hr

/-- What the code does: `validateNumber` raises exactly when the value is a number and the key
check rejects a key (one that is neither a key of `validOptions` nor inherited from
`Object.prototype`). -/
theorem validateNumber_raises_iff (value : JSValue) (o : NumberValidatorOptions) :
    (∃ e, validateNumber value o = .raised e) ↔
      (∃ v, value = .number v) ∧ ∃ k ∈ numberOwnKeys o, inNumberValidOptions k = false := by
  cases value with
  | number n =>
    by_cases hk : (numberOwnKeys o).filter (fun key => !inNumberValidOptions key) = []
    · rw [validateNumber_of_keys n o hk]
      constructor
      · rintro ⟨e, he⟩; cases he
      · rintro ⟨-, k, hk1, hk2⟩
        have : k ∈ (numberOwnKeys o).filter (fun key => !inNumberValidOptions key) :=
          List.mem_filter.mpr ⟨hk1, by simp [hk2]⟩
        rw [hk] at this
        cases this
    · have hpos :
          0 < ((numberOwnKeys o).filter (fun key => !inNumberValidOptions key)).length :=
        List.length_pos.mpr hk
      constructor
      · intro _
        obtain ⟨k, hk1⟩ := List.exists_mem_of_ne_nil _ hk
        rw [List.mem_filter] at hk1
        exact ⟨⟨n, rfl⟩, k, hk1.1, by simpa using hk1.2⟩
      · intro _
        simp only [validateNumber]
        rw [if_pos (by simpa using hpos)]
        exact ⟨_, rfl⟩
  | undefined => simp [validateNumber]
  | null => simp [validateNumber]
  | bool b => simp [validateNumber]
  | string s => simp [validateNumber]
  | object => simp [validateNumber]

/-- C31. With no options `validateNumber(v)` returns `{isValid: true, returnedNumber: v}` for
every number `v`, and whenever `validateNumber` succeeds, under any options, the input is a
number and `returnedNumber` is that number. -/
theorem validateNumber_returns_input (value : JSValue) (o : NumberValidatorOptions) :
    (∀ v, validateNumber (.number v) {} =
      .returned { isValid := true, returnedNumber := some v }) ∧
    (∀ r, validateNumber value o = .returned r → r.isValid = true →
      ∃ v, value = .number v ∧ r.returnedNumber = some v) := by
  constructor
  · intro v
    rw [validateNumber_eq_first_rule v _ rfl]
    rfl
  · intro r hr hvalid
    cases value with
    | number n =>
      refine ⟨n, rfl, ?_⟩
      have h := validateNumber_returned_eq n o r hr
      cases hf : numberRuleOrder.find? (numberRuleHolds o n) with
      | none => rw [hf] at h; rw [h]
      | some rule => rw [hf] at h; rw [h] at hvalid; simp at hvalid
    | undefined =>
      simp only [validateNumber, Outcome.returned.injEq] at hr; rw [← hr] at hvalid
      simp at hvalid
    | null =>
      simp only [validateNumber, Outcome.returned.injEq] at hr; rw [← hr] at hvalid
      simp at hvalid
    | bool b =>
      simp only [validateNumber, Outcome.returned.injEq] at hr; rw [← hr] at hvalid
      simp at hvalid
    | string s =>
      simp only [validateNumber, Outcome.returned.injEq] at hr; rw [← hr] at hvalid
      simp at hvalid
    | object =>
      simp only [validateNumber, Outcome.returned.injEq] at hr; rw [← hr] at hvalid
      simp at hvalid

/-- C32, at the failing input `validateNumber(5, {toString: 1})`: the key `toString` is not a
recognized option, yet `"toString" in validOptions` is true through `Object.prototype`, so no
error is raised and the call returns a success. -/
theorem validateNumber_inherited_key_not_rejected :
    lit "toString" ∉ numberValidOptionKeys ∧
    validateNumber (.number (.ofNat 5)) { otherKeys := [lit "toString"] } =
      .returned { isValid := true, returnedNumber := some (.ofNat 5) } := by
  decide

/-- C34, at the failing inputs `validateNumber(5, {onlyDecimal: ...})` and the seven other keys
that only the published type declares: each is rejected as an invalid option. -/
theorem validateNumber_declared_key_raises :
    declaredOnlyNumberKeys.map
        (fun k => validateNumber (.number (.ofNat 5)) { otherKeys := [k] }) =
      declaredOnlyNumberKeys.map
        (fun k => .raised (.error (invalidNumberOptionsMessage [k]))) ∧
    validateNumber (.number (.ofNat 5)) { otherKeys := [lit "onlyDecimal"] } =
      .raised (.error (invalidNumberOptionsMessage [lit "onlyDecimal"])) := by
  constructor <;> rfl

/-- Away from `NaN` the negation of `a <= b` is `b < a`. -/
theorem not_le_eq_lt (a b : JSNumber) (ha : a ≠ .nan) (hb : b ≠ .nan) :
    (!JSNumber.le a b) = JSNumber.lt b a := by
  cases a with
  | finite p =>
    cases b with
    | finite q =>
      simp only [JSNumber.le, JSNumber.lt]
      by_cases h : q < p
      · simp [h]
      · simp [h, not_lt.mp h]
    | posInf => rfl
    | negInf => rfl
    | nan => exact absurd rfl hb
  | posInf =>
    cases b with
    | finite q => rfl
    | posInf => rfl
    | negInf => rfl
    | nan => exact absurd rfl hb
  | negInf =>
    cases b with
    | finite q => rfl
    | posInf => rfl
    | negInf => rfl
    | nan => exact absurd rfl hb
  | nan => exact absurd rfl ha

theorem lt_irrefl_number (a : JSNumber) : JSNumber.lt a a = false := by
  cases a <;> simp [JSNumber.lt]

/-- C33, counterexample: `validateNumber(NaN, {minValue: 0})` fails with the minimum-value
message although `NaN < 0` is false, and `validateNumber(5, {minValue: NaN})` fails with it
although `5 < NaN` is false; the same holds for `maxValue`. -/
theorem validateNumber_nan_bound_fails :
    (validateNumber (.number .nan) { minValue := some (.ofNat 0) } =
        .returned
          ⟨false, some (lit "Number should not be less than the minimum value"), none⟩ ∧
      JSNumber.lt .nan (.ofNat 0) = false) ∧
    (validateNumber (.number (.ofNat 5)) { minValue := some .nan } =
        .returned
          ⟨false, some (lit "Number should not be less than the minimum value"), none⟩ ∧
      JSNumber.lt (.ofNat 5) .nan = false) ∧
    (validateNumber (.number .nan) { maxValue := some (.ofNat 0) } =
        .returned ⟨false, some (lit "Number should not exceed the maximum value"), none⟩ ∧
      JSNumber.gt .nan (.ofNat 0) = false) ∧
    (validateNumber (.number (.ofNat 5)) { maxValue := some .nan } =
        .returned ⟨false, some (lit "Number should not exceed the maximum value"), none⟩ ∧
      JSNumber.gt (.ofNat 5) .nan = false) := by
  decide

/-- C33, amended. For all numbers `v` and `m` other than `NaN` (including `m = 0`),
`validateNumber(v, {minValue: m})` fails with "Number should not be less than the minimum
value" if `v < m` and succeeds with `v` otherwise, `validateNumber(v, {maxValue: m})` fails with
"Number should not exceed the maximum value" if `v > m` and succeeds with `v` otherwise; a value
equal to the bound passes. -/
theorem validateNumber_bounds (v m : JSNumber) (hv : v ≠ .nan) (hm : m ≠ .nan) :
    validateNumber (.number v) { minValue := some m } =
      .returned
        (if JSNumber.lt v m then
          ⟨false, some (lit "Number should not be less than the minimum value"), none⟩
        else ⟨true, none, some v⟩) ∧
    validateNumber (.number v) { maxValue := some m } =
      .returned
        (if JSNumber.gt v m then
          ⟨false, some (lit "Number should not exceed the maximum value"), none⟩
        else ⟨true, none, some v⟩) ∧
    validateNumber (.number m) { minValue := some m } = .returned ⟨true, none, some m⟩ ∧
    validateNumber (.number m) { maxValue := some m } = .returned ⟨true, none, some m⟩ := by
  have hmin : ∀ a b : JSNumber, a ≠ .nan → b ≠ .nan →
      validateNumber (.number a) { minValue := some b } =
        .returned
          (if JSNumber.lt a b then
            ⟨false, some (lit "Number should not be less than the minimum value"), none⟩
          else ⟨true, none, some a⟩) := by
    intro a b ha hb
    rw [validateNumber_eq_first_rule a _ rfl]
    simp only [numberRuleOrder, List.find?, numberRuleHolds, JSNumber.ge, not_le_eq_lt b a hb ha]
    cases JSNumber.lt a b <;> rfl
  have hmax : ∀ a b : JSNumber, a ≠ .nan → b ≠ .nan →
      validateNumber (.number a) { maxValue := some b } =
        .returned
          (if JSNumber.gt a b then
            ⟨false, some (lit "Number should not exceed the maximum value"), none⟩
          else ⟨true, none, some a⟩) := by
    intro a b ha hb
    rw [validateNumber_eq_first_rule a _ rfl]
    simp only [numberRuleOrder, List.find?, numberRuleHolds, JSNumber.gt,
      not_le_eq_lt a b ha hb]
    rcases Bool.eq_false_or_eq_true (JSNumber.lt b a) with h | h <;> simp only [h] <;> rfl
  refine ⟨hmin v m hv hm, hmax v m hv hm, ?_, ?_⟩
  · rw [hmin m m hm hm, lt_irrefl_number]; rfl
  · rw [hmax m m hm hm, JSNumber.gt, lt_irrefl_number]; rfl

/-- C33, amended, at a concrete input: `3` against the bound `5`. -/
theorem validateNumber_bounds_witness :
    JSNumber.ofNat 3 ≠ .nan ∧ JSNumber.ofNat 5 ≠ .nan ∧
    validateNumber (.number (.ofNat 3)) { minValue := some (.ofNat 5) } =
      .returned ⟨false, some (lit "Number should not be less than the minimum value"), none⟩ ∧
    validateNumber (.number (.ofNat 3)) { maxValue := some (.ofNat 5) } =
      .returned ⟨true, none, some (.ofNat 3)⟩ ∧
    (validateNumber (.number (.ofNat 3)) { minValue := some (.ofNat 5) } =
      .returned
        (if JSNumber.lt (.ofNat 3) (.ofNat 5) then
          ⟨false, some (lit "Number should not be less than the minimum value"), none⟩
        else ⟨true, none, some (.ofNat 3)⟩) ∧
    validateNumber (.number (.ofNat 3)) { maxValue := some (.ofNat 5) } =
      .returned
        (if JSNumber.gt (.ofNat 3) (.ofNat 5) then
          ⟨false, some (lit "Number should not exceed the maximum value"), none⟩
        else ⟨true, none, some (.ofNat 3)⟩) ∧
    validateNumber (.number (.ofNat 5)) { minValue := some (.ofNat 5) } =
      .returned ⟨true, none, some (.ofNat 5)⟩ ∧
    validateNumber (.number (.ofNat 5)) { maxValue := some (.ofNat 5) } =
      .returned ⟨true, none, some (.ofNat 5)⟩) :=
  ⟨by decide, by decide, by decide, by decide,
    validateNumber_bounds (.ofNat 3) (.ofNat 5) (by decide) (by decide)⟩

/-- C37. The required rule of `validateNumber` is unreachable: in the rule array of every
number its condition is false, a number always meets `isNumberRequired`, and every failure
that `validateNumber` returns is the type failure of a value that is not a number or the
failure of one of the six later rules, whose condition holds. -/
theorem validateNumber_required_rule_unreachable (value : JSValue)
    (o : NumberValidatorOptions) :
    (∀ v, ∃ rest, numberValidationRules o v =
      ⟨false, orDefault o.requiredError (lit "Number is required")⟩ :: rest) ∧
    (∀ v flag, NUM.isNumberRequired (some v) flag = true) ∧
    (∀ r, validateNumber value o = .returned r → r.isValid = false →
      (NUM.isNumber value = false ∧ r.errorMessage = some (lit "Value must be a number.")) ∨
      ∃ v rule, value = .number v ∧ numberRuleHolds o v rule = true ∧
        r.errorMessage = some (numberRuleMessage o rule)) := by
  refine ⟨fun v => ⟨_, numberValidationRules_eq o v⟩, ?_, ?_⟩
  · intro v flag
    cases flag <;> rfl
  · intro r hr hfail
    cases value with
    | number n =>
      right
      have h := validateNumber_returned_eq n o r hr
      cases hf : numberRuleOrder.find? (numberRuleHolds o n) with
      | none => rw [hf] at h; rw [h] at hfail; simp at hfail
      | some rule =>
        rw [hf] at h
        exact ⟨n, rule, rfl, List.find?_some hf, by rw [h]⟩
    | undefined =>
      simp only [validateNumber, Outcome.returned.injEq] at hr
      exact Or.inl ⟨rfl, by rw [← hr]⟩
    | null =>
      simp only [validateNumber, Outcome.returned.injEq] at hr
      exact Or.inl ⟨rfl, by rw [← hr]⟩
    | bool b =>
      simp only [validateNumber, Outcome.returned.injEq] at hr
      exact Or.inl ⟨rfl, by rw [← hr]⟩
    | string s =>
      simp only [validateNumber, Outcome.returned.injEq] at hr
      exact Or.inl ⟨rfl, by rw [← hr]⟩
    | object =>
      simp only [validateNumber, Outcome.returned.injEq] at hr
      exact Or.inl ⟨rfl, by rw [← hr]⟩

/-- C38. Setting `isInteger` to false enforces nothing: for every value and every options
record, `validateNumber` with `isInteger: false` returns what it returns with `isInteger`
omitted, and under `{isInteger: false}` alone every integer is accepted. -/
theorem validateNumber_isInteger_false (value : JSValue) (o : NumberValidatorOptions) :
    validateNumber value { o with isInteger := some false } =
      validateNumber value { o with isInteger := none } ∧
    ∀ z : Int, validateNumber (.number (.finite (z : ℚ))) { isInteger := some false } =
      .returned { isValid := true, returnedNumber := some (.finite (z : ℚ)) } := by
  constructor
  · cases value with
    | number n =>
      have hrules : numberValidationRules { o with isInteger := some false } n =
          numberValidationRules { o with isInteger := none } n := rfl
      simp only [validateNumber, invalidNumberOptions_eq, hrules]
    | undefined => rfl
    | null => rfl
    | bool b => rfl
    | string s => rfl
    | object => rfl
  · intro z
    rw [validateNumber_eq_first_rule _ _ rfl]
    rfl

/-! ## Empty entries, spaces in the output and the repetition limit -/

/-- What the code does: `find(...) || null` is `null` when no entry passes the test and also
when the first entry that passes it is the empty string. -/
theorem containsDisallowedChar_eq_none_iff (value : JSString) (A : List JSString) :
    STR.containsDisallowedChar value A = none ↔
      ∀ a, A.find? (fun char => includes value char) = some a → a = [] := by
  simp only [STR.containsDisallowedChar]
  cases h : A.find? (fun char => includes value char) with
  | none => simp [STR.orNull]
  | some a =>
    cases a with
    | nil => simp [STR.orNull]
    | cons c cs => simp [STR.orNull]

/-- C35, at the failing input `STR.containsDisallowedChar("a!", ["", "!"])`: the entry `"!"`
occurs in the value, yet the result is `null`, because `find` returns the empty string, which
occurs in every value, and `|| null` turns that falsy result into `null`. -/
theorem containsDisallowedChar_empty_entry_masks :
    STR.containsDisallowedChar (lit "a!") [[], lit "!"] = none ∧
    lit "!" ∈ [[], lit "!"] ∧ lit "!" <:+: lit "a!" ∧
    includes (lit "a!") (lit "!") = true := by
  decide

/-- A string without whitespace is left as it is by `replace(/\s+/g, ...)`. -/
theorem replaceWhitespaceRuns_of_no_whitespace (replacement : JSString) :
    ∀ (t before : JSString), (∀ c ∈ t, isWhitespace c = false) →
      replaceWhitespaceRuns replacement before false t = t := by
  intro t
  induction t with
  | nil => intro before _; rfl
  | cons c cs ih =>
    intro before h
    have hc : isWhitespace c = false := h c (List.mem_cons_self _ _)
    rw [replaceWhitespaceRuns]
    simp only [hc, Bool.false_eq_true, if_false]
    rw [ih (before ++ [c]) (fun x hx => h x (List.mem_cons_of_mem _ hx))]

theorem not_mem_of_includes_eq_false (t : JSString) (c : Nat)
    (h : includes t [c] = false) : c ∉ t := by
  intro hc
  obtain ⟨a, b, rfl⟩ := List.append_of_mem hc
  have : includes (a ++ c :: b) [c] = true :=
    (includes_iff _ _).mpr ⟨a, b, by simp⟩
  rw [h] at this
  cases this

/-- C36, counterexample: `validateString("a\tb", {allowSpaces: false})` succeeds, since the
input has no space character, and its `validatedInput` is `"a b"`, which has one. -/
theorem validateString_tab_becomes_space :
    validateString sampleHost (.string (lit "a\tb")) { allowSpaces := some false } =
      .returned { isValid := true, validatedInput := some (lit "a b") } ∧
    32 ∉ lit "a\tb" ∧ 32 ∈ lit "a b" := by
  decide

/-- C36, amended. For every string input whose trimmed form contains no whitespace other than
the space character, if `validateString` succeeds with `allowSpaces` set to false and the
default `wordSeparator`, then the returned `validatedInput` contains no space character. -/
theorem validateString_no_space_in_output (H : Host) (s : JSString)
    (o : StringValidatorOptions) (r : StringValidationResult)
    (hspaces : o.allowSpaces = some false) (hsep : o.wordSeparator = none)
    (hws : ∀ c ∈ trim s, isWhitespace c = true → c = 32)
    (hr : validateString H (.string s) o = .returned r) (hvalid : r.isValid = true) :
    ∃ out, r.validatedInput = some out ∧ 32 ∉ out := by
  have h := validateString_returned_eq H s o r hr
  cases hf : ruleOrder.find? (ruleHolds H o (trim s)) with
  | some rule => rw [hf] at h; rw [h] at hvalid; simp at hvalid
  | none =>
    rw [hf] at h
    have hrule : ruleHolds H o (trim s) .spacePolicy = false := by
      have := List.find?_eq_none.mp hf .spacePolicy (by decide)
      simpa using this
    have hinc : includes (trim s) [32] = false := by
      simpa [ruleHolds, hspaces, STR.isSpacesAllowed] using hrule
    have h32 : 32 ∉ trim s := not_mem_of_includes_eq_false _ _ hinc
    have hno : ∀ c ∈ trim s, isWhitespace c = false := by
      intro c hc
      cases hw : isWhitespace c with
      | false => rfl
      | true =>
        have := hws c hc hw
        rw [this] at hc
        exact absurd hc h32
    refine ⟨trim s, ?_, h32⟩
    rw [h, hsep]
    simp only [Option.getD_none]
    rw [replaceWhitespaceRuns_of_no_whitespace _ _ _ hno]

/-- C36, amended, at a concrete input: `"ab"` with `allowSpaces: false`. -/
theorem validateString_no_space_in_output_witness :
    (∀ c ∈ trim (lit "ab"), isWhitespace c = true → c = 32) ∧
    validateString sampleHost (.string (lit "ab")) { allowSpaces := some false } =
      .returned { isValid := true, validatedInput := some (lit "ab") } ∧
    ∃ out, StringValidationResult.validatedInput
        { isValid := true, validatedInput := some (lit "ab") } = some out ∧ 32 ∉ out :=
  ⟨by decide, by decide,
    validateString_no_space_in_output sampleHost (lit "ab") { allowSpaces := some false }
      { isValid := true, validatedInput := some (lit "ab") } rfl rfl (by decide) (by decide)
      rfl⟩

theorem lt_of_le_of_lt_number (a b c : JSNumber) (hab : JSNumber.le a b = true)
    (hbc : JSNumber.lt b c = true) : JSNumber.lt a c = true := by
  cases a <;> cases b <;> cases c <;>
    simp only [JSNumber.le, JSNumber.lt, decide_eq_true_eq, Bool.false_eq_true] at hab hbc ⊢
  exact lt_of_le_of_lt hab hbc

theorem IsMaximalRun.le_length (s : JSString) (c n : Nat) (h : IsMaximalRun s c n) :
    n ≤ s.length := by
  obtain ⟨-, before, after, rfl, -, -⟩ := h
  simp only [List.length_append, List.length_replicate]
  omega

/-- C39. `STR.hasExcessiveRepetitiveChars` is monotone in its limit: for limits `L1 <= L2`, if
the result is true at `L2` then it is true at `L1`; and for every limit that is at least the
length of the string the result is false. -/
theorem hasExcessiveRepetitiveChars_monotone (s : JSString) (L1 L2 : JSNumber)
    (h12 : JSNumber.le L1 L2 = true) :
    (STR.hasExcessiveRepetitiveChars s L2 = true →
      STR.hasExcessiveRepetitiveChars s L1 = true) ∧
    (∀ L, JSNumber.ge L (JSNumber.ofNat s.length) = true →
      STR.hasExcessiveRepetitiveChars s L = false) := by
  constructor
  · intro h2
    have h := (scanRuns_iff L2 s.length s (Nat.le_refl _)).mp h2
    obtain ⟨c, n, hrun, hgt⟩ := h
    exact (scanRuns_iff L1 s.length s (Nat.le_refl _)).mpr
      ⟨c, n, hrun, lt_of_le_of_lt_number L1 L2 _ h12 hgt⟩
  · intro L hL
    cases hres : STR.hasExcessiveRepetitiveChars s L with
    | false => rfl
    | true =>
      obtain ⟨c, n, hrun, hgt⟩ := (scanRuns_iff L s.length s (Nat.le_refl _)).mp hres
      have hn : n ≤ s.length := IsMaximalRun.le_length s c n hrun
      have h1 : JSNumber.lt (JSNumber.ofNat s.length) (JSNumber.ofNat n) = true :=
        lt_of_le_of_lt_number _ L _ hL hgt
      simp only [JSNumber.lt, JSNumber.ofNat, decide_eq_true_eq, Nat.cast_lt] at h1
      omega

/-- C39, at a concrete input: `"aaab"` has a run of three, which exceeds both `2` and `1`, and
no run exceeds a limit of `4` or more. -/
theorem hasExcessiveRepetitiveChars_monotone_witness :
    JSNumber.le (.ofNat 1) (.ofNat 2) = true ∧
    STR.hasExcessiveRepetitiveChars (lit "aaab") (.ofNat 2) = true ∧
    STR.hasExcessiveRepetitiveChars (lit "aaab") (.ofNat 1) = true ∧
    STR.hasExcessiveRepetitiveChars (lit "aaab") (.ofNat 4) = false ∧
    ((STR.hasExcessiveRepetitiveChars (lit "aaab") (.ofNat 2) = true →
      STR.hasExcessiveRepetitiveChars (lit "aaab") (.ofNat 1) = true) ∧
    (∀ L, JSNumber.ge L (JSNumber.ofNat (lit "aaab").length) = true →
      STR.hasExcessiveRepetitiveChars (lit "aaab") L = false)) :=
  ⟨by decide, by decide, by decide, by decide,
    hasExcessiveRepetitiveChars_monotone (lit "aaab") (.ofNat 1) (.ofNat 2) (by decide)⟩

/-! ## Validating the output again: what the whitespace replacement preserves -/

/-- Replacing whitespace runs by a space does not lengthen a string. -/
theorem replaceWhitespaceRuns_length_le :
    ∀ (t b : JSString) (m : Bool),
      (replaceWhitespaceRuns [32] b m t).length ≤ t.length := by
  intro t
  induction t with
  | nil => intro b m; simp [replaceWhitespaceRuns]
  | cons c cs ih =>
    intro b m
    by_cases hc : isWhitespace c = true
    · cases m with
      | true =>
        simp only [replaceWhitespaceRuns, hc, if_true, List.length_cons]
        exact Nat.le_succ_of_le (ih _ _)
      | false =>
        simp only [replaceWhitespaceRuns, hc, if_true, getSubstitution_space,
          Bool.false_eq_true, if_false, List.length_append, List.length_cons, List.length_nil]
        have := ih (b ++ [c]) true
        omega
    · simp only [replaceWhitespaceRuns, hc, Bool.false_eq_true, if_false, List.length_cons]
      have := ih (b ++ [c]) false
      omega

/-- Replacing whitespace runs by a space leaves the pieces that `split(/\s+/)` finds. -/
theorem splitWhitespaceRuns_replace :
    ∀ (t b : JSString) (m : Bool),
      splitWhitespaceRuns m (replaceWhitespaceRuns [32] b m t) = splitWhitespaceRuns m t := by
  have h32 : isWhitespace 32 = true := by decide
  intro t
  induction t with
  | nil => intro b m; simp [replaceWhitespaceRuns]
  | cons c cs ih =>
    intro b m
    by_cases hc : isWhitespace c = true
    · cases m with
      | true =>
        simp only [replaceWhitespaceRuns, splitWhitespaceRuns, hc, if_true]
        exact ih _ _
      | false =>
        simp only [replaceWhitespaceRuns, splitWhitespaceRuns, hc, if_true,
          getSubstitution_space, Bool.false_eq_true, if_false, List.singleton_append, h32]
        rw [ih]
    · simp only [replaceWhitespaceRuns, splitWhitespaceRuns, hc, Bool.false_eq_true, if_false]
      rw [ih]

/-- After a replaced match the output does not go on with a space. -/
theorem head?_replace_inMatch :
    ∀ (t b : JSString), (replaceWhitespaceRuns [32] b true t).head? ≠ some 32 := by
  intro t
  induction t with
  | nil => intro b; simp [replaceWhitespaceRuns]
  | cons c cs ih =>
    intro b
    by_cases hc : isWhitespace c = true
    · simp only [replaceWhitespaceRuns, hc, if_true]
      exact ih _
    · simp only [replaceWhitespaceRuns, hc, Bool.false_eq_true, if_false, List.head?_cons]
      intro h
      simp only [Option.some.injEq] at h
      rw [h] at hc
      exact hc (by decide)

/-- A run of a non-whitespace unit at the start of the output is at the start of the input. -/
theorem replicate_prefix_replace (c : Nat) (hc : isWhitespace c = false) :
    ∀ (k : Nat) (t b : JSString),
      List.replicate k c <+: replaceWhitespaceRuns [32] b false t →
        List.replicate k c <+: t := by
  intro k
  induction k with
  | zero => intro t b _; simp
  | succ k ih =>
    intro t b h
    cases t with
    | nil => simp [replaceWhitespaceRuns, List.replicate_succ] at h
    | cons x xs =>
      by_cases hx : isWhitespace x = true
      · simp only [replaceWhitespaceRuns, hx, if_true, getSubstitution_space,
          Bool.false_eq_true, if_false, List.singleton_append, List.replicate_succ,
          List.cons_prefix_cons] at h
        have h32 : isWhitespace 32 = true := by decide
        rw [h.1, h32] at hc
        cases hc
      · simp only [replaceWhitespaceRuns, hx, Bool.false_eq_true, if_false,
          List.replicate_succ, List.cons_prefix_cons] at h
        rw [List.replicate_succ, List.cons_prefix_cons]
        exact ⟨h.1, ih xs _ h.2⟩

theorem gt_ofNat_mono (a b : Nat) (L : JSNumber) (hab : a ≤ b)
    (h : JSNumber.gt (JSNumber.ofNat a) L = true) : JSNumber.gt (JSNumber.ofNat b) L = true := by
  cases L with
  | finite q =>
    simp only [JSNumber.gt, JSNumber.lt, JSNumber.ofNat, decide_eq_true_eq] at h ⊢
    have : (a : ℚ) ≤ (b : ℚ) := by exact_mod_cast hab
    exact lt_of_lt_of_le h this
  | posInf => simp [JSNumber.gt, JSNumber.lt, JSNumber.ofNat] at h
  | negInf => rfl
  | nan => simp [JSNumber.gt, JSNumber.lt, JSNumber.ofNat] at h

theorem le_ofNat_mono (a b : Nat) (n : JSNumber) (hab : a ≤ b)
    (h : JSNumber.le (JSNumber.ofNat b) n = true) : JSNumber.le (JSNumber.ofNat a) n = true := by
  cases n with
  | finite q =>
    simp only [JSNumber.le, JSNumber.ofNat, decide_eq_true_eq] at h ⊢
    have : (a : ℚ) ≤ (b : ℚ) := by exact_mod_cast hab
    exact le_trans this h
  | posInf => rfl
  | negInf => simp [JSNumber.le, JSNumber.ofNat] at h
  | nan => simp [JSNumber.le, JSNumber.ofNat] at h

/-- A string ends with a run of `c` (possibly empty) that a unit other than `c` precedes. -/
theorem exists_run_before (c : Nat) :
    ∀ a : JSString, ∃ a2 i, a = a2 ++ List.replicate i c ∧ a2.getLast? ≠ some c := by
  intro a
  induction a using List.reverseRecOn with
  | nil => exact ⟨[], 0, rfl, by simp⟩
  | append_singleton l x ih =>
    by_cases hx : x = c
    · obtain ⟨a2, i, h1, h2⟩ := ih
      refine ⟨a2, i + 1, ?_, h2⟩
      rw [h1, hx, List.replicate_succ', List.append_assoc]
    · refine ⟨l ++ [x], 0, by simp, ?_⟩
      simp only [List.getLast?_append, List.getLast?_singleton]
      intro h
      simp at h
      exact hx h

/-- The function `hasExcessiveRepetitiveChars` is true exactly when some position of the string
starts a run, of a length greater than the limit, of one unit. -/
theorem hasExcessiveRepetitiveChars_iff_run (t : JSString) (L : JSNumber) :
    STR.hasExcessiveRepetitiveChars t L = true ↔
      ∃ y c n, y <:+ t ∧ 0 < n ∧ List.replicate n c <+: y ∧
        JSNumber.gt (JSNumber.ofNat n) L = true := by
  rw [STR.hasExcessiveRepetitiveChars, scanRuns_iff L t.length t (Nat.le_refl _)]
  constructor
  · rintro ⟨c, n, ⟨hn, before, after, h, -, -⟩, hgt⟩
    refine ⟨List.replicate n c ++ after, c, n, ⟨before, ?_⟩, hn, List.prefix_append _ _, hgt⟩
    rw [h, List.append_assoc]
  · rintro ⟨y, c, n, ⟨a, ha⟩, hn, ⟨b, hb⟩, hgt⟩
    obtain ⟨a2, i, h1, h2⟩ := exists_run_before c a
    refine ⟨c, i + n + (b.takeWhile (fun x => decide (x = c))).length,
      ⟨by omega, a2, b.dropWhile (fun x => decide (x = c)), ?_, h2, head?_dropWhile_ne c b⟩,
      gt_ofNat_mono n _ L (by omega) hgt⟩
    rw [← ha, ← hb, h1, List.replicate_add, List.replicate_add, ← takeWhile_eq_replicate]
    conv_lhs => rw [← List.takeWhile_append_dropWhile (fun x => decide (x = c)) b]
    simp only [List.append_assoc]

/-- A run in the output of the whitespace replacement comes with a run, of the same length, in
its input. -/
theorem run_of_replace (L : JSNumber) :
    ∀ (t b : JSString) (m : Bool),
      (∃ y c n, y <:+ replaceWhitespaceRuns [32] b m t ∧ 0 < n ∧ List.replicate n c <+: y ∧
        JSNumber.gt (JSNumber.ofNat n) L = true) →
      ∃ y c n, y <:+ t ∧ 0 < n ∧ List.replicate n c <+: y ∧
        JSNumber.gt (JSNumber.ofNat n) L = true := by
  intro t
  induction t with
  | nil =>
    intro b m h
    simpa [replaceWhitespaceRuns] using h
  | cons x xs ih =>
    intro b m
    have hlift : (∃ y c n, y <:+ xs ∧ 0 < n ∧ List.replicate n c <+: y ∧
          JSNumber.gt (JSNumber.ofNat n) L = true) →
        ∃ y c n, y <:+ x :: xs ∧ 0 < n ∧ List.replicate n c <+: y ∧
          JSNumber.gt (JSNumber.ofNat n) L = true := by
      rintro ⟨y, c, n, hy, hn, hp, hgt⟩
      exact ⟨y, c, n, hy.trans (List.suffix_cons x xs), hn, hp, hgt⟩
    by_cases hx : isWhitespace x = true
    · cases m with
      | true =>
        simp only [replaceWhitespaceRuns, hx, if_true]
        intro h
        exact hlift (ih _ _ h)
      | false =>
        simp only [replaceWhitespaceRuns, hx, if_true, getSubstitution_space,
          Bool.false_eq_true, if_false, List.singleton_append]
        rintro ⟨y, c, n, hy, hn, hp, hgt⟩
        rcases List.suffix_cons_iff.mp hy with rfl | hy
        · obtain ⟨k, rfl⟩ : ∃ k, n = k + 1 := ⟨n - 1, by omega⟩
          rw [List.replicate_succ, List.cons_prefix_cons] at hp
          obtain ⟨rfl, hp⟩ := hp
          cases k with
          | zero =>
            exact ⟨x :: xs, x, 1, List.suffix_refl _, hn,
              by simp [List.replicate_succ, List.cons_prefix_cons], hgt⟩
          | succ k =>
            exfalso
            obtain ⟨rest, hrest⟩ := hp
            apply head?_replace_inMatch xs (b ++ [x])
            rw [← hrest]
            simp [List.replicate_succ]
        · exact hlift (ih _ _ ⟨y, c, n, hy, hn, hp, hgt⟩)
    · simp only [replaceWhitespaceRuns, hx, Bool.false_eq_true, if_false]
      rintro ⟨y, c, n, hy, hn, hp, hgt⟩
      rcases List.suffix_cons_iff.mp hy with rfl | hy
      · obtain ⟨k, rfl⟩ : ∃ k, n = k + 1 := ⟨n - 1, by omega⟩
        rw [List.replicate_succ, List.cons_prefix_cons] at hp
        obtain ⟨rfl, hp⟩ := hp
        have hx2 : isWhitespace c = false := by simpa using hx
        refine ⟨c :: xs, c, k + 1, List.suffix_refl _, hn, ?_, hgt⟩
        rw [List.replicate_succ, List.cons_prefix_cons]
        exact ⟨rfl, replicate_prefix_replace c hx2 k xs _ hp⟩
      · exact hlift (ih _ _ ⟨y, c, n, hy, hn, hp, hgt⟩)

/-- The output of the whitespace replacement exceeds a repetition limit only if its input
does. -/
theorem hasExcessiveRepetitiveChars_replace (t : JSString) (L : JSNumber)
    (h : STR.hasExcessiveRepetitiveChars (replaceWhitespaceRuns [32] [] false t) L = true) :
    STR.hasExcessiveRepetitiveChars t L = true := by
  rw [hasExcessiveRepetitiveChars_iff_run] at h ⊢
  exact run_of_replace L t [] false h

/-- The space-normalized form has no leading or trailing whitespace. -/
theorem trim_spaceNormalized (s : JSString) : trim (spaceNormalized s) = spaceNormalized s := by
  have h1 : replaceWhitespaceRuns [32] [] false (trim (spaceNormalized s)) =
      spaceNormalized s := by
    rw [replace_trim_eq_spaceNormalized, spaceNormalized_idem]
  have h2 := replaceWhitespaceRuns_length_le (trim (spaceNormalized s)) [] false
  rw [h1] at h2
  have h3 : (trim (spaceNormalized s)).Sublist (spaceNormalized s) := by
    rw [trim_eq]
    exact (List.rdropWhile_prefix _ _).sublist.trans (List.dropWhile_suffix _).sublist
  exact h3.eq_of_length_le h2

theorem spaceNormalized_length_le (s : JSString) :
    (spaceNormalized s).length ≤ (trim s).length := by
  rw [← replace_trim_eq_spaceNormalized]
  exact replaceWhitespaceRuns_length_le _ _ _

theorem splitWhitespaceRuns_spaceNormalized (s : JSString) :
    splitWhitespaceRuns false (spaceNormalized s) = splitWhitespaceRuns false (trim s) := by
  rw [← replace_trim_eq_spaceNormalized]
  exact splitWhitespaceRuns_replace _ _ _

theorem hasNonWhitespace_spaceNormalized (s : JSString) :
    hasNonWhitespace (spaceNormalized s) = hasNonWhitespace s := by
  rw [spaceNormalized_eq_normalizeFrom, hasNonWhitespace_normalizeFrom]

/-- Under options that configure none of the rules the whitespace replacement can change, a
rule that does not hold for the trimmed input does not hold for the space-normalized input. -/
theorem ruleHolds_spaceNormalized (H : Host) (o : StringValidatorOptions) (s : JSString)
    (ho : setsOnlyPreservedRules o = true) (rule : RuleName)
    (hrule : ruleHolds H o (trim s) rule = false) :
    ruleHolds H o (trim (spaceNormalized s)) rule = false := by
  simp only [setsOnlyPreservedRules, Bool.and_eq_true, Option.isNone_iff_eq_none] at ho
  obtain ⟨⟨⟨⟨⟨⟨⟨⟨⟨hmin, hallowed⟩, hdis⟩, hbl⟩, hsw⟩, hew⟩, hpat⟩, hcustom⟩, hsep⟩, hspaces⟩ := ho
  rw [trim_spaceNormalized]
  cases rule with
  | required =>
    have h1 := isStringRequired_trim s
    have h2 := isStringRequired_trim (spaceNormalized s)
    rw [trim_spaceNormalized, hasNonWhitespace_spaceNormalized] at h2
    simp only [ruleHolds] at hrule ⊢
    rw [h2]
    rw [h1] at hrule
    exact hrule
  | allowedCharacters => simp [ruleHolds, hallowed]
  | minimumLength => simp [ruleHolds, hmin]
  | maximumLength =>
    simp only [ruleHolds] at hrule ⊢
    cases hm : o.maxLength with
    | none => rfl
    | some n =>
      rw [hm] at hrule
      simp only [Bool.and_eq_false_iff, Bool.not_eq_false'] at hrule ⊢
      rcases hrule with h | h
      · exact Or.inl h
      · exact Or.inr (le_ofNat_mono _ _ n (spaceNormalized_length_le s) h)
  | pattern => simp [ruleHolds, hpat, resolvedRegExp]
  | disallowedCharacters => simp [ruleHolds, hdis]
  | customPredicate => simp [ruleHolds, hcustom]
  | blacklist => simp [ruleHolds, hbl]
  | startsWith => simp [ruleHolds, hsw]
  | endsWith => simp [ruleHolds, hew]
  | spacePolicy => simp [ruleHolds, hspaces, STR.isSpacesAllowed]
  | minimumWords =>
    simp only [ruleHolds, STR.isWordCountAboveThreshold, trim_trim, trim_spaceNormalized,
      splitWhitespaceRuns_spaceNormalized] at hrule ⊢
    exact hrule
  | maximumWords =>
    simp only [ruleHolds, STR.isWordCountBelowThreshold, trim_trim, trim_spaceNormalized,
      splitWhitespaceRuns_spaceNormalized] at hrule ⊢
    exact hrule
  | repetition =>
    simp only [ruleHolds] at hrule ⊢
    cases hx : STR.hasExcessiveRepetitiveChars (spaceNormalized s)
        (o.maxRepetitiveCharsLimit.getD .posInf) with
    | false => rfl
    | true =>
      rw [← replace_trim_eq_spaceNormalized] at hx
      rw [hasExcessiveRepetitiveChars_replace _ _ hx] at hrule
      cases hrule

/-- C13 fails, once for each rule that is evaluated on the trimmed input and that the
whitespace replacement can contradict. `"a   b"` meets `minLength: 5` and its output `"a b"`
does not. The input `"a\tb"` has the output `"a b"`, which has lost the tab that
`allowedChars`, the pattern `/\t/`, `startsWithPattern` or `endsWithPattern` ask for, and has
gained the space that `disallowedChars`, `blacklistWords` or `allowSpaces: false` forbid. A
custom predicate can tell `"a  b"` from `"a b"`. With `wordSeparator: "-"` the output `"a-b"`
of `"a b"` is one word and fails `minWordsCount: 2`. -/
theorem validateString_output_fails_same_options :
    (validateString sampleHost (.string (lit "a   b")) { minLength := some (.ofNat 5) } =
        .returned { isValid := true, validatedInput := some (lit "a b") } ∧
      validateString sampleHost (.string (lit "a b")) { minLength := some (.ofNat 5) } =
        .returned
          { isValid := false,
            errorMessage := some (lit "Name must be at least 5 characters long") }) ∧
    (validateString sampleHost (.string (lit "a\tb")) { allowedChars := some [lit "\t"] } =
        .returned { isValid := true, validatedInput := some (lit "a b") } ∧
      validateString sampleHost (.string (lit "a b")) { allowedChars := some [lit "\t"] } =
        .returned
          { isValid := false,
            errorMessage := some (lit "Name contains disallowed characters") }) ∧
    (validateString tabHost (.string (lit "a\tb")) { regexPattern := some (.regExp tabRegExp) } =
        .returned { isValid := true, validatedInput := some (lit "a b") } ∧
      validateString tabHost (.string (lit "a b")) { regexPattern := some (.regExp tabRegExp) } =
        .returned { isValid := false, errorMessage := some (lit "Invalid input pattern") }) ∧
    (validateString sampleHost (.string (lit "a\tb")) { disallowedChars := some [lit " "] } =
        .returned { isValid := true, validatedInput := some (lit "a b") } ∧
      validateString sampleHost (.string (lit "a b")) { disallowedChars := some [lit " "] } =
        .returned
          { isValid := false,
            errorMessage := some (lit "Name contains disallowed characters") }) ∧
    (validateString sampleHost (.string (lit "a  b"))
          { customValidationFn := some (fun t => t == lit "a  b") } =
        .returned { isValid := true, validatedInput := some (lit "a b") } ∧
      validateString sampleHost (.string (lit "a b"))
          { customValidationFn := some (fun t => t == lit "a  b") } =
        .returned { isValid := false, errorMessage := some (lit "Custom validation failed") }) ∧
    (validateString sampleHost (.string (lit "a\tb")) { blacklistWords := some [lit " "] } =
        .returned { isValid := true, validatedInput := some (lit "a b") } ∧
      validateString sampleHost (.string (lit "a b")) { blacklistWords := some [lit " "] } =
        .returned
          { isValid := false, errorMessage := some (lit "Name contains blacklisted words") }) ∧
    (validateString sampleHost (.string (lit "a\tb")) { startsWithPattern := some (lit "a\t") } =
        .returned { isValid := true, validatedInput := some (lit "a b") } ∧
      validateString sampleHost (.string (lit "a b")) { startsWithPattern := some (lit "a\t") } =
        .returned
          { isValid := false, errorMessage := some (lit "Name must start with a\t") }) ∧
    (validateString sampleHost (.string (lit "a\tb")) { endsWithPattern := some (lit "\tb") } =
        .returned { isValid := true, validatedInput := some (lit "a b") } ∧
      validateString sampleHost (.string (lit "a b")) { endsWithPattern := some (lit "\tb") } =
        .returned
          { isValid := false,
            errorMessage := some (lit "Name must end with \x27\tb\x27") }) ∧
    (validateString sampleHost (.string (lit "a\tb")) { allowSpaces := some false } =
        .returned { isValid := true, validatedInput := some (lit "a b") } ∧
      validateString sampleHost (.string (lit "a b")) { allowSpaces := some false } =
        .returned
          { isValid := false,
            errorMessage := some (lit "Spaces are not allowed in the name") }) ∧
    (validateString sampleHost (.string (lit "a b"))
          { wordSeparator := some (lit "-"), minWordsCount := some (.ofNat 2) } =
        .returned { isValid := true, validatedInput := some (lit "a-b") } ∧
      validateString sampleHost (.string (lit "a-b"))
          { wordSeparator := some (lit "-"), minWordsCount := some (.ofNat 2) } =
        .returned
          { isValid := false,
            errorMessage := some (lit "Name must contain at least 2 words") }) := by
  refine ⟨⟨?_, ?_⟩, ⟨?_, ?_⟩, ⟨?_, ?_⟩, ⟨?_, ?_⟩, ⟨?_, ?_⟩, ⟨?_, ?_⟩, ⟨?_, ?_⟩, ⟨?_, ?_⟩, ⟨?_, ?_⟩,
    ⟨?_, ?_⟩⟩ <;> decide

/-- C13, amended. For options that set none of `minLength`, `allowedChars`, `disallowedChars`,
`blacklistWords`, `startsWithPattern`, `endsWithPattern`, `regexPattern`, `customValidationFn`
and `wordSeparator` and do not set `allowSpaces` to false: if `validateString(s, o)` succeeds
with `validatedInput` `v`, then `validateString(v, o)` with the same options also succeeds
(and returns `v` again). -/
theorem validateString_output_revalidates (H : Host) (s v : JSString)
    (o : StringValidatorOptions) (r : StringValidationResult)
    (ho : setsOnlyPreservedRules o = true)
    (hr : validateString H (.string s) o = .returned r)
    (hvalid : r.isValid = true) (hv : r.validatedInput = some v) :
    validateString H (.string v) o =
      .returned { isValid := true, validatedInput := some v } := by
  have ho2 := ho
  simp only [setsOnlyPreservedRules, Bool.and_eq_true, Option.isNone_iff_eq_none] at ho2
  have hpat : o.regexPattern = none := ho2.1.1.1.2
  have hsep : o.wordSeparator = none := ho2.1.2
  have hl : lit " " = [32] := by decide
  have hnr : ¬ ∃ e, validateString H (.string s) o = .raised e := by
    rw [hr]
    rintro ⟨e, he⟩
    cases he
  rw [validateString_raises_iff] at hnr
  have hk : (ownKeys o).filter (fun key => !inValidOptions key) = [] := by
    rw [List.filter_eq_nil_iff]
    intro k hk1 hk2
    apply hnr
    exact Or.inl ⟨k, hk1, by simpa using hk2⟩
  have hres : Resolvable o.regexPattern = true := by rw [hpat]; rfl
  have h := validateString_returned_eq H s o r hr
  cases hf : ruleOrder.find? (ruleHolds H o (trim s)) with
  | some rule => rw [hf] at h; rw [h] at hvalid; simp at hvalid
  | none =>
    rw [hf] at h
    simp only [hsep, Option.getD_none, hl, replace_trim_eq_spaceNormalized] at h
    rw [h] at hv
    simp only [Option.some.injEq] at hv
    subst hv
    have hnone : ruleOrder.find? (ruleHolds H o (trim (spaceNormalized s))) = none := by
      rw [List.find?_eq_none]
      intro rule hmem
      have h1 : ruleHolds H o (trim s) rule = false := by
        simpa using List.find?_eq_none.mp hf rule hmem
      rw [ruleHolds_spaceNormalized H o s ho rule h1]
      simp
    rw [validateString_of_resolvable H _ o hk hres, validationRules_eq_map, firstFailure_map,
      hnone]
    simp only [hsep, Option.getD_none, hl, replace_trim_eq_spaceNormalized, spaceNormalized_idem]

/-- C13, amended, at a concrete input: `"  aa \t bb  "` under a maximum length, word-count
bounds and a repetition limit has the output `"aa bb"`, which differs from the trimmed input
and succeeds again. -/
theorem validateString_output_revalidates_witness :
    setsOnlyPreservedRules
        { maxLength := some (.ofNat 7), minWordsCount := some (.ofNat 2),
          maxWordsCount := some (.ofNat 2), maxRepetitiveCharsLimit := some (.ofNat 2) } = true ∧
    validateString sampleHost (.string (lit "  aa \t bb  "))
        { maxLength := some (.ofNat 7), minWordsCount := some (.ofNat 2),
          maxWordsCount := some (.ofNat 2), maxRepetitiveCharsLimit := some (.ofNat 2) } =
      .returned { isValid := true, validatedInput := some (lit "aa bb") } ∧
    lit "aa bb" ≠ trim (lit "  aa \t bb  ") ∧
    validateString sampleHost (.string (lit "aa bb"))
        { maxLength := some (.ofNat 7), minWordsCount := some (.ofNat 2),
          maxWordsCount := some (.ofNat 2), maxRepetitiveCharsLimit := some (.ofNat 2) } =
      .returned { isValid := true, validatedInput := some (lit "aa bb") } :=
  ⟨by decide, by decide, by decide,
    validateString_output_revalidates sampleHost (lit "  aa \t bb  ") (lit "aa bb")
      { maxLength := some (.ofNat 7), minWordsCount := some (.ofNat 2),
        maxWordsCount := some (.ofNat 2), maxRepetitiveCharsLimit := some (.ofNat 2) }
      { isValid := true, validatedInput := some (lit "aa bb") }
      (by decide) (by decide) rfl rfl⟩

end DsValidator
